import Mathlib

/-!
# Token lifecycle of the financial transaction system

A shallow embedding of `internal/auth/jwt.go` (the token manager), of the
authentication gate `authMiddleware` and the refresh handler in
`cmd/server/main.go`, of the JWT entries of `internal/config/config.go`, of
`internal/utils/password.go`, of the registration, login, refresh and
password change of `internal/services/user_service.go` with the operations of
`internal/db/user_repository.go` they call, and of the parts of
`github.com/golang-jwt/jwt/v5`, `encoding/base64` and
`golang.org/x/crypto/bcrypt` that this code calls.

Conventions.
* A Go `string` or `[]byte` on the wire is a list of bytes (`Bytes`), a byte
  being a natural number below 256.
* A `time.Time` is an integer number of nanoseconds since the Unix epoch; a
  `time.Duration` is an integer number of nanoseconds; a `jwt.NumericDate` is
  an integer number of whole seconds (the library truncates to
  `TimePrecision = time.Second`).
* Every call of `time.Now()` in the source is an explicit clock reading passed
  as an argument, in the order in which the source takes them.
* The text fields of the claims (email, token type, issuer, subject) are
  strings; JSON carries them as text.
* JSON serialisation and the keyed hash are not part of the repository: they
  are the fields of a `Lib` record, which every operation takes as argument.
  What a theorem assumes of them is stated as `Lib.Serialises`, for the claims
  at hand only. A small instance, `Ref.lib`, makes every operation computable
  on concrete tokens.
* The password hasher is a `Bcrypt` record. The library itself is embedded as
  `xcrypto`, over the cipher of `golang.org/x/crypto/blowfish` as a parameter
  (`Blowfish`), of which nothing is assumed.
-/

namespace FinTx

/-! ## Bytes and base64url (`encoding/base64`, `RawURLEncoding`) -/

/-- Byte strings: Go `string` and `[]byte`. -/
abbrev Bytes := List Nat

/-- The bytes of an ASCII literal. -/
def ascii (s : String) : Bytes := s.toList.map Char.toNat

/-- Alphabet of `base64.URLEncoding`: `A-Z a-z 0-9 - _`. -/
def encodeURL (v : Nat) : Nat :=
  if v < 26 then 65 + v
  else if v < 52 then 97 + (v - 26)
  else if v < 62 then 48 + (v - 52)
  else if v = 62 then 45
  else 95

/-- The decode map of `base64.URLEncoding`; `none` stands for the entry `0xff`. -/
def decodeMap (c : Nat) : Option Nat :=
  if 65 ≤ c ∧ c ≤ 90 then some (c - 65)
  else if 97 ≤ c ∧ c ≤ 122 then some (c - 97 + 26)
  else if 48 ≤ c ∧ c ≤ 57 then some (c - 48 + 52)
  else if c = 45 then some 62
  else if c = 95 then some 63
  else none

/-- `Encoding.Encode` without padding, on 6-bit values: three bytes give four
values, a remainder of two bytes gives three, of one byte gives two. -/
def encodeSextets : Bytes → List Nat
  | a :: b :: c :: rest =>
      let val := a * 65536 + b * 256 + c
      (val / 262144 % 64) :: (val / 4096 % 64) :: (val / 64 % 64) :: (val % 64) ::
        encodeSextets rest
  | [a, b] =>
      let val := a * 65536 + b * 256
      [val / 262144 % 64, val / 4096 % 64, val / 64 % 64]
  | [a] =>
      let val := a * 65536
      [val / 262144 % 64, val / 4096 % 64]
  | [] => []

/-- `RawURLEncoding.EncodeToString`. -/
def EncodeSegment (seg : Bytes) : Bytes := (encodeSextets seg).map encodeURL

/-- The character pass of `Encoding.decodeQuantum`: a character of the alphabet
gives its 6-bit value, `\n` and `\r` are skipped, every other byte (the padding
character included, `RawURLEncoding` has none) is a `CorruptInputError`. -/
def decodeChars : Bytes → Option (List Nat)
  | [] => some []
  | c :: cs =>
      match decodeMap c with
      | some v => (decodeChars cs).map (fun vs => v :: vs)
      | none => if c = 10 ∨ c = 13 then decodeChars cs else none

/-- The quantum pass of `Encoding.decodeQuantum`, not strict: four values give
three bytes, a final group of three gives two bytes and of two gives one byte
(the bits left over are dropped without being inspected), a final group of one
is a `CorruptInputError`. -/
def decodeSextets : List Nat → Option Bytes
  | a :: b :: c :: d :: rest =>
      let val := a * 262144 + b * 4096 + c * 64 + d
      (decodeSextets rest).map
        (fun bs => (val / 65536 % 256) :: (val / 256 % 256) :: (val % 256) :: bs)
  | [a, b, c] =>
      let val := a * 262144 + b * 4096 + c * 64
      some [val / 65536 % 256, val / 256 % 256]
  | [a, b] =>
      let val := a * 262144 + b * 4096
      some [val / 65536 % 256]
  | [_] => none
  | [] => some []

/-- `Parser.DecodeSegment` with the default options (no padding, not strict):
`base64.RawURLEncoding.DecodeString`. -/
def DecodeSegment (seg : Bytes) : Option Bytes :=
  (decodeChars seg).bind decodeSextets

/-- `strings.Split(s, sep)` for a one-byte separator. -/
def splitOn (sep : Nat) : Bytes → List Bytes
  | [] => [[]]
  | c :: cs =>
      if c = sep then [] :: splitOn sep cs
      else
        match splitOn sep cs with
        | [] => [[c]]
        | p :: ps => (c :: p) :: ps

/-! ## Data model (`internal/models/user.go`, `internal/auth/jwt.go`) -/

deriving instance DecidableEq for Except

/-- A `uuid.UUID`: sixteen bytes, read as a number below `2 ^ 128`. -/
abbrev UUID := Nat

/-- The value `uuid.Nil`. -/
def UUID.Nil : UUID := 0

/-- One lower-case hexadecimal digit. -/
def hexDigit (n : Nat) : Char :=
  if n < 10 then Char.ofNat (48 + n) else Char.ofNat (87 + n)

/-- The two hexadecimal digits of byte number `i` (from the left) of a UUID. -/
def UUID.hexByte (u : UUID) (i : Nat) : List Char :=
  let b := u / 256 ^ (15 - i) % 256
  [hexDigit (b / 16), hexDigit (b % 16)]

/-- `UUID.String`: the form `xxxxxxxx-xxxx-xxxx-xxxx-xxxxxxxxxxxx`. -/
def UUID.String (u : UUID) : String :=
  String.mk (((List.range 16).map (fun i =>
    (if i = 4 ∨ i = 6 ∨ i = 8 ∨ i = 10 then ['-'] else []) ++ UUID.hexByte u i)).flatten)

/-- The fields of `models.User` that the token manager reads. -/
structure User where
  ID : UUID
  Email : String
  deriving DecidableEq, Repr

/-- A `jwt.NumericDate`: whole seconds since the Unix epoch. -/
abbrev NumericDate := Int

/-- `jwt.NewNumericDate(t)`: `t.Truncate(time.Second)`, as a number of seconds. -/
def NewNumericDate (t : Int) : NumericDate := t / 1000000000

/-- The `time.Time` wrapped by a `NumericDate`, in nanoseconds. -/
def NumericDate.Time (d : NumericDate) : Int := d * 1000000000

/-- `Time.Unix()`: the seconds elapsed since the epoch. -/
def Unix (t : Int) : Int := t / 1000000000

/-- `jwt.RegisteredClaims`. A pointer field that is `nil` is `none`. -/
structure RegisteredClaims where
  Issuer : String
  Subject : String
  Audience : List String
  ExpiresAt : Option NumericDate
  NotBefore : Option NumericDate
  IssuedAt : Option NumericDate
  ID : String
  deriving DecidableEq, Repr

/-- `auth.Claims`: the payload of every token; `Registered` is the embedded
`jwt.RegisteredClaims`. -/
structure Claims where
  UserID : UUID
  Email : String
  TokenType : String
  Registered : RegisteredClaims
  deriving DecidableEq, Repr

/-- `models.LoginResponse`. -/
structure LoginResponse where
  User : User
  AccessToken : Bytes
  RefreshToken : Bytes
  ExpiresAt : Int
  deriving DecidableEq, Repr

/-- The errors declared in `internal/auth/jwt.go`. -/
inductive AuthError where
  | ErrInvalidToken
  | ErrExpiredToken
  | ErrInvalidClaims
  deriving DecidableEq, Repr

/-- `auth.JWTManager`: the secret and the two lifetimes (nanoseconds). -/
structure JWTManager where
  secretKey : Bytes
  tokenExpiry : Int
  refreshExpiry : Int
  deriving DecidableEq, Repr

/-! ## The token library (`github.com/golang-jwt/jwt/v5`) -/

/-- The hash functions of the registered signing methods. -/
inductive Hash where
  | SHA256
  | SHA384
  | SHA512
  deriving DecidableEq, Repr

/-- The signing methods registered by the library, by Go type:
`*SigningMethodHMAC`, `*SigningMethodRSA`, `*SigningMethodRSAPSS`,
`*SigningMethodECDSA`, `*SigningMethodEd25519` and the `none` method. -/
inductive SigningMethod where
  | HMAC (h : Hash)
  | RSA (h : Hash)
  | RSAPSS (h : Hash)
  | ECDSA (h : Hash)
  | Ed25519
  | NoneMethod
  deriving DecidableEq, Repr

/-- `SigningMethod.Alg()`. -/
def SigningMethod.Alg : SigningMethod → String
  | .HMAC .SHA256 => "HS256"
  | .HMAC .SHA384 => "HS384"
  | .HMAC .SHA512 => "HS512"
  | .RSA .SHA256 => "RS256"
  | .RSA .SHA384 => "RS384"
  | .RSA .SHA512 => "RS512"
  | .RSAPSS .SHA256 => "PS256"
  | .RSAPSS .SHA384 => "PS384"
  | .RSAPSS .SHA512 => "PS512"
  | .ECDSA .SHA256 => "ES256"
  | .ECDSA .SHA384 => "ES384"
  | .ECDSA .SHA512 => "ES512"
  | .Ed25519 => "EdDSA"
  | .NoneMethod => "none"

/-- The registry filled by the library's `init` functions
(`RegisterSigningMethod`), each method under its own `Alg()`. -/
def signingMethods : List SigningMethod :=
  [.HMAC .SHA256, .HMAC .SHA384, .HMAC .SHA512,
   .RSA .SHA256, .RSA .SHA384, .RSA .SHA512,
   .RSAPSS .SHA256, .RSAPSS .SHA384, .RSAPSS .SHA512,
   .ECDSA .SHA256, .ECDSA .SHA384, .ECDSA .SHA512,
   .Ed25519, .NoneMethod]

/-- `jwt.GetSigningMethod(alg)`: the registered method of that name, if any. -/
def GetSigningMethod (alg : String) : Option SigningMethod :=
  signingMethods.find? (fun m => decide (m.Alg = alg))

/-- The JOSE header as the parser reads it: `Header["alg"].(string)` and
`Header["typ"].(string)`, `none` when the entry is missing or not a string. -/
structure Header where
  alg : Option String
  typ : Option String
  deriving DecidableEq, Repr

/-- The sentinel errors of the library that a parse error can wrap;
`ErrKeyFunc` stands for the error that the key function returns. -/
inductive JwtError where
  | ErrTokenMalformed
  | ErrTokenUnverifiable
  | ErrTokenSignatureInvalid
  | ErrTokenInvalidClaims
  | ErrTokenExpired
  | ErrTokenNotValidYet
  | ErrSignatureInvalid
  | ErrInvalidKeyType
  | NoneSignatureTypeDisallowedError
  | ErrKeyFunc
  deriving DecidableEq, Repr

/-- An error value of the library: the sentinel errors it wraps (`newError`
joins them), outermost first. -/
abbrev ParseError := List JwtError

/-- `errors.Is(err, target)` for a sentinel target. -/
def errorsIs (err : ParseError) (target : JwtError) : Bool := decide (target ∈ err)

/-- `jwt.Token` with the claims type fixed to `*Claims`. -/
structure Token where
  Raw : Bytes
  Method : SigningMethod
  Header : Header
  Claims : Claims
  Signature : Bytes
  Valid : Bool
  deriving DecidableEq, Repr

/-- What the token manager takes from outside the repository: `encoding/json`
on the header and on `Claims` (`json.Marshal` and `json.Unmarshal`), and the
keyed hash `hmac.New(h, key)` applied to a message. -/
structure Lib where
  marshalHeader : Header → Bytes
  unmarshalHeader : Bytes → Option Header
  marshalClaims : Claims → Bytes
  unmarshalClaims : Bytes → Option Claims
  hmac : Hash → Bytes → Bytes → Bytes

/-- `Token.SigningString`: the two encoded segments joined by a dot. -/
def SigningString (lib : Lib) (h : Header) (c : Claims) : Bytes :=
  EncodeSegment (lib.marshalHeader h) ++ 46 :: EncodeSegment (lib.marshalClaims c)

/-- `SigningMethod.Sign(signingString, key)` for a key of type `[]byte`: the
HMAC methods return the keyed hash (the hash functions are linked into the
server, so `Hash.Available()` holds), the `none` method refuses every key but
its magic constant, every other method refuses the key type. -/
def SigningMethod.Sign (lib : Lib) (m : SigningMethod) (signingString key : Bytes) :
    Except JwtError Bytes :=
  match m with
  | .HMAC h => .ok (lib.hmac h key signingString)
  | .NoneMethod => .error .NoneSignatureTypeDisallowedError
  | _ => .error .ErrInvalidKeyType

/-- `SigningMethod.Verify(signingString, sig, key)` for a key of type `[]byte`:
the HMAC methods recompute the keyed hash and compare it with `sig`
(`hmac.Equal`), the `none` method refuses every key but its magic constant,
every other method refuses the key type. -/
def SigningMethod.Verify (lib : Lib) (m : SigningMethod) (signingString sig key : Bytes) :
    Except JwtError Unit :=
  match m with
  | .HMAC h => if sig = lib.hmac h key signingString then .ok () else .error .ErrSignatureInvalid
  | .NoneMethod => .error .NoneSignatureTypeDisallowedError
  | _ => .error .ErrInvalidKeyType

/-- The header that `jwt.NewWithClaims(method, claims)` builds:
`typ = JWT, alg = method.Alg()`. -/
def jwtHeader (m : SigningMethod) : Header := { alg := some m.Alg, typ := some "JWT" }

/-- `jwt.NewWithClaims(method, claims).SignedString(key)`: the signing string,
a dot and the encoded signature. -/
def SignedString (lib : Lib) (m : SigningMethod) (c : Claims) (key : Bytes) :
    Except JwtError Bytes :=
  let sstr := SigningString lib (jwtHeader m) c
  match m.Sign lib sstr key with
  | .error e => .error e
  | .ok sig => .ok (sstr ++ 46 :: EncodeSegment sig)

/-- `Parser.ParseUnverified`: exactly three dot-separated parts, the header and
the claims decoded from base64url and JSON, the method looked up from the
header's `alg`. The signature is not touched. -/
def ParseUnverified (lib : Lib) (tokenString : Bytes) :
    Except ParseError (Token × Bytes × Bytes × Bytes) :=
  match splitOn 46 tokenString with
  | [p0, p1, p2] =>
      match DecodeSegment p0 with
      | none => .error [.ErrTokenMalformed]
      | some headerBytes =>
        match lib.unmarshalHeader headerBytes with
        | none => .error [.ErrTokenMalformed]
        | some header =>
          match DecodeSegment p1 with
          | none => .error [.ErrTokenMalformed]
          | some claimBytes =>
            match lib.unmarshalClaims claimBytes with
            | none => .error [.ErrTokenMalformed]
            | some claims =>
              match header.alg with
              | none => .error [.ErrTokenUnverifiable]
              | some alg =>
                match GetSigningMethod alg with
                | none => .error [.ErrTokenUnverifiable]
                | some m =>
                  .ok ({ Raw := tokenString, Method := m, Header := header, Claims := claims,
                         Signature := [], Valid := false }, p0, p1, p2)
  | _ => .error [.ErrTokenMalformed]

/-- `Validator.Validate` with the default validator (no leeway, no expected
issuer, audience or subject, `iat` not verified): `exp`, when present, must be
after `now`; `nbf`, when present, must not be after `now`. The failures are
collected and joined. -/
def Validate (c : Claims) (now : Int) : ParseError :=
  (match c.Registered.ExpiresAt with
   | some exp => if now < exp.Time then [] else [JwtError.ErrTokenExpired]
   | none => []) ++
  (match c.Registered.NotBefore with
   | some nbf => if now < nbf.Time then [JwtError.ErrTokenNotValidYet] else []
   | none => [])

/-- `Parser.ParseWithClaims` with the default parser (no valid-method list, no
strict decoding) and a key function returning a `[]byte` key or an error:
parse, decode the signature, look up the key, verify the signature over
`header.payload`, validate the claims. Releases of the library differ in which
of the signature decoding and the key lookup comes first; both failures are
errors other than `ErrTokenExpired`. -/
def ParseWithClaims (lib : Lib) (tokenString : Bytes)
    (keyFunc : Token → Except Unit Bytes) (now : Int) : Except ParseError Token :=
  match ParseUnverified lib tokenString with
  | .error e => .error e
  | .ok (token, p0, p1, p2) =>
    match DecodeSegment p2 with
    | none => .error [.ErrTokenMalformed]
    | some sig =>
      let token := { token with Signature := sig }
      match keyFunc token with
      | .error _ => .error [.ErrTokenUnverifiable, .ErrKeyFunc]
      | .ok key =>
        match token.Method.Verify lib (p0 ++ 46 :: p1) sig key with
        | .error e => .error [.ErrTokenSignatureInvalid, e]
        | .ok _ =>
          match Validate token.Claims now with
          | [] => .ok { token with Valid := true }
          | errs => .error (.ErrTokenInvalidClaims :: errs)

/-! ## The token manager (`internal/auth/jwt.go`) -/

/-- The `Claims` literal of `generateToken`, the clock read as `now`. -/
def newClaims (user : User) (tokenType : String) (expiry : Int) (now : Int) : Claims :=
  { UserID := user.ID
    Email := user.Email
    TokenType := tokenType
    Registered :=
      { ExpiresAt := some (NewNumericDate (now + expiry))
        IssuedAt := some (NewNumericDate now)
        NotBefore := some (NewNumericDate now)
        Issuer := "financial-transaction-system"
        Subject := user.ID.String
        Audience := []
        ID := "" } }

/-- `JWTManager.generateToken`, the clock read as `now`. -/
def JWTManager.generateToken (lib : Lib) (j : JWTManager) (user : User) (tokenType : String)
    (expiry : Int) (now : Int) : Except JwtError Bytes :=
  SignedString lib (.HMAC .SHA256) (newClaims user tokenType expiry now) j.secretKey

/-- `JWTManager.GenerateTokens`; `t1`, `t2`, `t3` are the clock readings of the
access token, of the refresh token and of the `ExpiresAt` field. -/
def JWTManager.GenerateTokens (lib : Lib) (j : JWTManager) (user : User) (t1 t2 t3 : Int) :
    Except JwtError LoginResponse :=
  match j.generateToken lib user "access" j.tokenExpiry t1 with
  | .error err => .error err
  | .ok accessToken =>
    match j.generateToken lib user "refresh" j.refreshExpiry t2 with
    | .error err => .error err
    | .ok refreshToken =>
      .ok { User := user
            AccessToken := accessToken
            RefreshToken := refreshToken
            ExpiresAt := Unix (t3 + j.tokenExpiry) }

/-- The key function that `ValidateToken` hands to the parser. -/
def JWTManager.keyFunc (j : JWTManager) (token : Token) : Except Unit Bytes :=
  match token.Method with
  | .HMAC _ => .ok j.secretKey
  | _ => .error ()

/-- `JWTManager.ValidateToken`, the clock read as `now`. The type assertion
`token.Claims.(*Claims)` holds by construction, `token.Valid` is tested. -/
def JWTManager.ValidateToken (lib : Lib) (j : JWTManager) (tokenString : Bytes) (now : Int) :
    Except AuthError Claims :=
  match ParseWithClaims lib tokenString j.keyFunc now with
  | .error err =>
      if errorsIs err .ErrTokenExpired then .error .ErrExpiredToken
      else .error .ErrInvalidToken
  | .ok token =>
      if !token.Valid then .error .ErrInvalidClaims
      else .ok token.Claims

/-- The error of an operation that can fail in the manager (`AuthError`) or in
signing (`JwtError`). -/
inductive Error where
  | auth (e : AuthError)
  | sign (e : JwtError)
  deriving DecidableEq, Repr

/-- `JWTManager.RefreshToken`; `t0` is the clock reading of the validation,
`t1`, `t2`, `t3` those of `GenerateTokens`. -/
def JWTManager.RefreshToken (lib : Lib) (j : JWTManager) (refreshTokenString : Bytes)
    (t0 t1 t2 t3 : Int) : Except Error LoginResponse :=
  match j.ValidateToken lib refreshTokenString t0 with
  | .error err => .error (.auth err)
  | .ok claims =>
    if claims.TokenType ≠ "refresh" then .error (.auth .ErrInvalidToken)
    else
      let user : User := { ID := claims.UserID, Email := claims.Email }
      match j.GenerateTokens lib user t1 t2 t3 with
      | .error err => .error (.sign err)
      | .ok pair => .ok pair

/-- `JWTManager.ExtractUserID`, the clock read as `now`; the error case stands
for the return value `(uuid.Nil, err)`. -/
def JWTManager.ExtractUserID (lib : Lib) (j : JWTManager) (tokenString : Bytes) (now : Int) :
    Except AuthError UUID :=
  match j.ValidateToken lib tokenString now with
  | .error err => .error err
  | .ok claims =>
    if claims.TokenType ≠ "access" then .error .ErrInvalidToken
    else .ok claims.UserID

/-! ## The authentication gate (`cmd/server/main.go`) -/

/-- What the gate reads and writes of a `gin.Context`: the request headers, the
response written by `c.JSON` (status and the `error` entry of the body), the
abort flag, the `Keys` map and whether `c.Next()` was called. -/
structure Context where
  headers : List (String × Bytes)
  status : Option Nat
  body : Option String
  aborted : Bool
  keys : List (String × UUID)
  next : Bool
  deriving DecidableEq, Repr

/-- `c.GetHeader(key)`: the value of the header, empty when it is absent. -/
def Context.GetHeader (c : Context) (key : String) : Bytes :=
  match c.headers.lookup key with
  | some v => v
  | none => []

/-- `c.JSON(code, gin.H{"error": msg})`. -/
def Context.JSON (c : Context) (code : Nat) (msg : String) : Context :=
  { c with status := some code, body := some msg }

/-- `c.Abort()`. -/
def Context.Abort (c : Context) : Context := { c with aborted := true }

/-- `c.Set(key, value)`. -/
def Context.Set (c : Context) (key : String) (value : UUID) : Context :=
  { c with keys := (key, value) :: c.keys.filter (fun kv => kv.1 ≠ key) }

/-- `c.Get(key)`. -/
def Context.Get (c : Context) (key : String) : Option UUID := c.keys.lookup key

/-- `c.Next()`. -/
def Context.Next (c : Context) : Context := { c with next := true }

/-- `http.StatusUnauthorized`. -/
def StatusUnauthorized : Nat := 401

/-- The handler returned by `authMiddleware(jwtManager)`, the clock read as
`now` by the validation. -/
def authMiddleware (lib : Lib) (jwtManager : JWTManager) (now : Int) (c : Context) : Context :=
  let authHeader := c.GetHeader "Authorization"
  if authHeader = [] then
    (c.JSON StatusUnauthorized "Authorization header required").Abort
  else if authHeader.length > 7 ∧ authHeader.take 7 = ascii "Bearer " then
    let tokenString := authHeader.drop 7
    match jwtManager.ValidateToken lib tokenString now with
    | .error _ => (c.JSON StatusUnauthorized "Invalid token").Abort
    | .ok claims => (c.Set "user_id" claims.UserID).Next
  else
    (c.JSON StatusUnauthorized "Invalid authorization header format").Abort

/-! ## Vocabulary of the properties -/

/-- Every element is a byte. -/
def IsBytes (bs : Bytes) : Prop := ∀ b ∈ bs, b < 256

instance (bs : Bytes) : Decidable (IsBytes bs) :=
  inferInstanceAs (Decidable (∀ b ∈ bs, b < 256))

/-- What a theorem on an issued token assumes of the library, for the claims
`c` signed by the HMAC method of hash `h` under `key`: JSON gives back the
header and the claims it was given, and the serialised header, the serialised
claims and the keyed hash of the signing string are byte strings. -/
def Lib.Serialises (lib : Lib) (h : Hash) (c : Claims) (key : Bytes) : Prop :=
  lib.unmarshalHeader (lib.marshalHeader (jwtHeader (.HMAC h))) = some (jwtHeader (.HMAC h)) ∧
  lib.unmarshalClaims (lib.marshalClaims c) = some c ∧
  IsBytes (lib.marshalHeader (jwtHeader (.HMAC h))) ∧
  IsBytes (lib.marshalClaims c) ∧
  IsBytes (lib.hmac h key (SigningString lib (jwtHeader (.HMAC h)) c))

instance (lib : Lib) (h : Hash) (c : Claims) (key : Bytes) :
    Decidable (lib.Serialises h c key) := by
  unfold Lib.Serialises
  infer_instance

/-- The token that `SignedString` returns for the HMAC method of hash `h`. -/
def signedToken (lib : Lib) (h : Hash) (c : Claims) (key : Bytes) : Bytes :=
  SigningString lib (jwtHeader (.HMAC h)) c ++
    46 :: EncodeSegment (lib.hmac h key (SigningString lib (jwtHeader (.HMAC h)) c))

/-- The header of a token string, read without any check: the first of three
dot-separated parts, decoded. -/
def headerOf (lib : Lib) (tokenString : Bytes) : Option Header :=
  match splitOn 46 tokenString with
  | [p0, _, _] => (DecodeSegment p0).bind lib.unmarshalHeader
  | _ => none

/-- The claims of a token string, read without any check: the second of three
dot-separated parts, decoded. -/
def claimsOf (lib : Lib) (tokenString : Bytes) : Option Claims :=
  match splitOn 46 tokenString with
  | [_, p1, _] => (DecodeSegment p1).bind lib.unmarshalClaims
  | _ => none

/-- The signature segment of a token string: the third of three dot-separated
parts. -/
def signatureSegment (tokenString : Bytes) : Bytes :=
  match splitOn 46 tokenString with
  | [_, _, p2] => p2
  | _ => []

/-- The token string with byte `i` of its signature segment replaced by `b`. -/
def setSignatureByte (tokenString : Bytes) (i b : Nat) : Bytes :=
  match splitOn 46 tokenString with
  | [p0, p1, p2] => p0 ++ 46 :: (p1 ++ 46 :: p2.set i b)
  | _ => tokenString

/-- Two bytes are characters of the base64url alphabet whose 6-bit values have
the same four leading bits. -/
def SameLeadingBits (b b' : Nat) : Prop :=
  match decodeMap b, decodeMap b' with
  | some v, some w => v / 4 = w / 4
  | _, _ => False

instance (b b' : Nat) : Decidable (SameLeadingBits b b') := by
  unfold SameLeadingBits
  split <;> infer_instance

/-- The claims `c` with the issuer replaced by `iss`. -/
def withIssuer (c : Claims) (iss : String) : Claims :=
  { c with Registered := { c.Registered with Issuer := iss } }

/-- A token is correctly signed for the manager: it parses, its method is an
HMAC method, and its signature segment decodes to the keyed hash, under the
manager's secret, of its first two segments. -/
def CorrectlySigned (lib : Lib) (j : JWTManager) (tokenString : Bytes) : Prop :=
  ∃ token p0 p1 p2 h,
    ParseUnverified lib tokenString = .ok (token, p0, p1, p2) ∧
    token.Method = .HMAC h ∧
    DecodeSegment p2 = some (lib.hmac h j.secretKey (p0 ++ 46 :: p1))

/-- What `ValidateToken` returns once the signature has been verified: the
claims when the validator has no complaint, else the collapsed error. -/
def afterVerify (c : Claims) (now : Int) : Except AuthError Claims :=
  match Validate c now with
  | [] => .ok c
  | errs =>
      if errorsIs (.ErrTokenInvalidClaims :: errs) .ErrTokenExpired then .error .ErrExpiredToken
      else .error .ErrInvalidToken

/-! ## A reference instance of `Lib`

A small length-prefixed serialisation and a keyed checksum with the output
lengths of HMAC-SHA-2. They make the operations above computable on concrete
input; the general theorems quantify over every `Lib`. -/

namespace Ref

/-- A string as its length followed by its character codes. -/
def putString (s : String) : Bytes := s.length :: s.toList.map Char.toNat

/-- Inverse of `putString`: the string and the rest of the input. -/
def getString : Bytes → Option (String × Bytes)
  | [] => none
  | n :: rest =>
      if n ≤ rest.length then some (String.mk ((rest.take n).map Char.ofNat), rest.drop n)
      else none

/-- A natural number as `k` bytes, most significant first. -/
def putNat : Nat → Nat → Bytes
  | 0, _ => []
  | k + 1, n => (n / 256 ^ k % 256) :: putNat k n

/-- Inverse of `putNat`: the number read from `k` bytes after `acc`. -/
def getNat : Nat → Nat → Bytes → Option (Nat × Bytes)
  | 0, acc, bs => some (acc, bs)
  | _ + 1, _, [] => none
  | k + 1, acc, b :: bs => getNat k (acc * 256 + b) bs

/-- An optional date: a tag byte (0 absent, 1 non-negative, 2 negative) and
eight bytes of magnitude. -/
def putDate : Option NumericDate → Bytes
  | none => [0]
  | some (Int.ofNat n) => 1 :: putNat 8 n
  | some (Int.negSucc n) => 2 :: putNat 8 n

/-- Inverse of `putDate`. -/
def getDate : Bytes → Option (Option NumericDate × Bytes)
  | 0 :: bs => some (none, bs)
  | 1 :: bs => (getNat 8 0 bs).map (fun r => (some (Int.ofNat r.1), r.2))
  | 2 :: bs => (getNat 8 0 bs).map (fun r => (some (Int.negSucc r.1), r.2))
  | _ => none

/-- An optional string: a tag byte and the string. -/
def putOptString : Option String → Bytes
  | none => [0]
  | some s => 1 :: putString s

/-- Inverse of `putOptString`. -/
def getOptString : Bytes → Option (Option String × Bytes)
  | 0 :: bs => some (none, bs)
  | 1 :: bs => (getString bs).map (fun r => (some r.1, r.2))
  | _ => none

/-- The header: `alg`, then `typ`. -/
def marshalHeader (h : Header) : Bytes := putOptString h.alg ++ putOptString h.typ

/-- Inverse of `marshalHeader`; input left over is an error. -/
def unmarshalHeader (bs : Bytes) : Option Header := do
  let (alg, bs) ← getOptString bs
  let (typ, bs) ← getOptString bs
  if bs = [] then some { alg := alg, typ := typ } else none

/-- The claims, field by field (the audience is not serialised: the manager
never sets it). -/
def marshalClaims (c : Claims) : Bytes :=
  putNat 16 c.UserID ++ putString c.Email ++ putString c.TokenType ++
    putString c.Registered.Issuer ++ putString c.Registered.Subject ++
    putDate c.Registered.ExpiresAt ++ putDate c.Registered.NotBefore ++
    putDate c.Registered.IssuedAt ++ putString c.Registered.ID

/-- Inverse of `marshalClaims`; input left over is an error. -/
def unmarshalClaims (bs : Bytes) : Option Claims := do
  let (uid, bs) ← getNat 16 0 bs
  let (email, bs) ← getString bs
  let (tokenType, bs) ← getString bs
  let (iss, bs) ← getString bs
  let (sub, bs) ← getString bs
  let (exp, bs) ← getDate bs
  let (nbf, bs) ← getDate bs
  let (iat, bs) ← getDate bs
  let (jti, bs) ← getString bs
  if bs = [] then
    some { UserID := uid, Email := email, TokenType := tokenType,
           Registered := { Issuer := iss, Subject := sub, Audience := [], ExpiresAt := exp,
                           NotBefore := nbf, IssuedAt := iat, ID := jti } }
  else none

/-- Output length of HMAC with the given hash, in bytes. -/
def macLength : Hash → Nat
  | .SHA256 => 32
  | .SHA384 => 48
  | .SHA512 => 64

/-- A keyed checksum of the length of the HMAC: byte `i` mixes the key, the
message and `i`. -/
def mac (h : Hash) (key msg : Bytes) : Bytes :=
  (List.range (macLength h)).map
    (fun i => (key.foldl (fun a b => 31 * a + b) 7 + (i + 3) * msg.foldl (fun a b => 33 * a + b) 5
      + i * i) % 256)

/-- The reference instance. -/
def lib : Lib :=
  { marshalHeader := marshalHeader
    unmarshalHeader := unmarshalHeader
    marshalClaims := marshalClaims
    unmarshalClaims := unmarshalClaims
    hmac := mac }

/-- A manager: secret `s3cret`, access lifetime 24 hours, refresh lifetime 168 hours. -/
def manager : JWTManager :=
  { secretKey := ascii "s3cret"
    tokenExpiry := 24 * 3600000000000
    refreshExpiry := 168 * 3600000000000 }

/-- A user. -/
def user : User := { ID := 7, Email := "a@b.c" }

/-- Clock reading at which the access token is issued. -/
def t1 : Int := 1700000000123456789

/-- Clock reading at which the refresh token is issued. -/
def t2 : Int := 1700000000123456790

/-- Clock reading taken for the `ExpiresAt` field. -/
def t3 : Int := 1700000000123456791

/-- A clock reading five seconds after issuance. -/
def later : Int := 1700000005000000000

/-- The claims of the access token issued to `user` at `t1`. -/
def accessClaims : Claims := newClaims user "access" manager.tokenExpiry t1

/-- The claims of the refresh token issued to `user` at `t2`. -/
def refreshClaims : Claims := newClaims user "refresh" manager.refreshExpiry t2

/-- The access token issued to `user` at `t1`. -/
def accessToken : Bytes := signedToken lib .SHA256 accessClaims manager.secretKey

/-- The refresh token issued to `user` at `t2`. -/
def refreshToken : Bytes := signedToken lib .SHA256 refreshClaims manager.secretKey

/-- A request whose only header is `Authorization`, nothing written yet. -/
def request (authorization : Bytes) : Context :=
  { headers := [("Authorization", authorization)]
    status := none
    body := none
    aborted := false
    keys := []
    next := false }

/-- Claims as `generateToken` builds them, but with another issuer. -/
def foreignClaims : Claims := withIssuer accessClaims "another-system"

/-- A token for `foreignClaims`, signed with HS256 under the manager's secret. -/
def foreignToken : Bytes := signedToken lib .SHA256 foreignClaims manager.secretKey

/-- A token for `accessClaims` whose header declares HS384, signed with that
method under the manager's secret. -/
def hs384Token : Bytes := signedToken lib .SHA384 accessClaims manager.secretKey

end Ref

/-! ## The parser and the gate with their calls recorded -/

/-- One call of `Method.Verify` made by the parser: the method and the key
handed to it. -/
structure VerifyCall where
  method : SigningMethod
  key : Bytes
  deriving DecidableEq, Repr

/-- `Parser.ParseWithClaims` as `ParseWithClaims` above, together with the
calls of `Method.Verify` that it makes, in order. -/
def ParseWithClaimsTraced (lib : Lib) (tokenString : Bytes)
    (keyFunc : Token → Except Unit Bytes) (now : Int) :
    Except ParseError Token × List VerifyCall :=
  match ParseUnverified lib tokenString with
  | .error e => (.error e, [])
  | .ok (token, p0, p1, p2) =>
    match DecodeSegment p2 with
    | none => (.error [.ErrTokenMalformed], [])
    | some sig =>
      let token := { token with Signature := sig }
      match keyFunc token with
      | .error _ => (.error [.ErrTokenUnverifiable, .ErrKeyFunc], [])
      | .ok key =>
        match token.Method.Verify lib (p0 ++ 46 :: p1) sig key with
        | .error e =>
            (.error [.ErrTokenSignatureInvalid, e], [{ method := token.Method, key := key }])
        | .ok _ =>
          match Validate token.Claims now with
          | [] => (.ok { token with Valid := true }, [{ method := token.Method, key := key }])
          | errs =>
              (.error (.ErrTokenInvalidClaims :: errs), [{ method := token.Method, key := key }])

/-- The slice expression `s[lo:hi]` of Go; `none` stands for the run-time
panic of a slice out of range. -/
def slice (s : Bytes) (lo hi : Nat) : Option Bytes :=
  if lo ≤ hi ∧ hi ≤ s.length then some ((s.take hi).drop lo) else none

/-- The handler of `authMiddleware` as `authMiddleware` above, with the two
slice expressions checked and the calls of `ValidateToken` recorded (the token
strings, in order). The condition `len(authHeader) > 7 && authHeader[:7] ==
"Bearer "` is evaluated left to right: the slice is taken only when the length
test holds. `none` stands for a panic. -/
def authMiddlewareRun (lib : Lib) (jwtManager : JWTManager) (now : Int) (c : Context) :
    Option (Context × List Bytes) :=
  let authHeader := c.GetHeader "Authorization"
  if authHeader = [] then
    some ((c.JSON StatusUnauthorized "Authorization header required").Abort, [])
  else if authHeader.length > 7 then
    match slice authHeader 0 7 with
    | none => none
    | some scheme =>
      if scheme = ascii "Bearer " then
        match slice authHeader 7 authHeader.length with
        | none => none
        | some tokenString =>
          match jwtManager.ValidateToken lib tokenString now with
          | .error _ => some ((c.JSON StatusUnauthorized "Invalid token").Abort, [tokenString])
          | .ok claims => some ((c.Set "user_id" claims.UserID).Next, [tokenString])
      else
        some ((c.JSON StatusUnauthorized "Invalid authorization header format").Abort, [])
  else
    some ((c.JSON StatusUnauthorized "Invalid authorization header format").Abort, [])

/-- One call of `RefreshToken` in a run of the server: the token presented and
the four clock readings of the call. -/
structure RefreshCall where
  token : Bytes
  t0 : Int
  t1 : Int
  t2 : Int
  t3 : Int
  deriving DecidableEq, Repr

/-- A run of the manager on a sequence of `RefreshToken` calls, the results in
order. The manager is the only value the calls share, and no method writes one
of its fields: every call runs on the same `j`. -/
def JWTManager.serve (lib : Lib) (j : JWTManager) : List RefreshCall →
    List (Except Error LoginResponse)
  | [] => []
  | call :: rest =>
      j.RefreshToken lib call.token call.t0 call.t1 call.t2 call.t3 :: j.serve lib rest

/-! ## Configuration (`internal/config/config.go`) -/

/-- A `time.Duration` or `int` product as the machine computes it: the value
modulo `2 ^ 64`, read as a signed 64-bit integer. -/
def wrap64 (x : Int) : Int := (x + 9223372036854775808) % 18446744073709551616 - 9223372036854775808

/-- The value of a string of decimal digits, most significant first, after
`acc`; `none` when a character is not a digit. -/
def parseDigits (acc : Nat) : List Char → Option Nat
  | [] => some acc
  | ch :: rest =>
      if '0' ≤ ch ∧ ch ≤ '9' then parseDigits (acc * 10 + (ch.toNat - 48)) rest else none

/-- `strconv.Atoi` on a 64-bit machine: an optional sign, at least one decimal
digit and nothing else, the value within the range of `int`; `none` stands for
the error (syntax or range). -/
def Atoi (s : String) : Option Int :=
  match s.toList with
  | [] => none
  | ch :: rest =>
      let digits := if ch = '-' ∨ ch = '+' then rest else ch :: rest
      if digits = [] then none
      else
        match parseDigits 0 digits with
        | none => none
        | some n =>
            if ch = '-' then
              if n ≤ 9223372036854775808 then some (-(n : Int)) else none
            else if n < 9223372036854775808 then some (n : Int) else none

/-- `getEnv`; `env` is `os.Getenv`, which gives the empty string for a variable
that is not set. -/
def getEnv (env : String → String) (key defaultValue : String) : String :=
  if env key ≠ "" then env key else defaultValue

/-- `getEnvAsInt`. -/
def getEnvAsInt (env : String → String) (name : String) (defaultVal : Int) : Int :=
  let valueStr := getEnv env name ""
  match Atoi valueStr with
  | some value => value
  | none => defaultVal

/-- `config.JWTConfig`. -/
structure JWTConfig where
  Secret : String
  ExpiryHours : Int
  RefreshExpiryHours : Int
  deriving DecidableEq, Repr

/-- The part of `config.Config` that the token subsystem reads. -/
structure Config where
  JWT : JWTConfig
  deriving DecidableEq, Repr

/-- The `JWT` entry of `config.Load`; `env` is the process environment after
`godotenv.Load`. -/
def Load (env : String → String) : Config :=
  { JWT :=
      { Secret := getEnv env "JWT_SECRET" "your-super-secret-jwt-key-change-in-production"
        ExpiryHours := getEnvAsInt env "JWT_EXPIRY_HOURS" 24
        RefreshExpiryHours := getEnvAsInt env "JWT_REFRESH_EXPIRY_HOURS" 168 } }

/-- The constant `time.Hour`, in nanoseconds. -/
def Hour : Int := 3600000000000

/-- `Config.GetJWTExpiry`: `time.Duration(hours) * time.Hour`, a 64-bit product. -/
def Config.GetJWTExpiry (c : Config) : Int := wrap64 (c.JWT.ExpiryHours * Hour)

/-- `Config.GetJWTRefreshExpiry`. -/
def Config.GetJWTRefreshExpiry (c : Config) : Int := wrap64 (c.JWT.RefreshExpiryHours * Hour)

/-- `[]byte(s)` for a string: its UTF-8 bytes. -/
def stringBytes (s : String) : Bytes := (s.toList.map String.utf8EncodeChar).flatten.map UInt8.toNat

/-- `auth.NewJWTManager`. -/
def NewJWTManager (cfg : Config) : JWTManager :=
  { secretKey := stringBytes cfg.JWT.Secret
    tokenExpiry := cfg.GetJWTExpiry
    refreshExpiry := cfg.GetJWTRefreshExpiry }

/-! ## Credentials (`internal/utils/password.go`) -/

/-- The errors of `golang.org/x/crypto/bcrypt`, the failure of the random
source, and the errors that the library passes on from `strconv.Atoi`
(`NumError`), from `encoding/base64` (`CorruptInputError`) and from
`blowfish.NewSaltedCipher` (`KeySizeError`). -/
inductive BcryptError where
  | ErrMismatchedHashAndPassword
  | ErrHashTooShort
  | ErrPasswordTooLong
  | InvalidCostError
  | InvalidHashPrefixError
  | HashVersionTooNewError
  | RandError
  | NumError
  | CorruptInputError
  | KeySizeError
  deriving DecidableEq, Repr

/-- What the credential code takes from `golang.org/x/crypto/bcrypt`, which is
not part of the repository: `GenerateFromPassword(password, cost)`, with the
bytes it draws from `crypto/rand` as third argument, and
`CompareHashAndPassword(hashedPassword, password)`, `none` standing for the
`nil` error. The byte slices are given as the strings they are converted from
and to. -/
structure Bcrypt where
  GenerateFromPassword : String → Nat → Bytes → Except BcryptError String
  CompareHashAndPassword : String → String → Option BcryptError

/-- `len(s)` of a Go string: its number of bytes. -/
def len (s : String) : Nat := s.utf8ByteSize

/-- The constant `MinPasswordLength`. -/
def MinPasswordLength : Nat := 8

/-- The constant `DefaultCost`. -/
def DefaultCost : Nat := 12

/-- `utils.HashPassword`; `entropy` is what the library draws from the random
source. -/
def HashPassword (bc : Bcrypt) (password : String) (entropy : Bytes) :
    Except BcryptError String :=
  match bc.GenerateFromPassword password DefaultCost entropy with
  | .error err => .error err
  | .ok hashedBytes => .ok hashedBytes

/-- `utils.VerifyPassword`; `none` is the `nil` error. -/
def VerifyPassword (bc : Bcrypt) (hashedPassword password : String) : Option BcryptError :=
  bc.CompareHashAndPassword hashedPassword password

/-- `utils.IsValidPassword`. -/
def IsValidPassword (password : String) : Bool :=
  decide (len password ≥ MinPasswordLength)

/-! ## The user store and the user service
(`internal/db/user_repository.go`, `internal/services/user_service.go`) -/

/-- `models.User` in full, as a row of the table `users`; times are in
nanoseconds. The structure `User` above is the view that the token manager
reads. -/
structure UserRow where
  ID : UUID
  Email : String
  PasswordHash : String
  FirstName : String
  LastName : String
  Phone : Option String
  DateOfBirth : Option Int
  Address : Option String
  IsActive : Bool
  IsVerified : Bool
  CreatedAt : Int
  UpdatedAt : Int
  deriving DecidableEq, Repr

/-- The fields of a row that the token manager reads. -/
def UserRow.toUser (u : UserRow) : User := { ID := u.ID, Email := u.Email }

/-- `db.UserRepository`: the rows of the table `users` and, when the database
cannot be reached, the error of the driver. -/
structure UserRepository where
  users : List UserRow
  fault : Option String
  deriving DecidableEq, Repr

/-- `UserRepository.GetByEmail`: the active row with that email; the error is
given by its message. -/
def UserRepository.GetByEmail (r : UserRepository) (email : String) : Except String UserRow :=
  match r.fault with
  | some err => .error ("failed to get user: " ++ err)
  | none =>
    match r.users.find? (fun u => decide (u.Email = email) && u.IsActive) with
    | none => .error "user not found"
    | some user => .ok user

/-- `services.UserService`. -/
structure UserService where
  userRepo : UserRepository
  jwtManager : JWTManager
  deriving DecidableEq, Repr

/-- `models.LoginRequest`. -/
structure LoginRequest where
  Email : String
  Password : String
  deriving DecidableEq, Repr

/-- `models.RefreshTokenRequest`. -/
structure RefreshTokenRequest where
  RefreshToken : Bytes
  deriving DecidableEq, Repr

/-- A Go `error` as the service returns it: made by `fmt.Errorf` with a
message, or an error of the token manager passed on unchanged. -/
inductive ServiceError where
  | errorf (msg : String)
  | manager (e : Error)
  deriving DecidableEq, Repr

/-- `Error()` of the errors declared in `internal/auth/jwt.go`. -/
def AuthError.Error : AuthError → String
  | .ErrInvalidToken => "invalid token"
  | .ErrExpiredToken => "token has expired"
  | .ErrInvalidClaims => "invalid token claims"

/-- `Error()` of the sentinel errors of the token library (an error that wraps
a sentinel adds its own text to it). -/
def JwtError.Error : JwtError → String
  | .ErrTokenMalformed => "token is malformed"
  | .ErrTokenUnverifiable => "token is unverifiable"
  | .ErrTokenSignatureInvalid => "token signature is invalid"
  | .ErrTokenInvalidClaims => "token has invalid claims"
  | .ErrTokenExpired => "token is expired"
  | .ErrTokenNotValidYet => "token is not valid yet"
  | .ErrSignatureInvalid => "signature is invalid"
  | .ErrInvalidKeyType => "key is of invalid type"
  | .NoneSignatureTypeDisallowedError =>
      "token is unverifiable: 'none' signature type is not allowed"
  | .ErrKeyFunc => "unexpected signing method"

/-- `Error()` of an error of the token manager (named `Message` here). -/
def Error.Message : Error → String
  | .auth e => e.Error
  | .sign e => e.Error

/-- `Error()` of an error of the service. -/
def ServiceError.Error : ServiceError → String
  | .errorf msg => msg
  | .manager e => e.Message

/-- `UserService.Login`; `t1`, `t2`, `t3` are the clock readings of
`GenerateTokens`. -/
def UserService.Login (lib : Lib) (bc : Bcrypt) (s : UserService) (req : LoginRequest)
    (t1 t2 t3 : Int) : Except ServiceError LoginResponse :=
  match s.userRepo.GetByEmail req.Email with
  | .error _ => .error (.errorf "invalid email or password")
  | .ok user =>
    match VerifyPassword bc user.PasswordHash req.Password with
    | some _ => .error (.errorf "invalid email or password")
    | none =>
      if !user.IsActive then .error (.errorf "account is deactivated")
      else
        match s.jwtManager.GenerateTokens lib user.toUser t1 t2 t3 with
        | .error err => .error (.manager (.sign err))
        | .ok response => .ok response

/-- `UserService.RefreshToken`; the clock readings are those of
`JWTManager.RefreshToken`. -/
def UserService.RefreshToken (lib : Lib) (s : UserService) (req : RefreshTokenRequest)
    (t0 t1 t2 t3 : Int) : Except ServiceError LoginResponse :=
  match s.jwtManager.RefreshToken lib req.RefreshToken t0 t1 t2 t3 with
  | .error err => .error (.manager err)
  | .ok response => .ok response

/-! ## The refresh handler (`cmd/server/main.go`) -/

/-- The body that a handler writes with `c.JSON`: `gin.H{"error": msg}` or a
`LoginResponse`. -/
inductive ResponseBody where
  | error (msg : String)
  | login (response : LoginResponse)
  deriving DecidableEq, Repr

/-- The response that a handler writes: status code and body. -/
structure Response where
  status : Nat
  body : ResponseBody
  deriving DecidableEq, Repr

/-- `http.StatusBadRequest`. -/
def StatusBadRequest : Nat := 400

/-- `http.StatusOK`. -/
def StatusOK : Nat := 200

/-- The handler returned by `handleRefreshToken(userService)`; `bind` is the
outcome of `c.ShouldBindJSON(&req)`, the request or the message of the binding
error. -/
def handleRefreshToken (lib : Lib) (userService : UserService)
    (bind : Except String RefreshTokenRequest) (t0 t1 t2 t3 : Int) : Response :=
  match bind with
  | .error err => { status := StatusBadRequest, body := .error err }
  | .ok req =>
    match userService.RefreshToken lib req t0 t1 t2 t3 with
    | .error err => { status := StatusUnauthorized, body := .error err.Error }
    | .ok response => { status := StatusOK, body := .login response }

/-! ## More vocabulary of the properties -/

/-- The claims of a token satisfy `not_before ≤ issued_at < expires_at`, the
three being present. -/
def Claims.Ordered (c : Claims) : Prop :=
  match c.Registered.NotBefore, c.Registered.IssuedAt, c.Registered.ExpiresAt with
  | some nbf, some iat, some exp => nbf ≤ iat ∧ iat < exp
  | _, _, _ => False

instance (c : Claims) : Decidable c.Ordered := by
  unfold Claims.Ordered
  split <;> infer_instance

/-! ## More of the reference instance -/

namespace Ref

/-- A stand-in for bcrypt: the hash is the password reversed, a separator, a
letter for the cost and the entropy; comparison reads the password back. -/
def bcrypt : Bcrypt :=
  { GenerateFromPassword := fun password cost entropy =>
      if cost < 4 ∨ 31 < cost then .error .InvalidCostError
      else
        .ok (String.mk (password.toList.reverse ++ '$' :: Char.ofNat (65 + cost) ::
          entropy.map Char.ofNat))
    CompareHashAndPassword := fun hashedPassword password =>
      if hashedPassword.toList.take (password.length + 1) = password.toList.reverse ++ ['$']
      then none
      else some .ErrMismatchedHashAndPassword }

/-- The row of `user`, with the hash of the password `correct horse`. -/
def row : UserRow :=
  { ID := 7
    Email := "a@b.c"
    PasswordHash := "esroh tcerroc$Mxyz"
    FirstName := "Ada"
    LastName := "Bee"
    Phone := none
    DateOfBirth := none
    Address := none
    IsActive := true
    IsVerified := false
    CreatedAt := 1600000000000000000
    UpdatedAt := 1600000000000000000 }

/-- A service over a store with the one row. -/
def service : UserService :=
  { userRepo := { users := [row], fault := none }, jwtManager := manager }

/-- A token string that does not parse. -/
def garbageToken : Bytes := ascii "not-a-token"

/-- A time after the expiry of `refreshToken`. -/
def afterRefreshExpiry : Int := 1700604800000000000

/-- An environment in which only `JWT_EXPIRY_HOURS` is set, to `0`. -/
def zeroHoursEnv (key : String) : String := if key = "JWT_EXPIRY_HOURS" then "0" else ""

/-- A token for `accessClaims` whose header declares the `none` method and
whose signature segment is empty. -/
def noneToken : Bytes :=
  SigningString lib { alg := some "none", typ := some "JWT" } accessClaims ++ [46]

/-- A token for `accessClaims` whose header declares `RS256`, with the keyed
hash under the manager's secret as signature. -/
def rs256Token : Bytes :=
  SigningString lib { alg := some "RS256", typ := some "JWT" } accessClaims ++
    46 :: EncodeSegment (lib.hmac .SHA256 manager.secretKey
      (SigningString lib { alg := some "RS256", typ := some "JWT" } accessClaims))

/-- The pair that a refresh of `refreshToken` returns when every clock reading
is `later`. -/
def rotated : LoginResponse :=
  { User := user
    AccessToken :=
      signedToken lib .SHA256 (newClaims user "access" manager.tokenExpiry later)
        manager.secretKey
    RefreshToken :=
      signedToken lib .SHA256 (newClaims user "refresh" manager.refreshExpiry later)
        manager.secretKey
    ExpiresAt := Unix (later + manager.tokenExpiry) }

/-- The last nanosecond before the expiry of `refreshToken`. -/
def lastValid : Int := 1700604799999999999

/-- A clock reading one nanosecond before a full second. -/
def beforeTick : Int := 1700000000999999999

/-- A clock reading two nanoseconds later, in the next second. -/
def afterTick : Int := 1700000001000000001

/-- The manager built from the configuration loaded under `zeroHoursEnv`. -/
def zeroHoursManager : JWTManager := NewJWTManager (Load zeroHoursEnv)

/-- A password of seven characters, the sixth of which takes two bytes. -/
def shortPassword : String := "passwör"

/-- A login request for an email that is not in the store. -/
def unknownEmailLogin : LoginRequest := { Email := "x@y.z", Password := "correct horse" }

/-- A login request for the stored user with a wrong password. -/
def wrongPasswordLogin : LoginRequest := { Email := "a@b.c", Password := "wrong horse" }

/-- An environment in which only `JWT_EXPIRY_HOURS` is set, to `2562048`. -/
def hugeHoursEnv (key : String) : String :=
  if key = "JWT_EXPIRY_HOURS" then "2562048" else ""

end Ref

/-! ## The bcrypt library (`golang.org/x/crypto/bcrypt`)

The library is not part of the repository. It is embedded down to the calls of
`golang.org/x/crypto/blowfish`, whose tables of constants are left as
parameters (`Blowfish`). -/

/-- The constant `MinCost` of the library. -/
def MinCost : Int := 4

/-- The constant `MaxCost` of the library. -/
def MaxCost : Int := 31

/-- The constant `DefaultCost` of the library (not the one of `password.go`):
the cost that replaces a cost below `MinCost`. -/
def libraryDefaultCost : Int := 10

/-- The constant `maxSaltSize`. -/
def maxSaltSize : Nat := 16

/-- The constant `maxCryptedHashSize`. -/
def maxCryptedHashSize : Nat := 23

/-- The constant `encodedSaltSize`. -/
def encodedSaltSize : Nat := 22

/-- The constant `encodedHashSize`. -/
def encodedHashSize : Nat := 31

/-- The constant `minHashSize`. -/
def minHashSize : Nat := 59

/-- The constant `majorVersion`, the character `2`. -/
def majorVersion : Nat := 50

/-- The constant `minorVersion`, the character `a`. -/
def minorVersion : Nat := 97

/-- The alphabet of `bcEncoding`: `./A-Za-z0-9`. -/
def bcEncode (v : Nat) : Nat :=
  if v = 0 then 46
  else if v = 1 then 47
  else if v < 28 then 65 + (v - 2)
  else if v < 54 then 97 + (v - 28)
  else 48 + (v - 54)

/-- The decode map of `bcEncoding`; `none` stands for the entry `0xff`. -/
def bcDecodeMap (c : Nat) : Option Nat :=
  if c = 46 then some 0
  else if c = 47 then some 1
  else if 65 ≤ c ∧ c ≤ 90 then some (c - 65 + 2)
  else if 97 ≤ c ∧ c ≤ 122 then some (c - 97 + 28)
  else if 48 ≤ c ∧ c ≤ 57 then some (c - 48 + 54)
  else none

/-- The library's `base64Encode`: `bcEncoding.Encode` with the padding
characters at the end removed. The library calls it on 16 and on 23 bytes. -/
def base64Encode (src : Bytes) : Bytes := (encodeSextets src).map bcEncode

/-- The bytes after the leading `\n` and `\r` of a string. -/
def skipNewlines (src : Bytes) : Bytes := src.dropWhile (fun c => c = 10 ∨ c = 13)

/-- `bcEncoding.Decode`, an encoding with padding, not strict: `j` is the
number of characters already read in the current group of four and `val` the
bits they carry. A group of four characters gives three bytes; `\n` and `\r`
are skipped; padding may stand only at the end, as `==` after two characters
or `=` after three; every other byte, and an input that ends inside a group, is
a `CorruptInputError` (`none`). -/
def decodeQuanta (j val : Nat) : Bytes → Option Bytes
  | [] => if j = 0 then some [] else none
  | c :: rest =>
      match bcDecodeMap c with
      | some out =>
          if j = 3 then
            (decodeQuanta 0 0 rest).map
              (fun bs =>
                ((val + out) / 65536 % 256) :: ((val + out) / 256 % 256) ::
                  ((val + out) % 256) :: bs)
          else decodeQuanta (j + 1) (val + out * 64 ^ (3 - j)) rest
      | none =>
          if c = 10 ∨ c = 13 then decodeQuanta j val rest
          else if c ≠ 61 then none
          else if j < 2 then none
          else if j = 2 then
            match skipNewlines rest with
            | [] => none
            | d :: rest2 =>
                if d ≠ 61 then none
                else if skipNewlines rest2 ≠ [] then none
                else some [val / 65536 % 256]
          else if skipNewlines rest ≠ [] then none
          else some [val / 65536 % 256, val / 256 % 256]

/-- The library's `base64Decode`: `4 - len(src) % 4` padding characters are
appended and the result is decoded with `bcEncoding`. -/
def base64Decode (src : Bytes) : Option Bytes :=
  decodeQuanta 0 0 (src ++ List.replicate (4 - src.length % 4) 61)

/-- The state of a `blowfish.Cipher`: the P-array and the four S-boxes, as one
list of 32-bit words. -/
abbrev Cipher := List Nat

/-- The first loop of `blowfish.ExpandKey` and of `expandKeyWithSalt`, the only
place where they read the key: eighteen 32-bit words are taken from the key
byte by byte, starting again at its first byte whenever the key is used up. -/
def keyWords (key : Bytes) : List Nat :=
  (List.range 18).map fun i =>
    (List.range 4).foldl (fun d k => d * 256 + key.getD ((4 * i + k) % key.length) 0) 0

/-- What the model takes from `golang.org/x/crypto/blowfish`, whose tables of
constants are not reproduced: `expandKeyWithSalt` on a cipher fresh from
`initCipher`, and `ExpandKey`, each given the words that its first loop reads
from the key (`keyWords`), and `encryptBlock`. -/
structure Blowfish where
  expandKeyWithSalt : List Nat → Bytes → Cipher
  ExpandKey : List Nat → Cipher → Cipher
  encryptBlock : Nat → Nat → Cipher → Nat × Nat

/-- `blowfish.NewSaltedCipher`. -/
def NewSaltedCipher (bf : Blowfish) (key salt : Bytes) : Except BcryptError Cipher :=
  if key.length < 1 then .error .KeySizeError
  else .ok (bf.expandKeyWithSalt (keyWords key) salt)

/-- `Cipher.Encrypt(dst, src)` on a block of eight bytes, big-endian. -/
def Encrypt (bf : Blowfish) (c : Cipher) (src : Bytes) : Bytes :=
  let l := ((src.getD 0 0 * 256 + src.getD 1 0) * 256 + src.getD 2 0) * 256 + src.getD 3 0
  let r := ((src.getD 4 0 * 256 + src.getD 5 0) * 256 + src.getD 6 0) * 256 + src.getD 7 0
  let lr := bf.encryptBlock l r c
  [lr.1 / 16777216 % 256, lr.1 / 65536 % 256, lr.1 / 256 % 256, lr.1 % 256,
   lr.2 / 16777216 % 256, lr.2 / 65536 % 256, lr.2 / 256 % 256, lr.2 % 256]

/-- The library's `expensiveBlowfishSetup`; `cost` is a `uint32` and the number
of rounds, `1 << cost`, a `uint64`. The key that the cipher gets is the
password followed by a zero byte. -/
def expensiveBlowfishSetup (bf : Blowfish) (key : Bytes) (cost : Nat) (salt : Bytes) :
    Except BcryptError Cipher :=
  match base64Decode salt with
  | none => .error .CorruptInputError
  | some csalt =>
      let ckey := key ++ [0]
      match NewSaltedCipher bf ckey csalt with
      | .error err => .error err
      | .ok c =>
          let rounds := 2 ^ cost % 18446744073709551616
          .ok (Nat.iterate
            (fun c => bf.ExpandKey (keyWords csalt) (bf.ExpandKey (keyWords ckey) c)) rounds c)

/-- The variable `magicCipherData`: the text `OrpheanBeholderScryDoubt`. -/
def magicCipherData : Bytes := ascii "OrpheanBeholderScryDoubt"

/-- The library's `bcrypt(password, cost, salt)`: each of the three blocks of
the magic text is encrypted 64 times, and 23 of the 24 bytes are encoded. -/
def bcrypt (bf : Blowfish) (password : Bytes) (cost : Int) (salt : Bytes) :
    Except BcryptError Bytes :=
  match expensiveBlowfishSetup bf password (cost % 4294967296).toNat salt with
  | .error err => .error err
  | .ok c =>
      let block := fun (i : Nat) => Nat.iterate (Encrypt bf c) 64 ((magicCipherData.drop i).take 8)
      let cipherData := block 0 ++ block 8 ++ block 16
      .ok (base64Encode (cipherData.take maxCryptedHashSize))

/-- The library's `hashed`. -/
structure hashed where
  hash : Bytes
  salt : Bytes
  cost : Int
  major : Nat
  minor : Nat
  deriving DecidableEq, Repr

/-- `copy(arr[n:], src)`: as many bytes of `src` as fit replace the bytes of
`arr` from position `n` on. -/
def copyAt (arr : Bytes) (n : Nat) (src : Bytes) : Bytes :=
  arr.take n ++ src.take (arr.length - n) ++ arr.drop (n + src.length)

/-- `fmt.Sprintf("%02d", cost)`. -/
def formatCost (cost : Int) : Bytes :=
  ascii (if 0 ≤ cost ∧ cost < 10 then "0" ++ toString cost else toString cost)

/-- `hashed.Hash`: the text `$2a$cc$` followed by the salt and the hash,
written into an array of 60 bytes. -/
def hashed.Hash (p : hashed) : Bytes :=
  let arr := List.replicate 60 0
  let arr := arr.set 0 36
  let arr := arr.set 1 p.major
  let n := 2
  let arr := if p.minor ≠ 0 then arr.set 2 p.minor else arr
  let n := if p.minor ≠ 0 then 3 else n
  let arr := arr.set n 36
  let n := n + 1
  let arr := copyAt arr n (formatCost p.cost)
  let n := n + 2
  let arr := arr.set n 36
  let n := n + 1
  let arr := copyAt arr n p.salt
  let n := n + encodedSaltSize
  let arr := copyAt arr n p.hash
  let n := n + encodedHashSize
  arr.take n

/-- `checkCost`. -/
def checkCost (cost : Int) : Option BcryptError :=
  if cost < MinCost ∨ cost > MaxCost then some .InvalidCostError else none

/-- `string(b)` for bytes that are ASCII, as those of a bcrypt hash are. -/
def asciiString (b : Bytes) : String := String.mk (b.map Char.ofNat)

/-- `hashed.decodeVersion`, on at least three bytes: the major version, the
minor version (`0` when there is none) and the number of bytes read. -/
def decodeVersion (sbytes : Bytes) : Except BcryptError (Nat × Nat × Nat) :=
  if sbytes.getD 0 0 ≠ 36 then .error .InvalidHashPrefixError
  else if sbytes.getD 1 0 > majorVersion then .error .HashVersionTooNewError
  else if sbytes.getD 2 0 ≠ 36 then .ok (sbytes.getD 1 0, sbytes.getD 2 0, 4)
  else .ok (sbytes.getD 1 0, 0, 3)

/-- `hashed.decodeCost`, on at least two bytes: the cost and the number of
bytes read. -/
def decodeCost (sbytes : Bytes) : Except BcryptError (Int × Nat) :=
  match Atoi (asciiString (sbytes.take 2)) with
  | none => .error .NumError
  | some cost =>
      match checkCost cost with
      | some err => .error err
      | none => .ok (cost, 3)

/-- The library's `newFromHash`. -/
def newFromHash (hashedSecret : Bytes) : Except BcryptError hashed :=
  if hashedSecret.length < minHashSize then .error .ErrHashTooShort
  else
    match decodeVersion hashedSecret with
    | .error err => .error err
    | .ok (major, minor, n) =>
        let hashedSecret := hashedSecret.drop n
        match decodeCost hashedSecret with
        | .error err => .error err
        | .ok (cost, n) =>
            let hashedSecret := hashedSecret.drop n
            .ok { hash := hashedSecret.drop encodedSaltSize
                  salt := hashedSecret.take encodedSaltSize
                  cost := cost
                  major := major
                  minor := minor }

/-- The library's `newFromPassword`; `entropy` is what `rand.Reader` delivers,
of which `io.ReadFull` takes 16 bytes and fails when there are fewer. -/
def newFromPassword (bf : Blowfish) (password : Bytes) (cost : Int) (entropy : Bytes) :
    Except BcryptError hashed :=
  let cost := if cost < MinCost then libraryDefaultCost else cost
  match checkCost cost with
  | some err => .error err
  | none =>
      if entropy.length < maxSaltSize then .error .RandError
      else
        let unencodedSalt := entropy.take maxSaltSize
        let salt := base64Encode unencodedSalt
        match bcrypt bf password cost salt with
        | .error err => .error err
        | .ok hash =>
            .ok { hash := hash, salt := salt, cost := cost
                  major := majorVersion, minor := minorVersion }

/-- The library's `GenerateFromPassword`. -/
def GenerateFromPassword (bf : Blowfish) (password : Bytes) (cost : Int) (entropy : Bytes) :
    Except BcryptError Bytes :=
  if password.length > 72 then .error .ErrPasswordTooLong
  else
    match newFromPassword bf password cost entropy with
    | .error err => .error err
    | .ok p => .ok p.Hash

/-- The library's `CompareHashAndPassword`; `none` is the `nil` error. -/
def CompareHashAndPassword (bf : Blowfish) (hashedPassword password : Bytes) :
    Option BcryptError :=
  match newFromHash hashedPassword with
  | .error err => some err
  | .ok p =>
      match bcrypt bf password p.cost p.salt with
      | .error err => some err
      | .ok otherHash =>
          let otherP : hashed :=
            { hash := otherHash, salt := p.salt, cost := p.cost, major := p.major, minor := p.minor }
          if p.Hash = otherP.Hash then none else some .ErrMismatchedHashAndPassword

/-- The library as `password.go` calls it: the passwords and the hashes are
converted between strings and byte slices. -/
def xcrypto (bf : Blowfish) : Bcrypt :=
  { GenerateFromPassword := fun password cost entropy =>
      match GenerateFromPassword bf (stringBytes password) cost entropy with
      | .error err => .error err
      | .ok hashedBytes => .ok (asciiString hashedBytes)
    CompareHashAndPassword := fun hashedPassword password =>
      CompareHashAndPassword bf (stringBytes hashedPassword) (stringBytes password) }

/-! ## Registration and change of password
(`internal/db/user_repository.go`, `internal/services/user_service.go`) -/

/-- `models.CreateUserRequest`. -/
structure CreateUserRequest where
  Email : String
  Password : String
  FirstName : String
  LastName : String
  Phone : Option String
  DateOfBirth : Option Int
  Address : Option String
  deriving DecidableEq, Repr

/-- The zero value of `time.Time`: the first instant of the year 1, UTC. -/
def zeroTime : Int := -62135596800000000000

/-- `UserRepository.GetByID`: the active row with that id; the error is given
by its message. -/
def UserRepository.GetByID (r : UserRepository) (id : UUID) : Except String UserRow :=
  match r.fault with
  | some err => .error ("failed to get user: " ++ err)
  | none =>
    match r.users.find? (fun u => decide (u.ID = id) && u.IsActive) with
    | none => .error "user not found"
    | some user => .ok user

/-- `UserRepository.Create`: the row is inserted and gets its two timestamps
from the database, whose clock reads `now`; the result is the row as the caller
sees it afterwards and the store afterwards. The constraints of the table are
not among the source files: the unique violation (code `23505`) is taken to
arise when a row has the same id or the same email, which is what the message
of `Create` reads it as. -/
def UserRepository.Create (r : UserRepository) (user : UserRow) (now : Int) :
    Except String UserRow × UserRepository :=
  match r.fault with
  | some err => (.error ("failed to create user: " ++ err), r)
  | none =>
    if r.users.any (fun u => decide (u.ID = user.ID) || decide (u.Email = user.Email)) then
      (.error "email already exists", r)
    else
      let user := { user with CreatedAt := now, UpdatedAt := now }
      (.ok user, { r with users := r.users ++ [user] })

/-- `UserRepository.UpdatePassword`: the hash and the update time of the active
row with that id are replaced; `now` is the clock reading and `rowsErr` the
error of `result.RowsAffected()`, if any. The result is the error (`none` for
`nil`), by its message, and the store afterwards. -/
def UserRepository.UpdatePassword (r : UserRepository) (id : UUID) (passwordHash : String)
    (now : Int) (rowsErr : Option String) : Option String × UserRepository :=
  match r.fault with
  | some err => (some ("failed to update password: " ++ err), r)
  | none =>
    let active := fun (u : UserRow) => decide (u.ID = id) && u.IsActive
    let store : UserRepository :=
      { r with
        users := r.users.map fun u =>
          if active u then { u with PasswordHash := passwordHash, UpdatedAt := now } else u }
    match rowsErr with
    | some err => (some ("failed to get rows affected: " ++ err), store)
    | none =>
      let rowsAffected := (r.users.filter active).length
      if rowsAffected = 0 then (some "user not found", store) else (none, store)

/-- A Go `error` as `Register` and `ChangePassword` return it: made by
`fmt.Errorf` with a message (those of the repository included), made by
`fmt.Errorf` with a message around an error of the hasher (`%w`), or an error
of the token library passed on unchanged. -/
inductive UserError where
  | errorf (msg : String)
  | wrap (msg : String) (err : BcryptError)
  | sign (err : JwtError)
  deriving DecidableEq, Repr

/-- A call that the user service makes to the utilities, to the repository or
to the token manager. -/
inductive Call where
  | IsValidPassword (password : String)
  | HashPassword (password : String)
  | VerifyPassword (hashedPassword password : String)
  | GetByID (id : UUID)
  | Create (user : UserRow)
  | UpdatePassword (id : UUID) (passwordHash : String)
  | GenerateTokens (user : User)
  deriving DecidableEq, Repr

/-- What a call of the user service leaves behind: its result, the user store
afterwards, and the calls it made, in order. -/
structure Outcome (α : Type) where
  result : Except UserError α
  userRepo : UserRepository
  calls : List Call

/-- `UserService.Register`; `entropy` is what the hasher draws from the random
source, `id` the value of `uuid.New()`, `dbNow` the clock of the database, and
`t1`, `t2`, `t3` are the clock readings of `GenerateTokens`. `created` is the
user object after `Create` has written the two timestamps into it. -/
def UserService.Register (lib : Lib) (bc : Bcrypt) (s : UserService) (req : CreateUserRequest)
    (entropy : Bytes) (id : UUID) (dbNow t1 t2 t3 : Int) : Outcome LoginResponse :=
  if !IsValidPassword req.Password then
    { result := .error (.errorf
        ("password must be at least " ++ toString MinPasswordLength ++ " characters long"))
      userRepo := s.userRepo
      calls := [.IsValidPassword req.Password] }
  else
    match HashPassword bc req.Password entropy with
    | .error err =>
      { result := .error (.wrap "failed to hash password" err)
        userRepo := s.userRepo
        calls := [.IsValidPassword req.Password, .HashPassword req.Password] }
    | .ok hashedPassword =>
      let user : UserRow :=
        { ID := id
          Email := req.Email
          PasswordHash := hashedPassword
          FirstName := req.FirstName
          LastName := req.LastName
          Phone := req.Phone
          DateOfBirth := req.DateOfBirth
          Address := req.Address
          IsActive := true
          IsVerified := false
          CreatedAt := zeroTime
          UpdatedAt := zeroTime }
      match s.userRepo.Create user dbNow with
      | (.error err, store) =>
        { result := .error (.errorf err)
          userRepo := store
          calls := [.IsValidPassword req.Password, .HashPassword req.Password, .Create user] }
      | (.ok created, store) =>
        { result :=
            match s.jwtManager.GenerateTokens lib created.toUser t1 t2 t3 with
            | .error err => .error (.sign err)
            | .ok response => .ok response
          userRepo := store
          calls := [.IsValidPassword req.Password, .HashPassword req.Password, .Create user,
            .GenerateTokens created.toUser] }

/-- `UserService.ChangePassword`; `entropy` is what the hasher draws from the
random source, `now` the clock reading of `UpdatePassword` and `rowsErr` the
error of its `result.RowsAffected()`, if any. -/
def UserService.ChangePassword (bc : Bcrypt) (s : UserService) (userID : UUID)
    (currentPassword newPassword : String) (entropy : Bytes) (now : Int)
    (rowsErr : Option String) : Outcome Unit :=
  match s.userRepo.GetByID userID with
  | .error err =>
    { result := .error (.errorf err), userRepo := s.userRepo, calls := [.GetByID userID] }
  | .ok user =>
    match VerifyPassword bc user.PasswordHash currentPassword with
    | some _ =>
      { result := .error (.errorf "current password is incorrect")
        userRepo := s.userRepo
        calls := [.GetByID userID, .VerifyPassword user.PasswordHash currentPassword] }
    | none =>
      if !IsValidPassword newPassword then
        { result := .error (.errorf
            ("new password must be at least " ++ toString MinPasswordLength ++
              " characters long"))
          userRepo := s.userRepo
          calls := [.GetByID userID, .VerifyPassword user.PasswordHash currentPassword,
            .IsValidPassword newPassword] }
      else
        match HashPassword bc newPassword entropy with
        | .error err =>
          { result := .error (.wrap "failed to hash new password" err)
            userRepo := s.userRepo
            calls := [.GetByID userID, .VerifyPassword user.PasswordHash currentPassword,
              .IsValidPassword newPassword, .HashPassword newPassword] }
        | .ok hashedPassword =>
          match s.userRepo.UpdatePassword userID hashedPassword now rowsErr with
          | (err, store) =>
            { result :=
                match err with
                | some err => .error (.errorf err)
                | none => .ok ()
              userRepo := store
              calls := [.GetByID userID, .VerifyPassword user.PasswordHash currentPassword,
                .IsValidPassword newPassword, .HashPassword newPassword,
                .UpdatePassword userID hashedPassword] }

/-! ## Vocabulary of the credential properties -/

/-- The cost that a digest embeds: what the library's `newFromHash` reads from
it. -/
def hashCost (digest : String) : Option Int :=
  match newFromHash (stringBytes digest) with
  | .error _ => none
  | .ok p => some p.cost

/-- The salt, encoded, that the library makes of what the random source
delivers. -/
def saltOf (entropy : Bytes) : Bytes := base64Encode (entropy.take maxSaltSize)

/-! ## The reference instance, continued -/

namespace Ref

/-- A stand-in for the Blowfish cipher: the state is the key words and the
salt, the key expansion leaves it as it is, and a block is encrypted by adding
the sum of the state to each half. -/
def blowfish : Blowfish :=
  { expandKeyWithSalt := fun words salt => words ++ salt
    ExpandKey := fun _ c => c
    encryptBlock := fun l r c => ((l + c.sum) % 4294967296, (r + c.sum + 1) % 4294967296) }

/-- Sixteen bytes from the random source. -/
def entropy : Bytes := [1, 2, 3, 4, 5, 6, 7, 8, 9, 10, 11, 12, 13, 14, 15, 16]

/-- The password of the stored user. -/
def password : String := "correct horse"

/-- A password of 72 bytes. -/
def password72 : String := String.mk (List.replicate 72 'a')

/-- The password of 72 bytes with one more character. -/
def password73 : String := String.mk (List.replicate 72 'a' ++ ['b'])

/-- The digest of `password` with `blowfish` and `entropy`. -/
def digest : String := "$2a$12$.OGB/.SE/ueHAeqKBO2NC.fHjQYHoGSGIYhzDqkWvSi3gXUyQilCO"

/-- A password of 73 bytes. -/
def longPassword : String := String.mk (List.replicate 73 'a')

/-- An environment in which every variable is set to `14`. -/
def fourteenEnv (_ : String) : String := "14"

/-- An environment in which only `JWT_EXPIRY_HOURS` is set, to an integer
beyond the 64-bit range. -/
def outOfRangeEnv (key : String) : String :=
  if key = "JWT_EXPIRY_HOURS" then "99999999999999999999" else ""

/-- A registration whose password, `shortPassword`, has seven characters and
eight bytes. -/
def sevenCharacterRegistration : CreateUserRequest :=
  { Email := "new@b.c"
    Password := shortPassword
    FirstName := "Cy"
    LastName := "Dee"
    Phone := none
    DateOfBirth := none
    Address := none }

/-- An environment with a secret, an access lifetime of one hour and a refresh
lifetime that is not a number. -/
def customEnv (key : String) : String :=
  if key = "JWT_SECRET" then "s3cret"
  else if key = "JWT_EXPIRY_HOURS" then "1"
  else if key = "JWT_REFRESH_EXPIRY_HOURS" then "a week"
  else ""

/-- The digest that the stand-in `bcrypt` makes of `new password`. -/
def newDigest : String :=
  String.mk ("new password".toList.reverse ++ '$' :: 'M' :: entropy.map Char.ofNat)

end Ref

/-! ## Lemmas on the encoding, the parser and the manager -/

set_option maxRecDepth 100000

/-- Decoding a character of the alphabet gives back its 6-bit value. -/
theorem decodeMap_encodeURL (v : Nat) (h : v < 64) : decodeMap (encodeURL v) = some v := by
  interval_cases v <;> rfl

/-- The dot is not a character of the alphabet. -/
theorem encodeURL_ne_dot (v : Nat) : encodeURL v ≠ 46 := by
  unfold encodeURL
  split_ifs <;> omega

/-- A byte that decodes is the character of its 6-bit value. -/
theorem decodeMap_eq_some {c v : Nat} (h : decodeMap c = some v) : v < 64 ∧ encodeURL v = c := by
  unfold decodeMap at h
  unfold encodeURL
  split_ifs at h <;> simp at h <;> subst h <;> constructor <;> first | omega | (split_ifs <;> omega)

/-- The character pass inverts the alphabet on 6-bit values. -/
theorem decodeChars_map_encodeURL (vs : List Nat) (h : ∀ v ∈ vs, v < 64) :
    decodeChars (vs.map encodeURL) = some vs := by
  induction vs with
  | nil => rfl
  | cons v vs ih =>
    have hv : v < 64 := h v (List.mem_cons_self _ _)
    have ih := ih (fun w hw => h w (List.mem_cons_of_mem _ hw))
    simp [decodeChars, decodeMap_encodeURL v hv, ih]

/-- The encoder emits 6-bit values. -/
theorem encodeSextets_lt (bs : Bytes) : ∀ v ∈ encodeSextets bs, v < 64 := by
  induction bs using encodeSextets.induct with
  | case1 a b c rest ih =>
    intro v hv
    simp only [encodeSextets, List.mem_cons] at hv
    rcases hv with rfl | rfl | rfl | rfl | hv
    · exact Nat.mod_lt _ (by decide)
    · exact Nat.mod_lt _ (by decide)
    · exact Nat.mod_lt _ (by decide)
    · exact Nat.mod_lt _ (by decide)
    · exact ih v hv
  | case2 a b =>
    intro v hv
    simp only [encodeSextets, List.mem_cons, List.mem_singleton, List.not_mem_nil, or_false] at hv
    rcases hv with rfl | rfl | rfl <;> exact Nat.mod_lt _ (by decide)
  | case3 a =>
    intro v hv
    simp only [encodeSextets, List.mem_cons, List.mem_singleton, List.not_mem_nil, or_false] at hv
    rcases hv with rfl | rfl <;> exact Nat.mod_lt _ (by decide)
  | case4 => intro v hv; simp [encodeSextets] at hv

/-- The quantum pass inverts the encoder on byte strings. -/
theorem decodeSextets_encodeSextets (bs : Bytes) (h : ∀ b ∈ bs, b < 256) :
    decodeSextets (encodeSextets bs) = some bs := by
  induction bs using encodeSextets.induct with
  | case1 a b c rest ih =>
    have ha : a < 256 := h a (by simp)
    have hb : b < 256 := h b (by simp)
    have hc : c < 256 := h c (by simp)
    have ih := ih (fun w hw => h w (by simp [hw]))
    simp only [encodeSextets, decodeSextets, ih, Option.map_some']
    congr 2
    · omega
    · congr 1
      · omega
      · congr 1
        omega
  | case2 a b =>
    have ha : a < 256 := h a (by simp)
    have hb : b < 256 := h b (by simp)
    simp only [encodeSextets, decodeSextets]
    congr 2
    · omega
    · congr 1
      omega
  | case3 a =>
    have ha : a < 256 := h a (by simp)
    simp only [encodeSextets, decodeSextets]
    congr 2
    omega
  | case4 => rfl

/-- Round trip of base64url on byte strings. -/
theorem DecodeSegment_EncodeSegment (bs : Bytes) (h : ∀ b ∈ bs, b < 256) :
    DecodeSegment (EncodeSegment bs) = some bs := by
  simp [DecodeSegment, EncodeSegment, decodeChars_map_encodeURL _ (encodeSextets_lt bs),
    decodeSextets_encodeSextets bs h]

/-- An encoded segment contains no dot. -/
theorem dot_not_mem_EncodeSegment (bs : Bytes) : 46 ∉ EncodeSegment bs := by
  intro h
  simp only [EncodeSegment, List.mem_map] at h
  obtain ⟨v, _, hv⟩ := h
  exact encodeURL_ne_dot v hv

/-- Splitting a string without separator gives the string. -/
theorem splitOn_of_not_mem (sep : Nat) (a : Bytes) (h : sep ∉ a) : splitOn sep a = [a] := by
  induction a with
  | nil => rfl
  | cons c cs ih =>
    have hc : c ≠ sep := fun e => h (e ▸ List.mem_cons_self _ _)
    have ih := ih (fun m => h (List.mem_cons_of_mem _ m))
    simp [splitOn, hc, ih]

/-- Splitting at the first separator. -/
theorem splitOn_append (sep : Nat) (a rest : Bytes) (h : sep ∉ a) :
    splitOn sep (a ++ sep :: rest) = a :: splitOn sep rest := by
  induction a with
  | nil => simp [splitOn]
  | cons c cs ih =>
    have hc : c ≠ sep := fun e => h (e ▸ List.mem_cons_self _ _)
    have ih := ih (fun m => h (List.mem_cons_of_mem _ m))
    simp [splitOn, hc, ih]

/-- Every registered method is found under its own name. -/
theorem GetSigningMethod_Alg (m : SigningMethod) : GetSigningMethod m.Alg = some m := by
  cases m with
  | HMAC h => cases h <;> rfl
  | RSA h => cases h <;> rfl
  | RSAPSS h => cases h <;> rfl
  | ECDSA h => cases h <;> rfl
  | Ed25519 => rfl
  | NoneMethod => rfl

/-- Three dot-free parts joined by dots split into these parts. -/
theorem splitOn_three (p0 p1 p2 : Bytes) (h0 : 46 ∉ p0) (h1 : 46 ∉ p1) (h2 : 46 ∉ p2) :
    splitOn 46 (p0 ++ 46 :: (p1 ++ 46 :: p2)) = [p0, p1, p2] := by
  rw [splitOn_append 46 p0 _ h0, splitOn_append 46 p1 _ h1, splitOn_of_not_mem 46 p2 h2]

/-- A signing string followed by any dot-free third part parses to the header and claims it was built from. -/
theorem ParseUnverified_signed (lib : Lib) (h : Hash) (c : Claims) (key p2 : Bytes)
    (hs : lib.Serialises h c key) (hp : 46 ∉ p2) :
    ParseUnverified lib (SigningString lib (jwtHeader (.HMAC h)) c ++ 46 :: p2) =
      .ok ({ Raw := SigningString lib (jwtHeader (.HMAC h)) c ++ 46 :: p2
             Method := .HMAC h
             Header := jwtHeader (.HMAC h)
             Claims := c
             Signature := []
             Valid := false },
           EncodeSegment (lib.marshalHeader (jwtHeader (.HMAC h))),
           EncodeSegment (lib.marshalClaims c), p2) := by
  obtain ⟨hH, hC, bH, bC, -⟩ := hs
  have hsplit : splitOn 46 (SigningString lib (jwtHeader (.HMAC h)) c ++ 46 :: p2) =
      [EncodeSegment (lib.marshalHeader (jwtHeader (.HMAC h))),
       EncodeSegment (lib.marshalClaims c), p2] := by
    have := splitOn_three _ _ p2 (dot_not_mem_EncodeSegment (lib.marshalHeader (jwtHeader (.HMAC h))))
      (dot_not_mem_EncodeSegment (lib.marshalClaims c)) hp
    simpa [SigningString] using this
  have halg : GetSigningMethod (SigningMethod.HMAC h).Alg = some (.HMAC h) :=
    GetSigningMethod_Alg _
  simp only [ParseUnverified, hsplit, DecodeSegment_EncodeSegment _ bH,
    DecodeSegment_EncodeSegment _ bC, hH, hC]
  simp only [jwtHeader, halg]

/-- The parser without verification fails as malformed or unverifiable only. -/
theorem ParseUnverified_error {lib : Lib} {tok : Bytes} {e : ParseError}
    (h : ParseUnverified lib tok = .error e) :
    e = [.ErrTokenMalformed] ∨ e = [.ErrTokenUnverifiable] := by
  unfold ParseUnverified at h
  split at h
  · split at h
    · simp at h; exact Or.inl h.symm
    · split at h
      · simp at h; exact Or.inl h.symm
      · split at h
        · simp at h; exact Or.inl h.symm
        · split at h
          · simp at h; exact Or.inl h.symm
          · split at h
            · simp at h; exact Or.inr h.symm
            · split at h
              · simp at h; exact Or.inr h.symm
              · simp at h
  · simp at h; exact Or.inl h.symm

/-- A token that does not parse is an invalid token. -/
theorem ValidateToken_of_parse_error {lib : Lib} {j : JWTManager} {tok : Bytes} {e : ParseError}
    (now : Int) (h : ParseUnverified lib tok = .error e) :
    j.ValidateToken lib tok now = .error .ErrInvalidToken := by
  rcases ParseUnverified_error h with rfl | rfl <;>
    simp [JWTManager.ValidateToken, ParseWithClaims, h, errorsIs]

/-- What validation returns for a token that parses. -/
theorem ValidateToken_of_parse {lib : Lib} {j : JWTManager} {tok : Bytes} {token : Token}
    {p0 p1 p2 : Bytes} (now : Int) (hp : ParseUnverified lib tok = .ok (token, p0, p1, p2)) :
    j.ValidateToken lib tok now =
      match DecodeSegment p2 with
      | none => .error .ErrInvalidToken
      | some sig =>
        match token.Method with
        | .HMAC h =>
            if sig = lib.hmac h j.secretKey (p0 ++ 46 :: p1) then afterVerify token.Claims now
            else .error .ErrInvalidToken
        | _ => .error .ErrInvalidToken := by
  unfold JWTManager.ValidateToken ParseWithClaims
  simp only [hp]
  cases hd : DecodeSegment p2 with
  | none => simp [errorsIs]
  | some sig =>
    cases hm : token.Method with
    | HMAC h =>
      simp only [JWTManager.keyFunc, hm, SigningMethod.Verify]
      by_cases hsig : sig = lib.hmac h j.secretKey (p0 ++ 46 :: p1)
      · simp only [hsig, if_true, afterVerify]
        cases hv : Validate token.Claims now with
        | nil => simp
        | cons e es => simp
      · simp [hsig, errorsIs]
    | RSA h => simp [JWTManager.keyFunc, hm, errorsIs]
    | RSAPSS h => simp [JWTManager.keyFunc, hm, errorsIs]
    | ECDSA h => simp [JWTManager.keyFunc, hm, errorsIs]
    | Ed25519 => simp [JWTManager.keyFunc, hm, errorsIs]
    | NoneMethod => simp [JWTManager.keyFunc, hm, errorsIs]

/-- What a successful parse says about the token string. -/
theorem ParseUnverified_ok {lib : Lib} {tok : Bytes} {token : Token} {p0 p1 p2 : Bytes}
    (h : ParseUnverified lib tok = .ok (token, p0, p1, p2)) :
    splitOn 46 tok = [p0, p1, p2] ∧ headerOf lib tok = some token.Header ∧
      claimsOf lib tok = some token.Claims ∧
      ∃ alg, token.Header.alg = some alg ∧ GetSigningMethod alg = some token.Method := by
  unfold ParseUnverified at h
  split at h
  next q0 q1 q2 hsplit =>
    split at h
    · simp at h
    next hb hd0 =>
      split at h
      · simp at h
      next hdr hh =>
        split at h
        · simp at h
        next cb hd1 =>
          split at h
          · simp at h
          next cl hc =>
            split at h
            · simp at h
            next alg ha =>
              split at h
              · simp at h
              next m hm =>
                simp only [Except.ok.injEq, Prod.mk.injEq] at h
                obtain ⟨rfl, rfl, rfl, rfl⟩ := h
                refine ⟨hsplit, ?_, ?_, alg, ha, hm⟩
                · simp [headerOf, hsplit, hd0, hh]
                · simp [claimsOf, hsplit, hd1, hc]
  · simp at h

/-- Acceptance after verification: the claims are those of the token and the validator has no complaint. -/
theorem afterVerify_ok {c c' : Claims} {now : Int} (h : afterVerify c now = .ok c') :
    c' = c ∧ Validate c now = [] := by
  unfold afterVerify at h
  split at h
  next hv => simp at h; exact ⟨h.symm, hv⟩
  next => split at h <;> simp at h

/-- Claims the validator accepts are returned. -/
theorem afterVerify_of_valid {c : Claims} {now : Int} (h : Validate c now = []) :
    afterVerify c now = .ok c := by
  simp [afterVerify, h]

/-- The validator has no complaint exactly when the expiry, if any, is after now and the not-before, if any, is not after now. -/
theorem Validate_eq_nil {c : Claims} {now : Int} :
    Validate c now = [] ↔
      (∀ e, c.Registered.ExpiresAt = some e → now < e.Time) ∧
      (∀ n, c.Registered.NotBefore = some n → n.Time ≤ now) := by
  unfold Validate
  cases he : c.Registered.ExpiresAt <;> cases hn : c.Registered.NotBefore <;>
    simp

/-- The validator reports expiry exactly when the expiry is present and not after now. -/
theorem expired_mem_Validate {c : Claims} {now : Int} :
    JwtError.ErrTokenExpired ∈ Validate c now ↔
      ∃ e, c.Registered.ExpiresAt = some e ∧ e.Time ≤ now := by
  unfold Validate
  cases he : c.Registered.ExpiresAt <;> cases hn : c.Registered.NotBefore <;>
    simp

/-- After verification the expired error is returned exactly when the expiry is present and not after now. -/
theorem afterVerify_expired {c : Claims} {now : Int} :
    afterVerify c now = .error .ErrExpiredToken ↔
      ∃ e, c.Registered.ExpiresAt = some e ∧ e.Time ≤ now := by
  rw [← expired_mem_Validate]
  unfold afterVerify
  split
  next hv => simp [hv]
  next hv => simp [errorsIs]

/-- After verification only two errors are possible. -/
theorem afterVerify_error {c : Claims} {now : Int} {e : AuthError}
    (h : afterVerify c now = .error e) : e = .ErrExpiredToken ∨ e = .ErrInvalidToken := by
  unfold afterVerify at h
  split at h
  · simp at h
  · split at h <;> simp at h <;> simp [← h]

/-- Issued claims are valid from the issuing clock reading up to their expiry. -/
theorem Validate_newClaims {user : User} {tokenType : String} {expiry t now : Int}
    (h1 : t ≤ now) (h2 : now < (NewNumericDate (t + expiry)).Time) :
    Validate (newClaims user tokenType expiry t) now = [] := by
  rw [Validate_eq_nil]
  simp only [newClaims, Option.some.injEq]
  refine ⟨fun e he => he ▸ h2, fun n hn => ?_⟩
  subst hn
  simp only [NewNumericDate, NumericDate.Time]
  omega

/-- Replacing one 6-bit value by another keeps the decoded bytes exactly when it is the last value of a final group of three (or two) and the bits that the group uses are unchanged. -/
theorem decodeSextets_set_eq (xs : List Nat) :
    ∀ (i v w : Nat), xs[i]? = some w → v < 64 → (∀ x ∈ xs, x < 64) → v ≠ w →
      (decodeSextets xs).isSome →
      (decodeSextets (xs.set i v) = decodeSextets xs ↔
        (i + 1 = xs.length ∧
          ((xs.length % 4 = 3 ∧ v / 4 = w / 4) ∨ (xs.length % 4 = 2 ∧ v / 16 = w / 16)))) := by
  induction xs using decodeSextets.induct with
  | case1 a b c d rest ih =>
    intro i v w hw hv hall hne hsome
    have ha : a < 64 := hall a (by simp)
    have hb : b < 64 := hall b (by simp)
    have hc : c < 64 := hall c (by simp)
    have hd : d < 64 := hall d (by simp)
    have hrest : ∀ x ∈ rest, x < 64 := fun x hx => hall x (by simp [hx])
    obtain ⟨r, hr⟩ : ∃ r, decodeSextets rest = some r := by
      cases h : decodeSextets rest with
      | none => simp [decodeSextets, h] at hsome
      | some r => exact ⟨r, rfl⟩
    match i, hw with
    | 0, hw =>
      simp only [List.getElem?_cons_zero, Option.some.injEq] at hw
      subst hw
      simp only [List.set_cons_zero, decodeSextets, hr, Option.map_some', Option.some.injEq,
        List.cons.injEq, and_true, List.length_cons]
      constructor
      · intro h; omega
      · intro h; omega
    | 1, hw =>
      simp only [List.getElem?_cons_succ, List.getElem?_cons_zero, Option.some.injEq] at hw
      subst hw
      simp only [List.set_cons_succ, List.set_cons_zero, decodeSextets, hr, Option.map_some',
        Option.some.injEq, List.cons.injEq, and_true, List.length_cons]
      constructor
      · intro h; omega
      · intro h; omega
    | 2, hw =>
      simp only [List.getElem?_cons_succ, List.getElem?_cons_zero, Option.some.injEq] at hw
      subst hw
      simp only [List.set_cons_succ, List.set_cons_zero, decodeSextets, hr, Option.map_some',
        Option.some.injEq, List.cons.injEq, and_true, List.length_cons]
      constructor
      · intro h; omega
      · intro h; omega
    | 3, hw =>
      simp only [List.getElem?_cons_succ, List.getElem?_cons_zero, Option.some.injEq] at hw
      subst hw
      simp only [List.set_cons_succ, List.set_cons_zero, decodeSextets, hr, Option.map_some',
        Option.some.injEq, List.cons.injEq, and_true, List.length_cons]
      constructor
      · intro h; omega
      · intro h; omega
    | k + 4, hw =>
      simp only [List.getElem?_cons_succ] at hw
      have hsome' : (decodeSextets rest).isSome := by simp [hr]
      have := ih k v w hw hv hrest hne hsome'
      simp only [List.set_cons_succ, decodeSextets, List.length_cons]
      rw [hr] at this ⊢
      cases hs : decodeSextets (rest.set k v) with
      | none =>
        rw [hs] at this
        simp only [Option.map_none', Option.map_some', reduceCtorEq, false_iff] at this ⊢
        omega
      | some r' =>
        rw [hs] at this
        simp only [Option.map_some', Option.some.injEq, List.cons.injEq, true_and] at this ⊢
        rw [this]
        omega
  | case2 a b c =>
    intro i v w hw hv hall hne _
    have ha : a < 64 := hall a (by simp)
    have hb : b < 64 := hall b (by simp)
    have hc : c < 64 := hall c (by simp)
    match i, hw with
    | 0, hw =>
      simp only [List.getElem?_cons_zero, Option.some.injEq] at hw
      subst hw
      simp only [List.set_cons_zero, decodeSextets, Option.some.injEq, List.cons.injEq, and_true,
        List.length_cons, List.length_nil]
      constructor
      · intro h; omega
      · intro h; omega
    | 1, hw =>
      simp only [List.getElem?_cons_succ, List.getElem?_cons_zero, Option.some.injEq] at hw
      subst hw
      simp only [List.set_cons_succ, List.set_cons_zero, decodeSextets, Option.some.injEq,
        List.cons.injEq, and_true, List.length_cons, List.length_nil]
      constructor
      · intro h; omega
      · intro h; omega
    | 2, hw =>
      simp only [List.getElem?_cons_succ, List.getElem?_cons_zero, Option.some.injEq] at hw
      subst hw
      simp only [List.set_cons_succ, List.set_cons_zero, decodeSextets, Option.some.injEq,
        List.cons.injEq, and_true, List.length_cons, List.length_nil]
      constructor
      · intro h
        refine ⟨trivial, Or.inl ⟨trivial, ?_⟩⟩
        omega
      · rintro ⟨-, ⟨-, h⟩ | ⟨h, -⟩⟩
        · constructor <;> omega
        · omega
    | k + 3, hw => simp at hw
  | case3 a b =>
    intro i v w hw hv hall hne _
    have ha : a < 64 := hall a (by simp)
    have hb : b < 64 := hall b (by simp)
    match i, hw with
    | 0, hw =>
      simp only [List.getElem?_cons_zero, Option.some.injEq] at hw
      subst hw
      simp only [List.set_cons_zero, decodeSextets, Option.some.injEq, List.cons.injEq, and_true,
        List.length_cons, List.length_nil]
      constructor
      · intro h; omega
      · intro h; omega
    | 1, hw =>
      simp only [List.getElem?_cons_succ, List.getElem?_cons_zero, Option.some.injEq] at hw
      subst hw
      simp only [List.set_cons_succ, List.set_cons_zero, decodeSextets, Option.some.injEq,
        List.cons.injEq, and_true, List.length_cons, List.length_nil]
      constructor
      · intro h
        refine ⟨trivial, Or.inr ⟨trivial, ?_⟩⟩
        omega
      · rintro ⟨-, ⟨h, -⟩ | ⟨-, h⟩⟩
        · omega
        · omega
    | k + 2, hw => simp at hw
  | case4 a =>
    intro i v w _ _ _ _ hsome
    simp [decodeSextets] at hsome
  | case5 =>
    intro i v w hw
    simp at hw

/-- Length of the decoded bytes. -/
theorem decodeSextets_length (xs : List Nat) :
    ∀ bs, decodeSextets xs = some bs → bs.length = xs.length * 3 / 4 := by
  induction xs using decodeSextets.induct with
  | case1 a b c d rest ih =>
    intro bs h
    cases hr : decodeSextets rest with
    | none => simp [decodeSextets, hr] at h
    | some r =>
      simp only [decodeSextets, hr, Option.map_some', Option.some.injEq] at h
      subst h
      have := ih r hr
      simp only [List.length_cons, this]
      omega
  | case2 a b c => intro bs h; simp only [decodeSextets, Option.some.injEq] at h; subst h; simp
  | case3 a b => intro bs h; simp only [decodeSextets, Option.some.injEq] at h; subst h; simp
  | case4 a => intro bs h; simp [decodeSextets] at h
  | case5 => intro bs h; simp only [decodeSextets, Option.some.injEq] at h; subst h; rfl

/-- Length of the encoded values. -/
theorem encodeSextets_length (bs : Bytes) :
    (encodeSextets bs).length = (bs.length * 4 + 2) / 3 := by
  induction bs using encodeSextets.induct with
  | case1 a b c rest ih => simp only [encodeSextets, List.length_cons, ih]; omega
  | case2 a b => simp [encodeSextets]
  | case3 a => simp [encodeSextets]
  | case4 => rfl

/-- The character pass on valid characters followed by a rest. -/
theorem decodeChars_append_valid (vs : List Nat) (rest : Bytes) (h : ∀ v ∈ vs, v < 64) :
    decodeChars (vs.map encodeURL ++ rest) = (decodeChars rest).map (fun r => vs ++ r) := by
  induction vs with
  | nil => simp
  | cons v vs ih =>
    have hv : v < 64 := h v (List.mem_cons_self _ _)
    have ih := ih (fun w hw => h w (List.mem_cons_of_mem _ hw))
    show decodeChars (encodeURL v :: (vs.map encodeURL ++ rest)) = _
    simp only [decodeChars, decodeMap_encodeURL v hv, ih]
    cases decodeChars rest <;> rfl

/-- For a byte string of length 2 modulo 3, replacing one character of its encoding by another byte decodes to the same bytes exactly when the character is the last one and the new byte has the same four leading bits. -/
theorem DecodeSegment_set_eq (bs : Bytes) (hb : IsBytes bs) (hlen : bs.length % 3 = 2)
    (i b x : Nat) (hx : (EncodeSegment bs)[i]? = some x) (hne : b ≠ x) :
    DecodeSegment ((EncodeSegment bs).set i b) = some bs ↔
      (i + 1 = (EncodeSegment bs).length ∧ SameLeadingBits b x) := by
  have hall := encodeSextets_lt bs
  have hdec := decodeSextets_encodeSextets bs hb
  have hxl := encodeSextets_length bs
  simp only [EncodeSegment, List.getElem?_map, Option.map_eq_some'] at hx
  obtain ⟨w, hw, rfl⟩ := hx
  have hi : i < (encodeSextets bs).length := (List.getElem?_eq_some.mp hw).1
  have hw64 : w < 64 := by
    obtain ⟨hlt, rfl⟩ := List.getElem?_eq_some.mp hw
    exact hall _ (List.getElem_mem hlt)
  have hset : (EncodeSegment bs).set i b =
      ((encodeSextets bs).take i).map encodeURL ++
        b :: ((encodeSextets bs).drop (i + 1)).map encodeURL := by
    rw [EncodeSegment, List.set_eq_take_append_cons_drop]
    simp [hi, List.map_take, List.map_drop]
  have htake : ∀ v ∈ (encodeSextets bs).take i, v < 64 :=
    fun v hv => hall v (List.mem_of_mem_take hv)
  have hdrop : ∀ v ∈ (encodeSextets bs).drop (i + 1), v < 64 :=
    fun v hv => hall v (List.mem_of_mem_drop hv)
  rw [hset, DecodeSegment, decodeChars_append_valid _ _ htake]
  simp only [EncodeSegment, List.length_map]
  cases hd : decodeMap b with
  | none =>
    have hS : ¬ SameLeadingBits b (encodeURL w) := by
      simp [SameLeadingBits, hd]
    simp only [decodeChars, hd, hS, and_false, iff_false]
    split_ifs with hnl
    · rw [decodeChars_map_encodeURL _ hdrop]
      simp only [Option.map_some', Option.bind_some]
      intro hcontra
      have := decodeSextets_length _ _ hcontra
      simp only [List.length_append, List.length_take, List.length_drop] at this
      omega
    · simp
  | some v =>
    obtain ⟨hv64, hvb⟩ := decodeMap_eq_some hd
    have hvw : v ≠ w := fun e => hne (by rw [← hvb, e])
    have hS : SameLeadingBits b (encodeURL w) ↔ v / 4 = w / 4 := by
      simp [SameLeadingBits, hd, decodeMap_encodeURL w hw64]
    have hset' : (encodeSextets bs).take i ++ v :: (encodeSextets bs).drop (i + 1) =
        (encodeSextets bs).set i v := by
      rw [List.set_eq_take_append_cons_drop]
      simp [hi]
    have hsome : (decodeSextets (encodeSextets bs)).isSome := by simp [hdec]
    have key := decodeSextets_set_eq (encodeSextets bs) i v w hw hv64 hall hvw hsome
    simp only [decodeChars, hd, decodeChars_map_encodeURL _ hdrop, Option.map_some', hset', hS]
    show decodeSextets ((encodeSextets bs).set i v) = some bs ↔ _
    rw [← hdec, key]
    constructor
    · rintro ⟨h1, ⟨-, h2⟩ | ⟨h2, -⟩⟩
      · exact ⟨h1, h2⟩
      · omega
    · rintro ⟨h1, h2⟩
      exact ⟨h1, Or.inl ⟨by omega, h2⟩⟩

/-- A string that contains the separator splits into at least two parts. -/
theorem splitOn_length_of_mem (sep : Nat) (l : Bytes) (h : sep ∈ l) :
    2 ≤ (splitOn sep l).length := by
  induction l with
  | nil => simp at h
  | cons c cs ih =>
    by_cases hc : c = sep
    · simp only [splitOn, hc, if_true, List.length_cons]
      have : 1 ≤ (splitOn sep cs).length := by
        cases cs with
        | nil => simp [splitOn]
        | cons d ds =>
          simp only [splitOn]
          split_ifs
          · simp
          · split <;> simp
      omega
    · have hm : sep ∈ cs := by
        rcases List.mem_cons.mp h with e | e
        · exact absurd e.symm hc
        · exact e
      have := ih hm
      simp only [splitOn, hc, if_false]
      split
      next heq => rw [heq] at this; simp at this
      next p ps heq => rw [heq] at this; simpa using this

/-- Validation of a signing string followed by an arbitrary third part. -/
theorem ValidateToken_signingString_append (lib : Lib) (j : JWTManager) (h : Hash) (c : Claims)
    (p2 : Bytes) (now : Int) (hs : lib.Serialises h c j.secretKey) :
    j.ValidateToken lib (SigningString lib (jwtHeader (.HMAC h)) c ++ 46 :: p2) now =
      if 46 ∈ p2 then .error .ErrInvalidToken
      else
        match DecodeSegment p2 with
        | none => .error .ErrInvalidToken
        | some sig =>
            if sig = lib.hmac h j.secretKey (SigningString lib (jwtHeader (.HMAC h)) c) then
              afterVerify c now
            else .error .ErrInvalidToken := by
  split_ifs with hmem
  · have hsplit : splitOn 46 (SigningString lib (jwtHeader (.HMAC h)) c ++ 46 :: p2) =
        EncodeSegment (lib.marshalHeader (jwtHeader (.HMAC h))) ::
          EncodeSegment (lib.marshalClaims c) :: splitOn 46 p2 := by
      simp only [SigningString, List.append_assoc, List.cons_append]
      rw [splitOn_append 46 _ _ (dot_not_mem_EncodeSegment _),
        splitOn_append 46 _ _ (dot_not_mem_EncodeSegment _)]
    have hlen := splitOn_length_of_mem 46 p2 hmem
    have hp : ParseUnverified lib (SigningString lib (jwtHeader (.HMAC h)) c ++ 46 :: p2) =
        .error [.ErrTokenMalformed] := by
      unfold ParseUnverified
      rw [hsplit]
      cases hq : splitOn 46 p2 with
      | nil => simp [hq] at hlen
      | cons a t =>
        cases t with
        | nil => simp [hq] at hlen
        | cons a' t' => rfl
    exact ValidateToken_of_parse_error now hp
  · rw [ValidateToken_of_parse now (ParseUnverified_signed lib h c j.secretKey p2 hs hmem)]
    simp [SigningString]

/-- Validation of a signed token comes down to the validator. -/
theorem ValidateToken_signed (lib : Lib) (j : JWTManager) (h : Hash) (c : Claims) (now : Int)
    (hs : lib.Serialises h c j.secretKey) :
    j.ValidateToken lib (signedToken lib h c j.secretKey) now = afterVerify c now := by
  have hp := ParseUnverified_signed lib h c j.secretKey
    (EncodeSegment (lib.hmac h j.secretKey (SigningString lib (jwtHeader (.HMAC h)) c))) hs
    (dot_not_mem_EncodeSegment _)
  have hd := DecodeSegment_EncodeSegment _ hs.2.2.2.2
  rw [signedToken, ValidateToken_of_parse now hp, hd]
  simp [SigningString]

/-- The manager's tokens are HS256 tokens over the claims literal; signing does not fail. -/
theorem generateToken_eq (lib : Lib) (j : JWTManager) (user : User) (tokenType : String)
    (expiry t : Int) :
    j.generateToken lib user tokenType expiry t =
      .ok (signedToken lib .SHA256 (newClaims user tokenType expiry t) j.secretKey) := rfl

/-- The pair that the manager issues; issuing does not fail. -/
theorem GenerateTokens_eq (lib : Lib) (j : JWTManager) (user : User) (t1 t2 t3 : Int) :
    j.GenerateTokens lib user t1 t2 t3 =
      .ok { User := user
            AccessToken :=
              signedToken lib .SHA256 (newClaims user "access" j.tokenExpiry t1) j.secretKey
            RefreshToken :=
              signedToken lib .SHA256 (newClaims user "refresh" j.refreshExpiry t2) j.secretKey
            ExpiresAt := Unix (t3 + j.tokenExpiry) } := rfl

/-- An accepted token is correctly signed, carries the returned claims and passes the validator. -/
theorem ValidateToken_ok {lib : Lib} {j : JWTManager} {tok : Bytes} {now : Int} {c : Claims}
    (h : j.ValidateToken lib tok now = .ok c) :
    CorrectlySigned lib j tok ∧ claimsOf lib tok = some c ∧ Validate c now = [] := by
  cases hp : ParseUnverified lib tok with
  | error e => rw [ValidateToken_of_parse_error now hp] at h; simp at h
  | ok r =>
    obtain ⟨token, p0, p1, p2⟩ := r
    rw [ValidateToken_of_parse now hp] at h
    cases hd : DecodeSegment p2 with
    | none => simp [hd] at h
    | some sig =>
      cases hm : token.Method with
      | HMAC hh =>
        simp only [hd, hm] at h
        split_ifs at h with hsig
        obtain ⟨rfl, hv⟩ := afterVerify_ok h
        exact ⟨⟨token, p0, p1, p2, hh, hp, hm, hsig ▸ hd⟩, (ParseUnverified_ok hp).2.2.1, hv⟩
      | RSA _ => simp [hd, hm] at h
      | RSAPSS _ => simp [hd, hm] at h
      | ECDSA _ => simp [hd, hm] at h
      | Ed25519 => simp [hd, hm] at h
      | NoneMethod => simp [hd, hm] at h

/-- Validation of a correctly signed token comes down to the validator. -/
theorem ValidateToken_of_CorrectlySigned {lib : Lib} {j : JWTManager} {tok : Bytes} {c : Claims}
    (now : Int) (hs : CorrectlySigned lib j tok) (hc : claimsOf lib tok = some c) :
    j.ValidateToken lib tok now = afterVerify c now := by
  obtain ⟨token, p0, p1, p2, h, hp, hm, hd⟩ := hs
  have := (ParseUnverified_ok hp).2.2.1
  rw [hc] at this
  cases this
  rw [ValidateToken_of_parse now hp, hd]
  simp [hm]

/-- A token that is not correctly signed is an invalid token. -/
theorem ValidateToken_of_not_CorrectlySigned {lib : Lib} {j : JWTManager} {tok : Bytes}
    (now : Int) (hs : ¬ CorrectlySigned lib j tok) :
    j.ValidateToken lib tok now = .error .ErrInvalidToken := by
  cases hp : ParseUnverified lib tok with
  | error e => exact ValidateToken_of_parse_error now hp
  | ok r =>
    obtain ⟨token, p0, p1, p2⟩ := r
    rw [ValidateToken_of_parse now hp]
    cases hd : DecodeSegment p2 with
    | none => rfl
    | some sig =>
      cases hm : token.Method with
      | HMAC hh =>
        simp only
        split_ifs with hsig
        · exact absurd ⟨token, p0, p1, p2, hh, hp, hm, hsig ▸ hd⟩ hs
        · rfl
      | RSA _ => rfl
      | RSAPSS _ => rfl
      | ECDSA _ => rfl
      | Ed25519 => rfl
      | NoneMethod => rfl

/-- Validation fails with one of two errors. -/
theorem ValidateToken_error {lib : Lib} {j : JWTManager} {tok : Bytes} {now : Int} {e : AuthError}
    (h : j.ValidateToken lib tok now = .error e) : e = .ErrExpiredToken ∨ e = .ErrInvalidToken := by
  by_cases hs : CorrectlySigned lib j tok
  · obtain ⟨token, p0, p1, p2, hh, hp, hm, hd⟩ := hs
    rw [ValidateToken_of_CorrectlySigned now ⟨token, p0, p1, p2, hh, hp, hm, hd⟩
      (ParseUnverified_ok hp).2.2.1] at h
    exact afterVerify_error h
  · rw [ValidateToken_of_not_CorrectlySigned now hs] at h
    simp at h
    exact Or.inr h.symm

/-- Acceptance as an access token. -/
theorem ExtractUserID_ok {lib : Lib} {j : JWTManager} {tok : Bytes} {now : Int} {u : UUID}
    (h : j.ExtractUserID lib tok now = .ok u) :
    ∃ c, j.ValidateToken lib tok now = .ok c ∧ c.TokenType = "access" ∧ c.UserID = u := by
  unfold JWTManager.ExtractUserID at h
  cases hv : j.ValidateToken lib tok now with
  | error e => simp [hv] at h
  | ok c =>
    simp only [hv] at h
    split_ifs at h with ht
    simp only [Except.ok.injEq] at h
    exact ⟨c, rfl, not_not.mp ht, h⟩

/-- Acceptance as a refresh token. -/
theorem RefreshToken_ok {lib : Lib} {j : JWTManager} {tok : Bytes} {t0 t1 t2 t3 : Int}
    {pair : LoginResponse} (h : j.RefreshToken lib tok t0 t1 t2 t3 = .ok pair) :
    ∃ c, j.ValidateToken lib tok t0 = .ok c ∧ c.TokenType = "refresh" ∧
      j.GenerateTokens lib { ID := c.UserID, Email := c.Email } t1 t2 t3 = .ok pair := by
  unfold JWTManager.RefreshToken at h
  cases hv : j.ValidateToken lib tok t0 with
  | error e => simp [hv] at h
  | ok c =>
    simp only [hv] at h
    split_ifs at h with ht
    rw [GenerateTokens_eq] at h
    simp only [Except.ok.injEq] at h
    exact ⟨c, rfl, not_not.mp ht, by rw [GenerateTokens_eq, h]⟩

/-- A validation error is passed on by the refresh. -/
theorem RefreshToken_of_error {lib : Lib} {j : JWTManager} {tok : Bytes} {t0 : Int}
    {e : AuthError} (t1 t2 t3 : Int) (h : j.ValidateToken lib tok t0 = .error e) :
    j.RefreshToken lib tok t0 t1 t2 t3 = .error (.auth e) := by
  simp [JWTManager.RefreshToken, h]

/-- The refresh on a token that validates. -/
theorem RefreshToken_of_ok {lib : Lib} {j : JWTManager} {tok : Bytes} {t0 : Int}
    {c : Claims} (t1 t2 t3 : Int) (h : j.ValidateToken lib tok t0 = .ok c) :
    j.RefreshToken lib tok t0 t1 t2 t3 =
      if c.TokenType ≠ "refresh" then .error (.auth .ErrInvalidToken)
      else
        .ok { User := { ID := c.UserID, Email := c.Email }
              AccessToken := signedToken lib .SHA256
                (newClaims { ID := c.UserID, Email := c.Email } "access" j.tokenExpiry t1)
                j.secretKey
              RefreshToken := signedToken lib .SHA256
                (newClaims { ID := c.UserID, Email := c.Email } "refresh" j.refreshExpiry t2)
                j.secretKey
              ExpiresAt := Unix (t3 + j.tokenExpiry) } := by
  simp only [JWTManager.RefreshToken, h, GenerateTokens_eq]

/-- The extraction on a token that validates. -/
theorem ExtractUserID_of_ok {lib : Lib} {j : JWTManager} {tok : Bytes} {now : Int}
    {c : Claims} (h : j.ValidateToken lib tok now = .ok c) :
    j.ExtractUserID lib tok now =
      if c.TokenType ≠ "access" then .error .ErrInvalidToken else .ok c.UserID := by
  simp only [JWTManager.ExtractUserID, h]

/-- The bytes of the bearer scheme. -/
theorem ascii_bearer : ascii "Bearer " = [66, 101, 97, 114, 101, 114, 32] := by decide

/-- The gate on a bearer header. -/
theorem authMiddleware_of_bearer (lib : Lib) (j : JWTManager) (now : Int) (c : Context)
    (tok : Bytes) (ht : tok ≠ [])
    (hh : c.GetHeader "Authorization" = ascii "Bearer " ++ tok) :
    authMiddleware lib j now c =
      match j.ValidateToken lib tok now with
      | .error _ => (c.JSON StatusUnauthorized "Invalid token").Abort
      | .ok claims => (c.Set "user_id" claims.UserID).Next := by
  unfold authMiddleware
  simp only [hh, ascii_bearer]
  obtain ⟨b, bs, rfl⟩ := List.exists_cons_of_ne_nil ht
  simp

/-- A signed token is not empty. -/
theorem signedToken_ne_nil (lib : Lib) (h : Hash) (c : Claims) (key : Bytes) :
    signedToken lib h c key ≠ [] := by
  simp [signedToken]

/-- A key that was set is read back. -/
theorem Context.Get_Set_Next (c : Context) (key : String) (v : UUID) :
    ((c.Set key v).Next).Get key = some v := by
  simp [Context.Get, Context.Set, Context.Next, List.lookup]

/-- A signed token is correctly signed. -/
theorem CorrectlySigned_signedToken (lib : Lib) (j : JWTManager) (h : Hash) (c : Claims)
    (hs : lib.Serialises h c j.secretKey) :
    CorrectlySigned lib j (signedToken lib h c j.secretKey) := by
  have hp := ParseUnverified_signed lib h c j.secretKey
    (EncodeSegment (lib.hmac h j.secretKey (SigningString lib (jwtHeader (.HMAC h)) c))) hs
    (dot_not_mem_EncodeSegment _)
  refine ⟨_, _, _, _, h, hp, rfl, ?_⟩
  rw [DecodeSegment_EncodeSegment _ hs.2.2.2.2]
  rfl

/-- The claims of a signed token. -/
theorem claimsOf_signedToken (lib : Lib) (h : Hash) (c : Claims) (key : Bytes)
    (hs : lib.Serialises h c key) : claimsOf lib (signedToken lib h c key) = some c :=
  (ParseUnverified_ok (ParseUnverified_signed lib h c key
    (EncodeSegment (lib.hmac h key (SigningString lib (jwtHeader (.HMAC h)) c))) hs
    (dot_not_mem_EncodeSegment _))).2.2.1

/-- A method is registered under its own name only. -/
theorem GetSigningMethod_eq_some {alg : String} {m : SigningMethod}
    (h : GetSigningMethod alg = some m) : alg = m.Alg := by
  have := List.find?_some h
  exact (of_decide_eq_true this).symm

/-- Claims are returned only from a parse without error. -/
theorem ParseWithClaims_of_ok {lib : Lib} {j : JWTManager} {tok : Bytes} {now : Int}
    {c : Claims} (h : j.ValidateToken lib tok now = .ok c) :
    ∃ token, ParseWithClaims lib tok j.keyFunc now = .ok token ∧ token.Claims = c := by
  unfold JWTManager.ValidateToken at h
  cases hp : ParseWithClaims lib tok j.keyFunc now with
  | error e => rw [hp] at h; simp only at h; split_ifs at h
  | ok token =>
    rw [hp] at h
    simp only at h
    split_ifs at h
    simp only [Except.ok.injEq] at h
    exact ⟨token, rfl, h⟩

/-- The three parts of a signed token. -/
theorem splitOn_signedToken (lib : Lib) (h : Hash) (c : Claims) (key : Bytes) :
    splitOn 46 (signedToken lib h c key) =
      [EncodeSegment (lib.marshalHeader (jwtHeader (.HMAC h))),
       EncodeSegment (lib.marshalClaims c),
       EncodeSegment (lib.hmac h key (SigningString lib (jwtHeader (.HMAC h)) c))] := by
  have := splitOn_three _ _ _ (dot_not_mem_EncodeSegment (lib.marshalHeader (jwtHeader (.HMAC h))))
    (dot_not_mem_EncodeSegment (lib.marshalClaims c))
    (dot_not_mem_EncodeSegment (lib.hmac h key (SigningString lib (jwtHeader (.HMAC h)) c)))
  simpa [signedToken, SigningString] using this

/-- The dot does not decode. -/
theorem decodeMap_dot : decodeMap 46 = none := by decide

/-- Every character of the alphabet has another one with the same four leading bits. -/
theorem exists_other_SameLeadingBits (w : Nat) (hw : w < 64) :
    ∃ b, b ≠ encodeURL w ∧ SameLeadingBits b (encodeURL w) := by
  refine ⟨encodeURL (if w % 2 = 0 then w + 1 else w - 1), ?_, ?_⟩
  · intro e
    have h1 := decodeMap_encodeURL (if w % 2 = 0 then w + 1 else w - 1) (by split_ifs <;> omega)
    rw [e, decodeMap_encodeURL w hw] at h1
    simp only [Option.some.injEq] at h1
    split_ifs at h1 <;> omega
  · have h1 := decodeMap_encodeURL (if w % 2 = 0 then w + 1 else w - 1) (by split_ifs <;> omega)
    simp only [SameLeadingBits, h1, decodeMap_encodeURL w hw]
    split_ifs <;> omega

/-- Recording the calls does not change what the parser returns. -/
theorem ParseWithClaimsTraced_fst (lib : Lib) (tok : Bytes) (keyFunc : Token → Except Unit Bytes)
    (now : Int) :
    (ParseWithClaimsTraced lib tok keyFunc now).1 = ParseWithClaims lib tok keyFunc now := by
  unfold ParseWithClaimsTraced ParseWithClaims
  split
  · rfl
  · split
    · rfl
    · simp only
      split
      · rfl
      · split
        · rfl
        · split <;> rfl

/-- Every recorded call verifies an HMAC method of a parsed token under the manager's secret. -/
theorem ParseWithClaimsTraced_calls {lib : Lib} {j : JWTManager} {tok : Bytes} {now : Int}
    {call : VerifyCall} (h : call ∈ (ParseWithClaimsTraced lib tok j.keyFunc now).2) :
    ∃ token p0 p1 p2 hh, ParseUnverified lib tok = .ok (token, p0, p1, p2) ∧
      token.Method = .HMAC hh ∧ call.method = .HMAC hh ∧ call.key = j.secretKey := by
  unfold ParseWithClaimsTraced at h
  split at h
  · simp at h
  next token p0 p1 p2 hp =>
    split at h
    · simp at h
    next sig hd =>
      simp only at h
      cases hm : token.Method with
      | HMAC hh =>
        simp only [JWTManager.keyFunc, hm] at h
        have hc : call = { method := .HMAC hh, key := j.secretKey } := by
          split at h
          · simpa using h
          · split at h <;> simpa using h
        exact ⟨token, p0, p1, p2, hh, hp, hm, by rw [hc], by rw [hc]⟩
      | RSA _ => simp [JWTManager.keyFunc, hm] at h
      | RSAPSS _ => simp [JWTManager.keyFunc, hm] at h
      | ECDSA _ => simp [JWTManager.keyFunc, hm] at h
      | Ed25519 => simp [JWTManager.keyFunc, hm] at h
      | NoneMethod => simp [JWTManager.keyFunc, hm] at h

/-- The method of a parsed token is the one that its header names. -/
theorem method_of_header {lib : Lib} {tok : Bytes} {token : Token} {p0 p1 p2 : Bytes}
    {hdr : Header} {h : Hash} (hp : ParseUnverified lib tok = .ok (token, p0, p1, p2))
    (hh : headerOf lib tok = some hdr) (hm : token.Method = .HMAC h) :
    hdr.alg = some (SigningMethod.HMAC h).Alg := by
  obtain ⟨-, hh', -, alg, ha, hg⟩ := ParseUnverified_ok hp
  rw [hh] at hh'
  cases hh'
  have := GetSigningMethod_eq_some hg
  rw [hm] at this
  rw [ha, this]

/-- The key function depends on the secret only. -/
theorem keyFunc_congr {j j' : JWTManager} (h : j'.secretKey = j.secretKey) :
    j'.keyFunc = j.keyFunc := by
  funext token
  simp only [JWTManager.keyFunc, h]

/-- Validation depends on the secret only, not on the lifetimes. -/
theorem ValidateToken_congr (lib : Lib) {j j' : JWTManager} (h : j'.secretKey = j.secretKey)
    (tok : Bytes) (now : Int) :
    j'.ValidateToken lib tok now = j.ValidateToken lib tok now := by
  simp only [JWTManager.ValidateToken, keyFunc_congr h]

/-- The refresh succeeds exactly when the token validates as a refresh token. -/
theorem RefreshToken_isOk_iff (lib : Lib) (j : JWTManager) (tok : Bytes) (t0 t1 t2 t3 : Int) :
    (∃ pair, j.RefreshToken lib tok t0 t1 t2 t3 = .ok pair) ↔
      ∃ c, j.ValidateToken lib tok t0 = .ok c ∧ c.TokenType = "refresh" := by
  constructor
  · rintro ⟨pair, hp⟩
    obtain ⟨c, hc, ht, -⟩ := RefreshToken_ok hp
    exact ⟨c, hc, ht⟩
  · rintro ⟨c, hc, ht⟩
    exact ⟨_, (RefreshToken_of_ok t1 t2 t3 hc).trans (if_neg (not_not.mpr ht))⟩

/-- A token accepted at one clock reading is accepted at every later one before its expiry. -/
theorem ValidateToken_later {lib : Lib} {j : JWTManager} {tok : Bytes} {t0 t0' : Int}
    {c : Claims} (h : j.ValidateToken lib tok t0 = .ok c) (hle : t0 ≤ t0')
    (hexp : ∀ e, c.Registered.ExpiresAt = some e → t0' < e.Time) :
    j.ValidateToken lib tok t0' = .ok c := by
  obtain ⟨hs, hc, hv⟩ := ValidateToken_ok h
  rw [ValidateToken_of_CorrectlySigned t0' hs hc]
  apply afterVerify_of_valid
  rw [Validate_eq_nil] at hv ⊢
  exact ⟨hexp, fun n hn => le_trans (hv.2 n hn) hle⟩

/-- In a run every call is answered on its own. -/
theorem serve_eq_map (lib : Lib) (j : JWTManager) (calls : List RefreshCall) :
    j.serve lib calls =
      calls.map (fun call => j.RefreshToken lib call.token call.t0 call.t1 call.t2 call.t3) := by
  induction calls with
  | nil => rfl
  | cons call rest ih => simp [JWTManager.serve, ih]

/-- A value in the 64-bit range is not changed by the wrap. -/
theorem wrap64_of_range {x : Int} (h1 : -9223372036854775808 ≤ x) (h2 : x < 9223372036854775808) :
    wrap64 x = x := by
  unfold wrap64
  omega

/-- From 1 to 2562047 hours the access lifetime is the exact product, at least an hour. -/
theorem GetJWTExpiry_of_range {cfg : Config} (h1 : 1 ≤ cfg.JWT.ExpiryHours)
    (h2 : cfg.JWT.ExpiryHours ≤ 2562047) :
    cfg.GetJWTExpiry = cfg.JWT.ExpiryHours * 3600000000000 ∧ 3600000000000 ≤ cfg.GetJWTExpiry := by
  unfold Config.GetJWTExpiry Hour
  rw [wrap64_of_range (by omega) (by omega)]
  exact ⟨rfl, by omega⟩

/-- From 1 to 2562047 hours the refresh lifetime is the exact product, at least an hour. -/
theorem GetJWTRefreshExpiry_of_range {cfg : Config} (h1 : 1 ≤ cfg.JWT.RefreshExpiryHours)
    (h2 : cfg.JWT.RefreshExpiryHours ≤ 2562047) :
    cfg.GetJWTRefreshExpiry = cfg.JWT.RefreshExpiryHours * 3600000000000 ∧
      3600000000000 ≤ cfg.GetJWTRefreshExpiry := by
  unfold Config.GetJWTRefreshExpiry Hour
  rw [wrap64_of_range (by omega) (by omega)]
  exact ⟨rfl, by omega⟩

/-- With a lifetime of a second or more the issued claims are ordered. -/
theorem newClaims_Ordered (user : User) (tokenType : String) (expiry t : Int)
    (h : 1000000000 ≤ expiry) : (newClaims user tokenType expiry t).Ordered := by
  show t / 1000000000 ≤ t / 1000000000 ∧ t / 1000000000 < (t + expiry) / 1000000000
  constructor
  · exact le_refl _
  · omega

/-- The empty string is not a token. -/
theorem ValidateToken_nil (lib : Lib) (j : JWTManager) (now : Int) :
    j.ValidateToken lib [] now = .error .ErrInvalidToken :=
  ValidateToken_of_parse_error (e := [.ErrTokenMalformed]) now rfl

/-- The test of the gate holds exactly for the bearer scheme followed by at least one byte. -/
theorem bearer_iff (authHeader : Bytes) :
    (authHeader.length > 7 ∧ authHeader.take 7 = ascii "Bearer ") ↔
      ∃ t, t ≠ [] ∧ authHeader = ascii "Bearer " ++ t := by
  rw [ascii_bearer]
  constructor
  · rintro ⟨hl, ht⟩
    refine ⟨authHeader.drop 7, ?_, ?_⟩
    · intro h
      have := congrArg List.length h
      simp at this
      omega
    · rw [← ht, List.take_append_drop]
  · rintro ⟨t, ht, rfl⟩
    obtain ⟨b, bs, rfl⟩ := List.exists_cons_of_ne_nil ht
    simp

/-- The checked gate never panics, returns what the gate returns, and calls the validation once, on the header without its first seven bytes, exactly when the test holds. -/
theorem authMiddlewareRun_eq (lib : Lib) (j : JWTManager) (now : Int) (c : Context) :
    authMiddlewareRun lib j now c =
      some (authMiddleware lib j now c,
        if c.GetHeader "Authorization" = [] then []
        else if (c.GetHeader "Authorization").length > 7 ∧
            (c.GetHeader "Authorization").take 7 = ascii "Bearer " then
          [(c.GetHeader "Authorization").drop 7]
        else []) := by
  unfold authMiddlewareRun authMiddleware
  simp only
  by_cases h0 : c.GetHeader "Authorization" = []
  · simp [h0]
  · simp only [h0, if_false]
    by_cases hl : (c.GetHeader "Authorization").length > 7
    · have s1 : slice (c.GetHeader "Authorization") 0 7 =
          some ((c.GetHeader "Authorization").take 7) := by
        simp [slice, le_of_lt hl]
      have s2 : slice (c.GetHeader "Authorization") 7 (c.GetHeader "Authorization").length =
          some ((c.GetHeader "Authorization").drop 7) := by
        simp [slice, le_of_lt hl]
      simp only [hl, if_true, s1, s2, true_and]
      by_cases hp : (c.GetHeader "Authorization").take 7 = ascii "Bearer "
      · simp only [hp, if_true]
        cases j.ValidateToken lib ((c.GetHeader "Authorization").drop 7) now <;> rfl
      · simp only [hp, if_false]
    · simp only [hl, if_false, false_and]

/-- The refresh handler answers a validation error with its own message. -/
theorem handleRefreshToken_of_error (lib : Lib) (s : UserService) (req : RefreshTokenRequest)
    (t0 t1 t2 t3 : Int) (err : AuthError)
    (h : s.jwtManager.ValidateToken lib req.RefreshToken t0 = .error err) :
    handleRefreshToken lib s (.ok req) t0 t1 t2 t3 =
      { status := StatusUnauthorized, body := .error err.Error } := by
  simp only [handleRefreshToken, UserService.RefreshToken, RefreshToken_of_error t1 t2 t3 h]
  rfl

/-- A string has at least as many bytes as characters. -/
theorem utf8ByteSize_go_ge (cs : List Char) : cs.length ≤ String.utf8ByteSize.go cs := by
  induction cs with
  | nil => simp [String.utf8ByteSize.go]
  | cons c cs ih =>
    have := c.utf8Size_pos
    simp only [String.utf8ByteSize.go, List.length_cons]
    omega

/-- An ASCII string has as many bytes as characters. -/
theorem utf8ByteSize_go_ascii (cs : List Char) (h : ∀ c ∈ cs, c.toNat < 128) :
    String.utf8ByteSize.go cs = cs.length := by
  induction cs with
  | nil => simp [String.utf8ByteSize.go]
  | cons c cs ih =>
    have hc : c.utf8Size = 1 := by
      have := h c (List.mem_cons_self _ _)
      have h' : c.val ≤ 127 := (show c.val.toNat ≤ 127 by
        simp only [Char.toNat] at this
        omega)
      simp [Char.utf8Size, h']
    have ih := ih (fun d hd => h d (List.mem_cons_of_mem _ hd))
    simp only [String.utf8ByteSize.go, List.length_cons, ih, hc]

/-- The number of characters is at most the length in bytes. -/
theorem length_le_len (p : String) : p.length ≤ len p := by
  cases p with
  | mk cs => exact utf8ByteSize_go_ge cs

/-- For an ASCII string the length in bytes is the number of characters. -/
theorem len_ascii (p : String) (h : ∀ c ∈ p.toList, c.toNat < 128) : len p = p.length := by
  cases p with
  | mk cs => exact utf8ByteSize_go_ascii cs h

/-- The byte size is the length of the UTF-8 encoding. -/
theorem utf8ByteSize_go_eq (cs : List Char) :
    String.utf8ByteSize.go cs = (cs.map String.utf8EncodeChar).flatten.length := by
  induction cs with
  | nil => rfl
  | cons c cs ih =>
    simp only [String.utf8ByteSize.go, List.map_cons, List.flatten_cons, List.length_append,
      String.length_utf8EncodeChar, ih]
    omega

/-- The length of a string is the number of its bytes. -/
theorem len_eq_stringBytes (p : String) : len p = (stringBytes p).length := by
  cases p with
  | mk cs =>
    simp only [stringBytes, List.length_map]
    exact utf8ByteSize_go_eq cs

/-- The decode map of `bcEncoding` inverts its alphabet. -/
theorem bcDecodeMap_bcEncode (v : Nat) (h : v < 64) : bcDecodeMap (bcEncode v) = some v := by
  interval_cases v <;> rfl

/-- The characters of the alphabet of `bcEncoding` are ASCII. -/
theorem bcEncode_lt (v : Nat) (h : v < 64) : bcEncode v < 128 := by
  unfold bcEncode
  split_ifs <;> omega

/-- A group of four characters of the alphabet is decoded, and decoding goes on
with the rest. -/
theorem decodeQuanta_group (v1 v2 v3 v4 : Nat) (rest : Bytes) (h1 : v1 < 64) (h2 : v2 < 64)
    (h3 : v3 < 64) (h4 : v4 < 64) :
    (decodeQuanta 0 0 (bcEncode v1 :: bcEncode v2 :: bcEncode v3 :: bcEncode v4 :: rest)).isSome =
      (decodeQuanta 0 0 rest).isSome := by
  simp [decodeQuanta, bcDecodeMap_bcEncode, h1, h2, h3, h4]

/-- Decoding succeeds on `4 n + 2` characters of the alphabet followed by `==`. -/
theorem decodeQuanta_padded (n : Nat) :
    ∀ vs : List Nat, vs.length = 4 * n + 2 → (∀ v ∈ vs, v < 64) →
      (decodeQuanta 0 0 (vs.map bcEncode ++ [61, 61])).isSome = true := by
  induction n with
  | zero =>
    intro vs hl hv
    match vs, hl with
    | [v1, v2], _ =>
      have h1 : v1 < 64 := hv v1 (by simp)
      have h2 : v2 < 64 := hv v2 (by simp)
      have h61 : bcDecodeMap 61 = none := by decide
      simp [decodeQuanta, bcDecodeMap_bcEncode, h1, h2, h61, skipNewlines]
  | succ n ih =>
    intro vs hl hv
    match vs, hl with
    | v1 :: v2 :: v3 :: v4 :: vs, hl =>
      have h1 : v1 < 64 := hv v1 (by simp)
      have h2 : v2 < 64 := hv v2 (by simp)
      have h3 : v3 < 64 := hv v3 (by simp)
      have h4 : v4 < 64 := hv v4 (by simp)
      simp only [List.map_cons, List.cons_append]
      rw [decodeQuanta_group v1 v2 v3 v4 _ h1 h2 h3 h4]
      apply ih
      · simp only [List.length_cons] at hl
        omega
      · intro v hv2
        exact hv v (by simp [hv2])

/-- The length of an encoding. -/
theorem base64Encode_length (src : Bytes) :
    (base64Encode src).length = (src.length * 4 + 2) / 3 := by
  simp [base64Encode, encodeSextets_length]

/-- An encoding is ASCII. -/
theorem base64Encode_lt (src : Bytes) : ∀ c ∈ base64Encode src, c < 128 := by
  intro c hc
  simp only [base64Encode, List.mem_map] at hc
  obtain ⟨v, hv, rfl⟩ := hc
  exact bcEncode_lt v (encodeSextets_lt src v hv)

/-- The encoding of 16 bytes decodes: `base64Decode` does not fail on a salt
that the library has made. -/
theorem base64Decode_base64Encode (src : Bytes) (h : src.length = 16) :
    (base64Decode (base64Encode src)).isSome = true := by
  have hl := base64Encode_length src
  rw [h] at hl
  have hl2 : (base64Encode src).length = 22 := by simpa using hl
  unfold base64Decode
  rw [hl2]
  have : List.replicate (4 - 22 % 4) 61 = [61, 61] := by decide
  rw [this]
  unfold base64Encode
  apply decodeQuanta_padded 5
  · simpa [base64Encode] using hl2
  · exact encodeSextets_lt src

/-- A block that `Encrypt` writes has eight bytes. -/
theorem Encrypt_length (bf : Blowfish) (c : Cipher) (src : Bytes) :
    (Encrypt bf c src).length = 8 := by
  simp [Encrypt]

/-- Encrypting a block once or more gives eight bytes. -/
theorem iterate_Encrypt_length (bf : Blowfish) (c : Cipher) (n : Nat) (src : Bytes) :
    (Nat.iterate (Encrypt bf c) (n + 1) src).length = 8 := by
  rw [Function.iterate_succ_apply']
  exact Encrypt_length bf c _

/-- On a salt that decodes, `bcrypt` succeeds, whatever the password and the
cost, with a hash of 31 ASCII characters. -/
theorem bcrypt_of_decodes (bf : Blowfish) (password : Bytes) (cost : Int) (salt : Bytes)
    (h : (base64Decode salt).isSome = true) :
    ∃ hash, bcrypt bf password cost salt = .ok hash ∧ hash.length = 31 ∧
      ∀ c ∈ hash, c < 128 := by
  obtain ⟨csalt, hs⟩ := Option.isSome_iff_exists.mp h
  have hk : ¬ (password ++ [0]).length < 1 := by simp
  simp only [bcrypt, expensiveBlowfishSetup, hs, NewSaltedCipher, hk, if_false]
  refine ⟨_, rfl, ?_, base64Encode_lt _⟩
  rw [base64Encode_length]
  simp only [List.length_take, List.length_append, iterate_Encrypt_length, maxCryptedHashSize]
  decide

/-- The function `bcrypt` depends on the password only through the key words
of the password followed by a zero byte. -/
theorem bcrypt_congr (bf : Blowfish) (p q : Bytes) (cost : Int) (salt : Bytes)
    (h : keyWords (p ++ [0]) = keyWords (q ++ [0])) :
    bcrypt bf p cost salt = bcrypt bf q cost salt := by
  have hp : ¬ (p ++ [0]).length < 1 := by simp
  have hq : ¬ (q ++ [0]).length < 1 := by simp
  simp only [bcrypt, expensiveBlowfishSetup, NewSaltedCipher, hp, hq, if_false, h]

/-- Copying over a middle part of the same length replaces that part. -/
theorem copyAt_mid (pre mid post src : Bytes) (h : mid.length = src.length) :
    copyAt (pre ++ mid ++ post) pre.length src = pre ++ src ++ post := by
  unfold copyAt
  have h1 : (pre ++ mid ++ post).take pre.length = pre := by
    rw [List.append_assoc, List.take_left']
    rfl
  have h2 : src.take ((pre ++ mid ++ post).length - pre.length) = src := by
    apply List.take_of_length_le
    simp only [List.length_append]
    omega
  have h3 : (pre ++ mid ++ post).drop (pre.length + src.length) = post := by
    rw [← h]
    have : pre.length + mid.length = (pre ++ mid).length := by simp
    rw [this, List.drop_left']
    rfl
  rw [h1, h2, h3]

/-- The text of a `hashed` of cost 12 with a salt of 22 and a hash of 31 bytes. -/
theorem Hash_eq (salt hash : Bytes) (hs : salt.length = 22) (hh : hash.length = 31) :
    hashed.Hash { hash := hash, salt := salt, cost := 12, major := majorVersion,
                  minor := minorVersion } = ascii "$2a$12$" ++ salt ++ hash := by
  have e2 : copyAt ((([36, 50, 97, 36] ++ [49, 50] ++
      ([0] ++ List.replicate 22 0 ++ List.replicate 31 0) : Bytes).set 6 36)) 7 salt =
      [36, 50, 97, 36, 49, 50, 36] ++ salt ++ List.replicate 31 0 := by
    have := copyAt_mid [36, 50, 97, 36, 49, 50, 36] (List.replicate 22 0) (List.replicate 31 0)
      salt (by simp [hs])
    simpa using this
  have e3 : copyAt ([36, 50, 97, 36, 49, 50, 36] ++ salt ++ List.replicate 31 0) 29 hash =
      [36, 50, 97, 36, 49, 50, 36] ++ salt ++ hash := by
    have := copyAt_mid ([36, 50, 97, 36, 49, 50, 36] ++ salt) (List.replicate 31 0) []
      hash (by simp [hh])
    simpa [hs] using this
  have e0 : copyAt ((((List.replicate 60 0 : Bytes).set 0 36).set 1 50).set 2 97 |>.set 3 36) 4
      (formatCost 12) = [36, 50, 97, 36] ++ [49, 50] ++
        ([0] ++ List.replicate 22 0 ++ List.replicate 31 0) := by decide
  have ea : ascii "$2a$12$" = [36, 50, 97, 36, 49, 50, 36] := by decide
  simp only [hashed.Hash, majorVersion, minorVersion, encodedSaltSize, encodedHashSize]
  simp only [show ((97 : Nat) ≠ 0) = True from by simp, if_true]
  rw [e0, e2, e3, ea]
  apply List.take_of_length_le
  simp [hs, hh]

/-- Reading back the text of a `hashed` of cost 12. -/
theorem newFromHash_eq (salt hash : Bytes) (hs : salt.length = 22) (hh : hash.length = 31) :
    newFromHash (ascii "$2a$12$" ++ salt ++ hash) =
      .ok { hash := hash, salt := salt, cost := 12, major := majorVersion,
            minor := minorVersion } := by
  have ea : ascii "$2a$12$" = [36, 50, 97, 36, 49, 50, 36] := by decide
  have hl : ¬ ([36, 50, 97, 36, 49, 50, 36] ++ salt ++ hash).length < minHashSize := by
    simp [hs, hh, minHashSize]
  have hv : decodeVersion ([36, 50, 97, 36, 49, 50, 36] ++ salt ++ hash) = .ok (50, 97, 4) := by
    simp [decodeVersion, majorVersion]
  have hc : decodeCost (([36, 50, 97, 36, 49, 50, 36] ++ salt ++ hash).drop 4) = .ok (12, 3) := by
    have h12 : Atoi (asciiString [49, 50]) = some 12 := by decide
    have hk : checkCost 12 = none := by decide
    simp [decodeCost, h12, hk]
  rw [ea]
  unfold newFromHash
  rw [if_neg hl, hv]
  simp only [hc]
  simp [encodedSaltSize, majorVersion, minorVersion, hs]

/-- Comparison with a generated digest: a match exactly when the password gives
the stored hash again under the stored salt and cost. -/
theorem CompareHashAndPassword_eq (bf : Blowfish) (salt hash password : Bytes)
    (hs : salt.length = 22) (hh : hash.length = 31)
    (hd : (base64Decode salt).isSome = true) :
    CompareHashAndPassword bf (ascii "$2a$12$" ++ salt ++ hash) password =
      if bcrypt bf password 12 salt = .ok hash then none
      else some .ErrMismatchedHashAndPassword := by
  obtain ⟨other, ho, hol, _⟩ := bcrypt_of_decodes bf password 12 salt hd
  unfold CompareHashAndPassword
  rw [newFromHash_eq salt hash hs hh]
  simp only [ho]
  have h1 := Hash_eq salt hash hs hh
  have h2 := Hash_eq salt other hs hol
  simp only [majorVersion, minorVersion] at h1 h2 ⊢
  simp only [h1, h2]
  by_cases he : other = hash
  · subst he
    simp
  · have : ¬ hash = other := fun h => he h.symm
    simp [he, this]

/-- The UTF-8 encoding of an ASCII character is its one byte. -/
theorem utf8EncodeChar_ofNat (b : Nat) (h : b < 128) :
    (String.utf8EncodeChar (Char.ofNat b)).map UInt8.toNat = [b] := by
  interval_cases b <;> rfl

/-- Converting ASCII bytes to a string and back gives the bytes. -/
theorem stringBytes_asciiString (bs : Bytes) (h : ∀ b ∈ bs, b < 128) :
    stringBytes (asciiString bs) = bs := by
  induction bs with
  | nil => rfl
  | cons b bs ih =>
    have hb := utf8EncodeChar_ofNat b (h b (List.mem_cons_self _ _))
    have ih := ih (fun c hc => h c (List.mem_cons_of_mem _ hc))
    simp only [stringBytes, asciiString, String.toList, List.map_cons, List.flatten_cons,
      List.map_append] at ih ⊢
    rw [hb, ih]
    rfl

/-- The salt that the library makes of 16 bytes of entropy has 22 characters and
decodes. -/
theorem salt_facts (entropy : Bytes) (he : 16 ≤ entropy.length) :
    (base64Encode (entropy.take maxSaltSize)).length = 22 ∧
      (base64Decode (base64Encode (entropy.take maxSaltSize))).isSome = true := by
  have hl : (entropy.take maxSaltSize).length = 16 := by
    simp only [List.length_take, maxSaltSize]
    omega
  refine ⟨?_, base64Decode_base64Encode _ hl⟩
  rw [base64Encode_length, hl]

/-- The outcome of `HashPassword` with the library: a password of more than 72
bytes and a random source that delivers fewer than 16 bytes are its two
failures. -/
theorem HashPassword_xcrypto (bf : Blowfish) (password : String) (entropy : Bytes) :
    HashPassword (xcrypto bf) password entropy =
      if len password > 72 then .error .ErrPasswordTooLong
      else if entropy.length < 16 then .error .RandError
      else
        match bcrypt bf (stringBytes password) 12 (base64Encode (entropy.take maxSaltSize)) with
        | .error err => .error err
        | .ok hash =>
            .ok (asciiString
              (ascii "$2a$12$" ++ base64Encode (entropy.take maxSaltSize) ++ hash)) := by
  rw [len_eq_stringBytes]
  have hc : checkCost (12 : Int) = none := by decide
  have hm : ¬ ((12 : Int) < MinCost) := by decide
  simp only [HashPassword, xcrypto, DefaultCost, GenerateFromPassword, Nat.cast_ofNat]
  by_cases hp : (stringBytes password).length > 72
  · simp only [hp, if_true]
  · simp only [hp, if_false, newFromPassword, hm, hc, maxSaltSize]
    by_cases he : entropy.length < 16
    · simp only [he, if_true]
    · simp only [he, if_false]
      have hs := salt_facts entropy (by omega)
      simp only [maxSaltSize] at hs
      obtain ⟨hash, hb, hl, _⟩ :=
        bcrypt_of_decodes bf (stringBytes password) 12 (base64Encode (entropy.take 16)) hs.2
      simp only [hb]
      have := Hash_eq (base64Encode (entropy.take 16)) hash hs.1 hl
      simp only [majorVersion, minorVersion] at this ⊢
      rw [this]

/-- The outcome of `VerifyPassword` with the library on a generated digest. -/
theorem VerifyPassword_xcrypto (bf : Blowfish) (salt hash : Bytes) (password : String)
    (hs : salt.length = 22) (hh : hash.length = 31) (hd : (base64Decode salt).isSome = true)
    (hsa : ∀ c ∈ salt, c < 128) (hha : ∀ c ∈ hash, c < 128) :
    VerifyPassword (xcrypto bf) (asciiString (ascii "$2a$12$" ++ salt ++ hash)) password =
      if bcrypt bf (stringBytes password) 12 salt = .ok hash then none
      else some .ErrMismatchedHashAndPassword := by
  have ha : ∀ c ∈ ascii "$2a$12$" ++ salt ++ hash, c < 128 := by
    intro c hc
    simp only [List.mem_append] at hc
    rcases hc with (hc | hc) | hc
    · have : ∀ c ∈ ascii "$2a$12$", c < 128 := by decide
      exact this c hc
    · exact hsa c hc
    · exact hha c hc
  simp only [VerifyPassword, xcrypto]
  rw [stringBytes_asciiString _ ha]
  exact CompareHashAndPassword_eq bf salt hash (stringBytes password) hs hh hd

/-- The key schedule of the stand-in cipher leaves the state as it is. -/
theorem Ref_expensiveBlowfishSetup (key : Bytes) (cost : Nat) (salt : Bytes) :
    expensiveBlowfishSetup Ref.blowfish key cost salt =
      match base64Decode salt with
      | none => .error .CorruptInputError
      | some csalt => .ok (keyWords (key ++ [0]) ++ csalt) := by
  unfold expensiveBlowfishSetup
  cases base64Decode salt with
  | none => rfl
  | some csalt =>
    have hk : ¬ (key ++ [0]).length < 1 := by simp
    simp only [NewSaltedCipher, hk, if_false, Ref.blowfish]
    rw [Function.iterate_fixed rfl]

/-- The hash of the reference password. -/
theorem Ref_bcrypt_password :
    bcrypt Ref.blowfish (stringBytes Ref.password) 12 (base64Encode (Ref.entropy.take maxSaltSize)) =
      .ok (ascii "fHjQYHoGSGIYhzDqkWvSi3gXUyQilCO") := by
  unfold bcrypt
  rw [Ref_expensiveBlowfishSetup]
  decide

/-- The hash of another password under the same salt. -/
theorem Ref_bcrypt_wrong :
    bcrypt Ref.blowfish (stringBytes "wrong horse") 12 (base64Encode (Ref.entropy.take maxSaltSize)) =
      .ok (ascii "0K1b4M461.Jsu7xq5aBeC8xL3qR2yL.") := by
  unfold bcrypt
  rw [Ref_expensiveBlowfishSetup]
  decide

/-- The digest of the reference password. -/
theorem Ref_HashPassword :
    HashPassword (xcrypto Ref.blowfish) Ref.password Ref.entropy = .ok Ref.digest := by
  rw [HashPassword_xcrypto, if_neg (by decide), if_neg (by decide)]
  simp only [Ref_bcrypt_password]
  decide

/-- What a successful `HashPassword` with the library has done. -/
theorem HashPassword_xcrypto_ok (bf : Blowfish) (p : String) (entropy : Bytes) (digest : String)
    (h : HashPassword (xcrypto bf) p entropy = .ok digest) :
    len p ≤ 72 ∧ 16 ≤ entropy.length ∧
      ∃ hash, hash.length = 31 ∧ (∀ c ∈ hash, c < 128) ∧
        bcrypt bf (stringBytes p) 12 (saltOf entropy) = .ok hash ∧
        digest = asciiString (ascii "$2a$12$" ++ saltOf entropy ++ hash) := by
  rw [HashPassword_xcrypto] at h
  by_cases hp : len p > 72
  · rw [if_pos hp] at h
    cases h
  rw [if_neg hp] at h
  by_cases he : entropy.length < 16
  · rw [if_pos he] at h
    cases h
  rw [if_neg he] at h
  have hs := salt_facts entropy (by omega)
  obtain ⟨hash, hb, hl, ha⟩ :=
    bcrypt_of_decodes bf (stringBytes p) 12 (base64Encode (entropy.take maxSaltSize)) hs.2
  simp only [hb, Except.ok.injEq] at h
  exact ⟨by omega, by omega, hash, hl, ha, hb, h.symm⟩

/-- A generated digest begins with `$2a$12$` and embeds cost 12. -/
theorem hashCost_generated (salt hash : Bytes) (hs : salt.length = 22) (hh : hash.length = 31)
    (hsa : ∀ c ∈ salt, c < 128) (hha : ∀ c ∈ hash, c < 128) :
    hashCost (asciiString (ascii "$2a$12$" ++ salt ++ hash)) = some 12 ∧
      (stringBytes (asciiString (ascii "$2a$12$" ++ salt ++ hash))).take 7 = ascii "$2a$12$" := by
  have ha : ∀ c ∈ ascii "$2a$12$" ++ salt ++ hash, c < 128 := by
    intro c hc
    simp only [List.mem_append] at hc
    rcases hc with (hc | hc) | hc
    · have : ∀ c ∈ ascii "$2a$12$", c < 128 := by decide
      exact this c hc
    · exact hsa c hc
    · exact hha c hc
  rw [hashCost, stringBytes_asciiString _ ha, newFromHash_eq salt hash hs hh]
  refine ⟨rfl, ?_⟩
  rw [List.append_assoc, List.take_left']
  rfl

/-- The function `getEnvAsInt` gives what `strconv.Atoi` reads from the variable,
and the default when it reads nothing (the variable unset or empty included). -/
theorem getEnvAsInt_eq (env : String → String) (name : String) (defaultVal : Int) :
    getEnvAsInt env name defaultVal = (Atoi (env name)).getD defaultVal := by
  have h0 : Atoi "" = none := by decide
  unfold getEnvAsInt getEnv
  by_cases h : env name = ""
  · simp [h, h0]
  · simp only [ne_eq, h, not_false_eq_true, if_true]
    cases Atoi (env name) <;> rfl

/-- A registration whose password `IsValidPassword` rejects: the policy error,
the store as it was, and no call but `IsValidPassword`. -/
theorem Register_of_invalid (lib : Lib) (bc : Bcrypt) (s : UserService)
    (req : CreateUserRequest) (entropy : Bytes) (id : UUID) (dbNow t1 t2 t3 : Int)
    (h : IsValidPassword req.Password = false) :
    (s.Register lib bc req entropy id dbNow t1 t2 t3).result =
        .error (.errorf "password must be at least 8 characters long") ∧
      (s.Register lib bc req entropy id dbNow t1 t2 t3).userRepo = s.userRepo ∧
      (s.Register lib bc req entropy id dbNow t1 t2 t3).calls =
        [.IsValidPassword req.Password] ∧
      ∀ response, (s.Register lib bc req entropy id dbNow t1 t2 t3).result ≠ .ok response := by
  have hm : "password must be at least " ++ toString MinPasswordLength ++ " characters long" =
      "password must be at least 8 characters long" := by decide
  simp only [UserService.Register, h, Bool.not_false, if_true, hm]
  exact ⟨trivial, trivial, trivial, fun _ hr => by cases hr⟩

/-- A registration whose password `IsValidPassword` accepts, when the hasher
succeeds and the store takes the row: the token pair is returned, the row is
in the store, and the four calls are made. -/
theorem Register_of_valid (lib : Lib) (bc : Bcrypt) (s : UserService)
    (req : CreateUserRequest) (entropy : Bytes) (id : UUID) (dbNow t1 t2 t3 : Int)
    (digest : String) (hv : IsValidPassword req.Password = true)
    (hh : HashPassword bc req.Password entropy = .ok digest)
    (hf : s.userRepo.fault = none)
    (hu : s.userRepo.users.any
      (fun u => decide (u.ID = id) || decide (u.Email = req.Email)) = false) :
    (s.Register lib bc req entropy id dbNow t1 t2 t3).result =
        .ok { User := { ID := id, Email := req.Email }
              AccessToken :=
                signedToken lib .SHA256
                  (newClaims { ID := id, Email := req.Email } "access" s.jwtManager.tokenExpiry t1)
                  s.jwtManager.secretKey
              RefreshToken :=
                signedToken lib .SHA256
                  (newClaims { ID := id, Email := req.Email } "refresh"
                    s.jwtManager.refreshExpiry t2)
                  s.jwtManager.secretKey
              ExpiresAt := Unix (t3 + s.jwtManager.tokenExpiry) } ∧
      (s.Register lib bc req entropy id dbNow t1 t2 t3).userRepo.users =
        s.userRepo.users ++
          [{ ID := id, Email := req.Email, PasswordHash := digest, FirstName := req.FirstName,
             LastName := req.LastName, Phone := req.Phone, DateOfBirth := req.DateOfBirth,
             Address := req.Address, IsActive := true, IsVerified := false,
             CreatedAt := dbNow, UpdatedAt := dbNow }] ∧
      (s.Register lib bc req entropy id dbNow t1 t2 t3).calls =
        [.IsValidPassword req.Password, .HashPassword req.Password,
          .Create { ID := id, Email := req.Email, PasswordHash := digest,
                    FirstName := req.FirstName, LastName := req.LastName, Phone := req.Phone,
                    DateOfBirth := req.DateOfBirth, Address := req.Address, IsActive := true,
                    IsVerified := false, CreatedAt := zeroTime, UpdatedAt := zeroTime },
          .GenerateTokens { ID := id, Email := req.Email }] := by
  simp only [UserService.Register, hv, hh, UserRepository.Create, hf, hu, Bool.not_true,
    Bool.false_eq_true, if_false, UserRow.toUser, GenerateTokens_eq]
  exact ⟨trivial, trivial, trivial⟩

/-- A registration whose password `IsValidPassword` accepts goes on to the
hasher and never returns the policy error. -/
theorem Register_hashes_of_valid (lib : Lib) (bc : Bcrypt) (s : UserService)
    (req : CreateUserRequest) (entropy : Bytes) (id : UUID) (dbNow t1 t2 t3 : Int)
    (hv : IsValidPassword req.Password = true) :
    Call.HashPassword req.Password ∈ (s.Register lib bc req entropy id dbNow t1 t2 t3).calls ∧
      (s.Register lib bc req entropy id dbNow t1 t2 t3).result ≠
        .error (.errorf "password must be at least 8 characters long") := by
  unfold UserService.Register
  simp only [hv, Bool.not_true, Bool.false_eq_true, if_false]
  cases hh : HashPassword bc req.Password entropy with
  | error err => simp
  | ok digest =>
    simp only
    unfold UserRepository.Create
    cases hf : s.userRepo.fault with
    | some err =>
      simp only [List.mem_cons, true_or, or_true, true_and, ne_eq, Except.error.injEq,
        UserError.errorf.injEq]
      intro he
      have := congrArg (fun m : String => m.data.head?) he
      simp at this
    | none =>
      simp only
      split_ifs
      · simp only [List.mem_cons, true_or, or_true, true_and, ne_eq, Except.error.injEq,
          UserError.errorf.injEq]
        decide
      · simp [GenerateTokens_eq]

/-- With the library, a password of at most 72 bytes is hashed when the random
source delivers 16 bytes. -/
theorem HashPassword_xcrypto_exists (bf : Blowfish) (p : String) (entropy : Bytes)
    (hp : len p ≤ 72) (he : 16 ≤ entropy.length) :
    ∃ digest, HashPassword (xcrypto bf) p entropy = .ok digest := by
  have hp' : ¬ len p > 72 := by omega
  have he' : ¬ entropy.length < 16 := by omega
  have hs := salt_facts entropy he
  obtain ⟨hash, hb, _, _⟩ :=
    bcrypt_of_decodes bf (stringBytes p) 12 (base64Encode (entropy.take maxSaltSize)) hs.2
  refine ⟨asciiString (ascii "$2a$12$" ++ base64Encode (entropy.take maxSaltSize) ++ hash), ?_⟩
  rw [HashPassword_xcrypto, if_neg hp', if_neg he']
  simp only [hb]

/-! ## The claims -/

/-- Claim C1 (round trip). For every user and every manager, `GenerateTokens`
returns a pair, and its access token, validated by the same manager at any
clock reading `now` from the issuing reading `t1` up to but not including its
expiry, is accepted: `ExtractUserID` returns exactly the user's ID, and
`ValidateToken` returns claims with `token_type` equal to `access`, the
user's email and the user's ID. The library is assumed to serialise the issued
claims faithfully. No assumption on the lifetime is needed; a lifetime of less
than a second can leave the interval empty. -/
theorem C1_access_token_round_trip (lib : Lib) (j : JWTManager) (user : User)
    (t1 t2 t3 now : Int)
    (hs : lib.Serialises .SHA256 (newClaims user "access" j.tokenExpiry t1) j.secretKey)
    (h1 : t1 ≤ now) (h2 : now < (NewNumericDate (t1 + j.tokenExpiry)).Time) :
    ∃ pair, j.GenerateTokens lib user t1 t2 t3 = .ok pair ∧
      j.ExtractUserID lib pair.AccessToken now = .ok user.ID ∧
      ∃ claims, j.ValidateToken lib pair.AccessToken now = .ok claims ∧
        claims.TokenType = "access" ∧ claims.Email = user.Email ∧
        claims.UserID = user.ID := by
  have hv := ValidateToken_signed lib j .SHA256 _ now hs
  rw [afterVerify_of_valid (Validate_newClaims h1 h2)] at hv
  refine ⟨_, GenerateTokens_eq lib j user t1 t2 t3, ?_, _, hv, rfl, rfl, rfl⟩
  simp only [JWTManager.ExtractUserID, hv]
  rfl

/-- The round trip of C1 on the reference instance, five seconds after
issuance. -/
theorem C1_access_token_round_trip_witness :
    Ref.lib.Serialises .SHA256 Ref.accessClaims Ref.manager.secretKey ∧
      Ref.t1 ≤ Ref.later ∧
      Ref.later < (NewNumericDate (Ref.t1 + Ref.manager.tokenExpiry)).Time ∧
      ∃ pair, Ref.manager.GenerateTokens Ref.lib Ref.user Ref.t1 Ref.t2 Ref.t3 = .ok pair ∧
        Ref.manager.ExtractUserID Ref.lib pair.AccessToken Ref.later = .ok Ref.user.ID ∧
        ∃ claims, Ref.manager.ValidateToken Ref.lib pair.AccessToken Ref.later = .ok claims ∧
          claims.TokenType = "access" ∧ claims.Email = Ref.user.Email ∧
          claims.UserID = Ref.user.ID :=
  ⟨by decide, by decide, by decide,
    C1_access_token_round_trip Ref.lib Ref.manager Ref.user Ref.t1 Ref.t2 Ref.t3 Ref.later
      (by decide) (by decide) (by decide)⟩

/-- Claim C2 (type confusion). For every token that `ValidateToken` accepts
(correctly signed, unexpired): `ExtractUserID` fails with `ErrInvalidToken`
when its `token_type` is not `access`, and `RefreshToken` fails with
`ErrInvalidToken` when its `token_type` is not `refresh`. In particular the
refresh token of `GenerateTokens` is refused by `ExtractUserID` and the access
token by `RefreshToken`, each within its validity. No token string is accepted
by both operations, at whatever clock readings. -/
theorem C2_type_confusion_rejected (lib : Lib) (j : JWTManager) :
    (∀ tok now claims, j.ValidateToken lib tok now = .ok claims →
      claims.TokenType ≠ "access" → j.ExtractUserID lib tok now = .error .ErrInvalidToken) ∧
    (∀ tok now claims t1 t2 t3, j.ValidateToken lib tok now = .ok claims →
      claims.TokenType ≠ "refresh" →
      j.RefreshToken lib tok now t1 t2 t3 = .error (.auth .ErrInvalidToken)) ∧
    (∀ user t1 t2 t3 now pair,
      lib.Serialises .SHA256 (newClaims user "refresh" j.refreshExpiry t2) j.secretKey →
      j.GenerateTokens lib user t1 t2 t3 = .ok pair →
      t2 ≤ now → now < (NewNumericDate (t2 + j.refreshExpiry)).Time →
      j.ExtractUserID lib pair.RefreshToken now = .error .ErrInvalidToken) ∧
    (∀ user t1 t2 t3 now pair s1 s2 s3,
      lib.Serialises .SHA256 (newClaims user "access" j.tokenExpiry t1) j.secretKey →
      j.GenerateTokens lib user t1 t2 t3 = .ok pair →
      t1 ≤ now → now < (NewNumericDate (t1 + j.tokenExpiry)).Time →
      j.RefreshToken lib pair.AccessToken now s1 s2 s3 = .error (.auth .ErrInvalidToken)) ∧
    (∀ tok now now' s1 s2 s3,
      ¬ ((∃ u, j.ExtractUserID lib tok now = .ok u) ∧
         (∃ pair, j.RefreshToken lib tok now' s1 s2 s3 = .ok pair))) := by
  refine ⟨?_, ?_, ?_, ?_, ?_⟩
  · intro tok now claims hv ht
    rw [ExtractUserID_of_ok hv, if_pos ht]
  · intro tok now claims t1 t2 t3 hv ht
    rw [RefreshToken_of_ok t1 t2 t3 hv, if_pos ht]
  · intro user t1 t2 t3 now pair hs hg h1 h2
    rw [GenerateTokens_eq] at hg
    cases hg
    have hv := ValidateToken_signed lib j .SHA256 _ now hs
    rw [afterVerify_of_valid (Validate_newClaims h1 h2)] at hv
    rw [ExtractUserID_of_ok hv]
    rfl
  · intro user t1 t2 t3 now pair s1 s2 s3 hs hg h1 h2
    rw [GenerateTokens_eq] at hg
    cases hg
    have hv := ValidateToken_signed lib j .SHA256 _ now hs
    rw [afterVerify_of_valid (Validate_newClaims h1 h2)] at hv
    rw [RefreshToken_of_ok s1 s2 s3 hv]
    rfl
  · rintro tok now now' s1 s2 s3 ⟨⟨u, hu⟩, ⟨pair, hp⟩⟩
    obtain ⟨c, hc, hta, -⟩ := ExtractUserID_ok hu
    obtain ⟨c', hc', htr, -⟩ := RefreshToken_ok hp
    have e1 := (ValidateToken_ok hc).2.1
    have e2 := (ValidateToken_ok hc').2.1
    rw [e1] at e2
    cases e2
    rw [hta] at htr
    exact absurd htr (by decide)

/-- The two issued tokens of the reference instance, each presented as the
other type. -/
theorem C2_type_confusion_rejected_witness :
    Ref.manager.ExtractUserID Ref.lib Ref.refreshToken Ref.later = .error .ErrInvalidToken ∧
      Ref.manager.RefreshToken Ref.lib Ref.accessToken Ref.later Ref.later Ref.later Ref.later =
        .error (.auth .ErrInvalidToken) :=
  ⟨(C2_type_confusion_rejected Ref.lib Ref.manager).2.2.1 Ref.user Ref.t1 Ref.t2 Ref.t3
      Ref.later _ (by decide) rfl (by decide) (by decide),
   (C2_type_confusion_rejected Ref.lib Ref.manager).2.2.2.1 Ref.user Ref.t1 Ref.t2 Ref.t3
      Ref.later _ Ref.later Ref.later Ref.later (by decide) rfl (by decide) (by decide)⟩

/-- Claim C3 (the gate and refresh tokens), as the code behaves. For a request
whose `Authorization` header is `Bearer ` followed by a refresh token of
`GenerateTokens`, presented within the token's validity, `authMiddleware` does
not reject: it stores the user's ID under `user_id`, calls `c.Next()`, does not
abort and writes no response. The gate calls `ValidateToken`, which does not
look at `token_type`; the check is in `ExtractUserID`, which the gate does not
call. -/
theorem C3_gate_accepts_refresh_token (lib : Lib) (j : JWTManager) (user : User)
    (t1 t2 t3 now : Int) (pair : LoginResponse) (c : Context)
    (hs : lib.Serialises .SHA256 (newClaims user "refresh" j.refreshExpiry t2) j.secretKey)
    (hg : j.GenerateTokens lib user t1 t2 t3 = .ok pair)
    (h1 : t2 ≤ now) (h2 : now < (NewNumericDate (t2 + j.refreshExpiry)).Time)
    (hh : c.GetHeader "Authorization" = ascii "Bearer " ++ pair.RefreshToken) :
    authMiddleware lib j now c = (c.Set "user_id" user.ID).Next ∧
      (authMiddleware lib j now c).Get "user_id" = some user.ID ∧
      (authMiddleware lib j now c).next = true ∧
      (authMiddleware lib j now c).aborted = c.aborted ∧
      (authMiddleware lib j now c).status = c.status := by
  rw [GenerateTokens_eq] at hg
  cases hg
  have hv := ValidateToken_signed lib j .SHA256 _ now hs
  rw [afterVerify_of_valid (Validate_newClaims h1 h2)] at hv
  have hm := authMiddleware_of_bearer lib j now c _ (signedToken_ne_nil _ _ _ _) hh
  rw [hv] at hm
  simp only at hm
  rw [hm]
  exact ⟨rfl, Context.Get_Set_Next _ _ _, rfl, rfl, rfl⟩

/-- The gate on the refresh token of the reference instance: the request
passes with `user_id` set. -/
theorem C3_gate_accepts_refresh_token_witness :
    Ref.lib.Serialises .SHA256 Ref.refreshClaims Ref.manager.secretKey ∧
      Ref.t2 ≤ Ref.later ∧
      Ref.later < (NewNumericDate (Ref.t2 + Ref.manager.refreshExpiry)).Time ∧
      authMiddleware Ref.lib Ref.manager Ref.later
          (Ref.request (ascii "Bearer " ++ Ref.refreshToken)) =
        ((Ref.request (ascii "Bearer " ++ Ref.refreshToken)).Set "user_id" Ref.user.ID).Next ∧
      (authMiddleware Ref.lib Ref.manager Ref.later
          (Ref.request (ascii "Bearer " ++ Ref.refreshToken))).Get "user_id" = some Ref.user.ID ∧
      (authMiddleware Ref.lib Ref.manager Ref.later
          (Ref.request (ascii "Bearer " ++ Ref.refreshToken))).next = true ∧
      (authMiddleware Ref.lib Ref.manager Ref.later
          (Ref.request (ascii "Bearer " ++ Ref.refreshToken))).aborted = false ∧
      (authMiddleware Ref.lib Ref.manager Ref.later
          (Ref.request (ascii "Bearer " ++ Ref.refreshToken))).status = none :=
  ⟨by decide, by decide, by decide,
    C3_gate_accepts_refresh_token Ref.lib Ref.manager Ref.user Ref.t1 Ref.t2 Ref.t3 Ref.later _
      (Ref.request (ascii "Bearer " ++ Ref.refreshToken)) (by decide) rfl (by decide)
      (by decide) rfl⟩

/-- Claim C4 fails as stated. In the access token issued on the reference
instance, the last byte of the signature segment is `o` (111); with that byte
replaced by `p` (112) the token string is different and `ValidateToken` still
returns the claims. -/
theorem C4_last_byte_counterexample :
    Ref.manager.generateToken Ref.lib Ref.user "access" Ref.manager.tokenExpiry Ref.t1 =
        .ok Ref.accessToken ∧
      (signatureSegment Ref.accessToken)[42]? = some 111 ∧
      setSignatureByte Ref.accessToken 42 112 ≠ Ref.accessToken ∧
      Ref.manager.ValidateToken Ref.lib (setSignatureByte Ref.accessToken 42 112) Ref.later =
        .ok Ref.accessClaims := by
  decide

/-- Claim C4, amended. For a token of `generateToken` (access or refresh, the
keyed hash being 32 bytes long) and a replacement of byte `i` of its signature
segment by a different byte `b`: the segment has 43 bytes; when `i` is not the
last position, or `b` is not a character of the alphabet with the same four
leading bits as the byte it replaces, `ValidateToken` fails with
`ErrInvalidToken`; when `i` is the last position and `b` has the same four
leading bits, the decoded signature is unchanged and `ValidateToken` returns
what it returns for the token as issued. Such a byte `b` exists for every
issued token. -/
theorem C4_signature_byte_mutation (lib : Lib) (j : JWTManager) (user : User)
    (tokenType : String) (expiry t now : Int) (tok : Bytes) (i b x : Nat)
    (hs : lib.Serialises .SHA256 (newClaims user tokenType expiry t) j.secretKey)
    (hlen : (lib.hmac .SHA256 j.secretKey (SigningString lib (jwtHeader (.HMAC .SHA256))
      (newClaims user tokenType expiry t))).length = 32)
    (hg : j.generateToken lib user tokenType expiry t = .ok tok)
    (hx : (signatureSegment tok)[i]? = some x) (hb : b ≠ x) :
    (signatureSegment tok).length = 43 ∧
      ((i = 42 ∧ SameLeadingBits b x) →
        j.ValidateToken lib (setSignatureByte tok i b) now = j.ValidateToken lib tok now) ∧
      (¬ (i = 42 ∧ SameLeadingBits b x) →
        j.ValidateToken lib (setSignatureByte tok i b) now = .error .ErrInvalidToken) ∧
      (i = 42 → ∃ b', b' ≠ x ∧ SameLeadingBits b' x) := by
  rw [generateToken_eq] at hg
  cases hg
  have hsplit := splitOn_signedToken lib .SHA256 (newClaims user tokenType expiry t) j.secretKey
  have hseg : signatureSegment
      (signedToken lib .SHA256 (newClaims user tokenType expiry t) j.secretKey) =
      EncodeSegment (lib.hmac .SHA256 j.secretKey (SigningString lib (jwtHeader (.HMAC .SHA256))
        (newClaims user tokenType expiry t))) := by
    simp only [signatureSegment, hsplit]
  have hmut : setSignatureByte
      (signedToken lib .SHA256 (newClaims user tokenType expiry t) j.secretKey) i b =
      SigningString lib (jwtHeader (.HMAC .SHA256)) (newClaims user tokenType expiry t) ++
        46 :: (EncodeSegment (lib.hmac .SHA256 j.secretKey
          (SigningString lib (jwtHeader (.HMAC .SHA256))
            (newClaims user tokenType expiry t)))).set i b := by
    simp only [setSignatureByte, hsplit, SigningString, List.append_assoc, List.cons_append]
  rw [hseg] at hx ⊢
  rw [hmut, ValidateToken_signingString_append lib j .SHA256 _ _ now hs,
    ValidateToken_signed lib j .SHA256 _ now hs]
  generalize hmac : lib.hmac .SHA256 j.secretKey (SigningString lib (jwtHeader (.HMAC .SHA256))
    (newClaims user tokenType expiry t)) = mac at hx hlen ⊢
  have hbytes : IsBytes mac := hmac ▸ hs.2.2.2.2
  have hL : (EncodeSegment mac).length = 43 := by
    rw [EncodeSegment, List.length_map, encodeSextets_length, hlen]
  have key := DecodeSegment_set_eq mac hbytes (by rw [hlen]) i b x hx hb
  rw [hL] at key
  have hi : i < (EncodeSegment mac).length := (List.getElem?_eq_some.mp hx).1
  refine ⟨hL, ?_, ?_, ?_⟩
  · intro hP
    have hdec := key.mpr ⟨by omega, hP.2⟩
    have hb46 : b ≠ 46 := by
      rintro rfl
      have := hP.2
      simp [SameLeadingBits, decodeMap_dot] at this
    have hnot : 46 ∉ (EncodeSegment mac).set i b := by
      intro hm
      rcases List.mem_or_eq_of_mem_set hm with h1 | h1
      · exact dot_not_mem_EncodeSegment mac h1
      · exact hb46 h1.symm
    rw [if_neg hnot, hdec]
    simp
  · intro hP
    split_ifs with hm
    · rfl
    · cases hd : DecodeSegment ((EncodeSegment mac).set i b) with
      | none => rfl
      | some sig =>
        simp only
        split_ifs with hsig
        · subst hsig
          have := key.mp hd
          exact absurd ⟨by omega, this.2⟩ hP
        · rfl
  · intro _
    simp only [EncodeSegment, List.getElem?_map, Option.map_eq_some'] at hx
    obtain ⟨w, hw, rfl⟩ := hx
    obtain ⟨hlt, rfl⟩ := List.getElem?_eq_some.mp hw
    exact exists_other_SameLeadingBits _ (encodeSextets_lt mac _ (List.getElem_mem hlt))

/-- On the reference access token: another character at the first position of
the signature segment is refused, another character with different leading
bits at the last position is refused, another character with the same leading
bits at the last position changes nothing. -/
theorem C4_signature_byte_mutation_witness :
    Ref.lib.Serialises .SHA256 Ref.accessClaims Ref.manager.secretKey ∧
      (Ref.lib.hmac .SHA256 Ref.manager.secretKey
        (SigningString Ref.lib (jwtHeader (.HMAC .SHA256)) Ref.accessClaims)).length = 32 ∧
      (signatureSegment Ref.accessToken)[0]? = some 113 ∧
      (signatureSegment Ref.accessToken)[42]? = some 111 ∧
      Ref.manager.ValidateToken Ref.lib (setSignatureByte Ref.accessToken 0 114) Ref.later =
        .error .ErrInvalidToken ∧
      Ref.manager.ValidateToken Ref.lib (setSignatureByte Ref.accessToken 42 65) Ref.later =
        .error .ErrInvalidToken ∧
      Ref.manager.ValidateToken Ref.lib (setSignatureByte Ref.accessToken 42 114) Ref.later =
        Ref.manager.ValidateToken Ref.lib Ref.accessToken Ref.later :=
  ⟨by decide, by decide, by decide, by decide,
    (C4_signature_byte_mutation Ref.lib Ref.manager Ref.user "access" Ref.manager.tokenExpiry
      Ref.t1 Ref.later Ref.accessToken 0 114 113 (by decide) (by decide) rfl (by decide)
      (by decide)).2.2.1 (by decide),
    (C4_signature_byte_mutation Ref.lib Ref.manager Ref.user "access" Ref.manager.tokenExpiry
      Ref.t1 Ref.later Ref.accessToken 42 65 111 (by decide) (by decide) rfl (by decide)
      (by decide)).2.2.1 (by decide),
    (C4_signature_byte_mutation Ref.lib Ref.manager Ref.user "access" Ref.manager.tokenExpiry
      Ref.t1 Ref.later Ref.accessToken 42 114 111 (by decide) (by decide) rfl (by decide)
      (by decide)).2.1 (by decide)⟩

/-- Claim C5 (expired tokens). For every token string whose payload carries an
`expires_at` in the past of the validation time, `ValidateToken` returns an
error, whatever the signature: `ErrExpiredToken` when the token is correctly
signed, `ErrInvalidToken` when it is not. -/
theorem C5_expired_token_rejected (lib : Lib) (j : JWTManager) (tok : Bytes) (now : Int)
    (c : Claims) (e : NumericDate)
    (hc : claimsOf lib tok = some c) (he : c.Registered.ExpiresAt = some e)
    (hpast : e.Time < now) :
    (∃ err, j.ValidateToken lib tok now = .error err) ∧
      (CorrectlySigned lib j tok → j.ValidateToken lib tok now = .error .ErrExpiredToken) ∧
      (¬ CorrectlySigned lib j tok → j.ValidateToken lib tok now = .error .ErrInvalidToken) := by
  have hexp : ∀ hs : CorrectlySigned lib j tok,
      j.ValidateToken lib tok now = .error .ErrExpiredToken := fun hs => by
    rw [ValidateToken_of_CorrectlySigned now hs hc, afterVerify_expired]
    exact ⟨e, he, le_of_lt hpast⟩
  refine ⟨?_, hexp, ValidateToken_of_not_CorrectlySigned now⟩
  by_cases hs : CorrectlySigned lib j tok
  · exact ⟨_, hexp hs⟩
  · exact ⟨_, ValidateToken_of_not_CorrectlySigned now hs⟩

/-- The reference access token one nanosecond after its expiry. -/
theorem C5_expired_token_rejected_witness :
    claimsOf Ref.lib Ref.accessToken = some Ref.accessClaims ∧
      Ref.accessClaims.Registered.ExpiresAt = some 1700086400 ∧
      NumericDate.Time 1700086400 < 1700086400000000001 ∧
      (∃ err, Ref.manager.ValidateToken Ref.lib Ref.accessToken 1700086400000000001 =
        .error err) ∧
      (CorrectlySigned Ref.lib Ref.manager Ref.accessToken →
        Ref.manager.ValidateToken Ref.lib Ref.accessToken 1700086400000000001 =
          .error .ErrExpiredToken) ∧
      (¬ CorrectlySigned Ref.lib Ref.manager Ref.accessToken →
        Ref.manager.ValidateToken Ref.lib Ref.accessToken 1700086400000000001 =
          .error .ErrInvalidToken) :=
  ⟨by decide, by decide, by decide,
    C5_expired_token_rejected Ref.lib Ref.manager Ref.accessToken 1700086400000000001
      Ref.accessClaims 1700086400 (by decide) (by decide) (by decide)⟩

/-- Claim C6 (expiry boundary). For every token string whose payload carries
an `expires_at`: `RefreshToken` at a clock reading equal to `expires_at`
returns an error (`ErrExpiredToken` when the token is correctly signed), and
`RefreshToken` and `ValidateToken` accept only at a reading strictly before
`expires_at`. -/
theorem C6_expiry_boundary (lib : Lib) (j : JWTManager) (tok : Bytes) (c : Claims)
    (e : NumericDate) (t0 t1 t2 t3 : Int)
    (hc : claimsOf lib tok = some c) (he : c.Registered.ExpiresAt = some e) :
    (t0 = e.Time → ∃ err, j.RefreshToken lib tok t0 t1 t2 t3 = .error (.auth err)) ∧
      (t0 = e.Time → CorrectlySigned lib j tok →
        j.RefreshToken lib tok t0 t1 t2 t3 = .error (.auth .ErrExpiredToken)) ∧
      (∀ pair, j.RefreshToken lib tok t0 t1 t2 t3 = .ok pair → t0 < e.Time) ∧
      (∀ claims, j.ValidateToken lib tok t0 = .ok claims → t0 < e.Time) := by
  have hval : ∀ claims, j.ValidateToken lib tok t0 = .ok claims → t0 < e.Time := by
    intro claims hv
    obtain ⟨-, hc', hvalid⟩ := ValidateToken_ok hv
    rw [hc] at hc'
    cases hc'
    exact (Validate_eq_nil.mp hvalid).1 e he
  refine ⟨?_, ?_, ?_, hval⟩
  · intro ht
    cases hv : j.ValidateToken lib tok t0 with
    | error err => exact ⟨err, RefreshToken_of_error t1 t2 t3 hv⟩
    | ok claims => exact absurd (hval claims hv) (by omega)
  · intro ht hs
    apply RefreshToken_of_error
    rw [ValidateToken_of_CorrectlySigned t0 hs hc, afterVerify_expired]
    exact ⟨e, he, le_of_eq ht.symm⟩
  · intro pair hp
    obtain ⟨c', hv, -, -⟩ := RefreshToken_ok hp
    exact hval c' hv

/-- The reference refresh token presented exactly at its expiry. -/
theorem C6_expiry_boundary_witness :
    claimsOf Ref.lib Ref.refreshToken = some Ref.refreshClaims ∧
      Ref.refreshClaims.Registered.ExpiresAt = some 1700604800 ∧
      Ref.manager.RefreshToken Ref.lib Ref.refreshToken 1700604800000000000 Ref.later Ref.later
        Ref.later = .error (.auth .ErrExpiredToken) :=
  ⟨by decide, by decide,
    (C6_expiry_boundary Ref.lib Ref.manager Ref.refreshToken Ref.refreshClaims 1700604800
      1700604800000000000
      Ref.later Ref.later Ref.later (by decide) (by decide)).2.1 (by decide)
      (CorrectlySigned_signedToken Ref.lib Ref.manager .SHA256 _ (by decide))⟩

/-- Claim C7 fails as stated. The reference access token is correctly signed
and presented at a clock reading equal to its `expires_at`: the current time is
not greater than `expires_at`, yet `ValidateToken` returns `ErrExpiredToken`,
not `ErrInvalidToken`. -/
theorem C7_boundary_counterexample :
    claimsOf Ref.lib Ref.accessToken = some Ref.accessClaims ∧
      Ref.accessClaims.Registered.ExpiresAt = some 1700086400 ∧
      ¬ (1700086400000000000 > NumericDate.Time 1700086400) ∧
      Ref.manager.ValidateToken Ref.lib Ref.accessToken 1700086400000000000 =
        .error .ErrExpiredToken ∧
      Ref.manager.ValidateToken Ref.lib Ref.accessToken 1700086400000000000 ≠
        .error .ErrInvalidToken := by
  decide

/-- Claim C7, amended. `ValidateToken` returns `ErrExpiredToken` exactly for a
correctly signed token whose `expires_at` is not after the current time (the
boundary included, and also when the token is not yet valid as well). Every
other failure is `ErrInvalidToken`: a structure that does not parse or an
unknown algorithm, a rejected algorithm or a signature mismatch, and a token
that is only not yet valid. Claims are returned only when the parse produced
no error. -/
theorem C7_error_collapse (lib : Lib) (j : JWTManager) (tok : Bytes) (now : Int) :
    (j.ValidateToken lib tok now = .error .ErrExpiredToken ↔
      CorrectlySigned lib j tok ∧
        ∃ c e, claimsOf lib tok = some c ∧ c.Registered.ExpiresAt = some e ∧ e.Time ≤ now) ∧
    (∀ err, j.ValidateToken lib tok now = .error err → err ≠ .ErrExpiredToken →
      err = .ErrInvalidToken) ∧
    (∀ e, ParseUnverified lib tok = .error e →
      j.ValidateToken lib tok now = .error .ErrInvalidToken) ∧
    (∀ token p0 p1 p2, ParseUnverified lib tok = .ok (token, p0, p1, p2) →
      (∀ h, token.Method = .HMAC h →
        DecodeSegment p2 ≠ some (lib.hmac h j.secretKey (p0 ++ 46 :: p1))) →
      j.ValidateToken lib tok now = .error .ErrInvalidToken) ∧
    (∀ c n, CorrectlySigned lib j tok → claimsOf lib tok = some c →
      c.Registered.NotBefore = some n → now < n.Time →
      (∀ e, c.Registered.ExpiresAt = some e → now < e.Time) →
      j.ValidateToken lib tok now = .error .ErrInvalidToken) ∧
    (∀ c, j.ValidateToken lib tok now = .ok c →
      ∃ token, ParseWithClaims lib tok j.keyFunc now = .ok token ∧ token.Claims = c) := by
  refine ⟨⟨?_, ?_⟩, ?_, ?_, ?_, ?_, ?_⟩
  · intro h
    by_cases hs : CorrectlySigned lib j tok
    · obtain ⟨token, p0, p1, p2, hh, hp, hm, hd⟩ := hs
      have hs : CorrectlySigned lib j tok := ⟨token, p0, p1, p2, hh, hp, hm, hd⟩
      have hc := (ParseUnverified_ok hp).2.2.1
      rw [ValidateToken_of_CorrectlySigned now hs hc, afterVerify_expired] at h
      obtain ⟨e, he, hle⟩ := h
      exact ⟨hs, _, e, hc, he, hle⟩
    · rw [ValidateToken_of_not_CorrectlySigned now hs] at h
      simp at h
  · rintro ⟨hs, c, e, hc, he, hle⟩
    rw [ValidateToken_of_CorrectlySigned now hs hc, afterVerify_expired]
    exact ⟨e, he, hle⟩
  · intro err h hne
    rcases ValidateToken_error h with rfl | rfl
    · exact absurd rfl hne
    · rfl
  · intro e he
    exact ValidateToken_of_parse_error now he
  · intro token p0 p1 p2 hp hsig
    apply ValidateToken_of_not_CorrectlySigned
    rintro ⟨token', q0, q1, q2, h, hp', hm, hd⟩
    rw [hp] at hp'
    simp only [Except.ok.injEq, Prod.mk.injEq] at hp'
    obtain ⟨rfl, rfl, rfl, rfl⟩ := hp'
    exact hsig h hm hd
  · intro c n hs hc hn hlt hexp
    rw [ValidateToken_of_CorrectlySigned now hs hc]
    cases hv : afterVerify c now with
    | ok c' =>
      have := (Validate_eq_nil.mp (afterVerify_ok hv).2).2 n hn
      omega
    | error err =>
      rcases afterVerify_error hv with rfl | rfl
      · obtain ⟨e, he, hle⟩ := afterVerify_expired.mp hv
        have := hexp e he
        omega
      · rfl
  · intro c h
    exact ParseWithClaims_of_ok h

/-- The reference access token at its expiry boundary is reported as
expired. -/
theorem C7_error_collapse_witness :
    Ref.manager.ValidateToken Ref.lib Ref.accessToken 1700086400000000000 =
      .error .ErrExpiredToken :=
  (C7_error_collapse Ref.lib Ref.manager Ref.accessToken 1700086400000000000).1.mpr
    ⟨CorrectlySigned_signedToken Ref.lib Ref.manager .SHA256 _ (by decide),
      Ref.accessClaims, 1700086400, by decide, by decide, by decide⟩

/-- Claim C8 (refresh). `GenerateTokens` for a user `u` returns a pair such
that `RefreshToken` on its refresh token, presented within the token's
validity, returns a new pair whose access token is accepted by `ExtractUserID`
with `u`'s ID and by `ValidateToken` with `u`'s email and ID, at any clock
reading from its issuance up to but not including its expiry; and
`RefreshToken` on the access token of the pair fails at every clock reading.
The library is assumed to serialise the three sets of claims faithfully. -/
theorem C8_refresh_rotation (lib : Lib) (j : JWTManager) (u : User)
    (t1 t2 t3 t0 s1 s2 s3 now : Int)
    (hr : lib.Serialises .SHA256 (newClaims u "refresh" j.refreshExpiry t2) j.secretKey)
    (ha : lib.Serialises .SHA256 (newClaims u "access" j.tokenExpiry t1) j.secretKey)
    (hn : lib.Serialises .SHA256 (newClaims u "access" j.tokenExpiry s1) j.secretKey)
    (h0 : t2 ≤ t0) (h0' : t0 < (NewNumericDate (t2 + j.refreshExpiry)).Time)
    (h1 : s1 ≤ now) (h1' : now < (NewNumericDate (s1 + j.tokenExpiry)).Time) :
    ∃ pair, j.GenerateTokens lib u t1 t2 t3 = .ok pair ∧
      (∃ pair', j.RefreshToken lib pair.RefreshToken t0 s1 s2 s3 = .ok pair' ∧
        j.ExtractUserID lib pair'.AccessToken now = .ok u.ID ∧
        ∃ c, j.ValidateToken lib pair'.AccessToken now = .ok c ∧ c.Email = u.Email ∧
          c.UserID = u.ID) ∧
      (∀ r0 r1 r2 r3, ∃ err, j.RefreshToken lib pair.AccessToken r0 r1 r2 r3 = .error err) := by
  refine ⟨_, GenerateTokens_eq lib j u t1 t2 t3, ?_, ?_⟩
  · have hv := ValidateToken_signed lib j .SHA256 _ t0 hr
    rw [afterVerify_of_valid (Validate_newClaims h0 h0')] at hv
    have hv' := ValidateToken_signed lib j .SHA256 _ now hn
    rw [afterVerify_of_valid (Validate_newClaims h1 h1')] at hv'
    refine ⟨_, (RefreshToken_of_ok s1 s2 s3 hv).trans (if_neg (not_not.mpr rfl)), ?_,
      _, hv', rfl, rfl⟩
    exact (ExtractUserID_of_ok hv').trans (if_neg (not_not.mpr rfl))
  · intro r0 r1 r2 r3
    cases hv : j.ValidateToken lib
        (signedToken lib .SHA256 (newClaims u "access" j.tokenExpiry t1) j.secretKey) r0 with
    | error e => exact ⟨_, RefreshToken_of_error r1 r2 r3 hv⟩
    | ok c =>
      have hc := (ValidateToken_ok hv).2.1
      rw [claimsOf_signedToken lib .SHA256 _ _ ha] at hc
      cases hc
      refine ⟨_, (RefreshToken_of_ok r1 r2 r3 hv).trans (if_pos ?_)⟩
      show "access" ≠ "refresh"
      decide

/-- The rotation on the reference instance. -/
theorem C8_refresh_rotation_witness :
    ∃ pair, Ref.manager.GenerateTokens Ref.lib Ref.user Ref.t1 Ref.t2 Ref.t3 = .ok pair ∧
      (∃ pair', Ref.manager.RefreshToken Ref.lib pair.RefreshToken Ref.later Ref.later Ref.later
          Ref.later = .ok pair' ∧
        Ref.manager.ExtractUserID Ref.lib pair'.AccessToken Ref.later = .ok Ref.user.ID ∧
        ∃ c, Ref.manager.ValidateToken Ref.lib pair'.AccessToken Ref.later = .ok c ∧
          c.Email = Ref.user.Email ∧ c.UserID = Ref.user.ID) ∧
      (∀ r0 r1 r2 r3, ∃ err,
        Ref.manager.RefreshToken Ref.lib pair.AccessToken r0 r1 r2 r3 = .error err) :=
  C8_refresh_rotation Ref.lib Ref.manager Ref.user Ref.t1 Ref.t2 Ref.t3 Ref.later Ref.later
    Ref.later Ref.later Ref.later (by decide) (by decide) (by decide) (by decide) (by decide)
    (by decide) (by decide)

/-- Claim C9 fails as stated. A token signed with HS256 under the reference
manager's secret, unexpired, whose issuer is `another-system`, is accepted by
`ValidateToken`. -/
theorem C9_foreign_issuer_counterexample :
    Ref.foreignClaims.Registered.Issuer ≠ "financial-transaction-system" ∧
      claimsOf Ref.lib Ref.foreignToken = some Ref.foreignClaims ∧
      Ref.manager.ValidateToken Ref.lib Ref.foreignToken Ref.later = .ok Ref.foreignClaims := by
  decide

/-- Claim C9, amended. Validation does not look at the issuer: a token
correctly signed under the configured secret whose claims the validator
accepts is accepted by `ValidateToken` whatever issuer it carries. The constant
`financial-transaction-system` is written at issuance only. -/
theorem C9_issuer_not_checked (lib : Lib) (j : JWTManager) (c : Claims) (iss : String)
    (now : Int)
    (hs : lib.Serialises .SHA256 (withIssuer c iss) j.secretKey)
    (hv : Validate c now = []) :
    j.ValidateToken lib (signedToken lib .SHA256 (withIssuer c iss) j.secretKey) now =
        .ok (withIssuer c iss) ∧
      (withIssuer c iss).Registered.Issuer = iss ∧
      ∀ user tokenType expiry t,
        (newClaims user tokenType expiry t).Registered.Issuer = "financial-transaction-system" := by
  refine ⟨?_, rfl, fun _ _ _ _ => rfl⟩
  rw [ValidateToken_signed lib j .SHA256 _ now hs]
  exact afterVerify_of_valid hv

/-- A token of the reference instance with a foreign issuer is accepted. -/
theorem C9_issuer_not_checked_witness :
    Ref.lib.Serialises .SHA256 (withIssuer Ref.accessClaims "another-system")
        Ref.manager.secretKey ∧
      Validate Ref.accessClaims Ref.later = [] ∧
      Ref.manager.ValidateToken Ref.lib
          (signedToken Ref.lib .SHA256 (withIssuer Ref.accessClaims "another-system")
            Ref.manager.secretKey) Ref.later =
        .ok (withIssuer Ref.accessClaims "another-system") :=
  ⟨by decide, by decide,
    (C9_issuer_not_checked Ref.lib Ref.manager Ref.accessClaims "another-system" Ref.later
      (by decide) (by decide)).1⟩

/-- Claim C10 fails as stated. A token whose header declares `HS384`, signed
with that method under the reference manager's secret, is accepted by
`ValidateToken`. -/
theorem C10_hs384_counterexample :
    headerOf Ref.lib Ref.hs384Token = some { alg := some "HS384", typ := some "JWT" } ∧
      Ref.manager.ValidateToken Ref.lib Ref.hs384Token Ref.later = .ok Ref.accessClaims := by
  decide

/-- Claim C10, amended. `ValidateToken` rejects with `ErrInvalidToken` every
token whose header declares an algorithm other than `HS256`, `HS384` and
`HS512`; a token whose header declares one of these three and whose signature
is correct for it under the configured secret is accepted when the validator
accepts its claims. -/
theorem C10_hmac_family_only (lib : Lib) (j : JWTManager) :
    (∀ tok now hdr, headerOf lib tok = some hdr →
      hdr.alg ≠ some "HS256" → hdr.alg ≠ some "HS384" → hdr.alg ≠ some "HS512" →
      j.ValidateToken lib tok now = .error .ErrInvalidToken) ∧
    (∀ h c now, lib.Serialises h c j.secretKey → Validate c now = [] →
      headerOf lib (signedToken lib h c j.secretKey) = some (jwtHeader (.HMAC h)) ∧
      j.ValidateToken lib (signedToken lib h c j.secretKey) now = .ok c) := by
  constructor
  · intro tok now hdr hh h1 h2 h3
    apply ValidateToken_of_not_CorrectlySigned
    rintro ⟨token, p0, p1, p2, h, hp, hm, -⟩
    obtain ⟨-, hh', -, alg, ha, hg⟩ := ParseUnverified_ok hp
    rw [hh] at hh'
    cases hh'
    have := GetSigningMethod_eq_some hg
    rw [hm] at this
    subst this
    cases h
    · exact h1 ha
    · exact h2 ha
    · exact h3 ha
  · intro h c now hs hv
    refine ⟨?_, ?_⟩
    · exact (ParseUnverified_ok (ParseUnverified_signed lib h c j.secretKey
        (EncodeSegment (lib.hmac h j.secretKey (SigningString lib (jwtHeader (.HMAC h)) c))) hs
        (dot_not_mem_EncodeSegment _))).2.1
    · rw [ValidateToken_signed lib j h c now hs]
      exact afterVerify_of_valid hv

/-- Tokens of the reference instance declaring `HS384` and `HS512` are
accepted. -/
theorem C10_hmac_family_only_witness :
    Ref.manager.ValidateToken Ref.lib Ref.hs384Token Ref.later = .ok Ref.accessClaims ∧
      Ref.manager.ValidateToken Ref.lib
        (signedToken Ref.lib .SHA512 Ref.accessClaims Ref.manager.secretKey) Ref.later =
          .ok Ref.accessClaims :=
  ⟨((C10_hmac_family_only Ref.lib Ref.manager).2 .SHA384 Ref.accessClaims Ref.later
      (by decide) (by decide)).2,
   ((C10_hmac_family_only Ref.lib Ref.manager).2 .SHA512 Ref.accessClaims Ref.later
      (by decide) (by decide)).2⟩

/-- Claim C11 (algorithm family). For every token whose header declares an
algorithm other than `HS256`, `HS384` and `HS512` (the `none` method, the
asymmetric methods, an unknown or missing name), `ValidateToken` returns
`ErrInvalidToken` and the parser makes no call of `Method.Verify`: the secret
is handed to no verification. For every token whatever, each call of
`Method.Verify` that the parser makes is on an HMAC method. The recorded
parser returns what the parser returns. -/
theorem C11_hmac_family_pinned (lib : Lib) (j : JWTManager) :
    (∀ tok now,
      (ParseWithClaimsTraced lib tok j.keyFunc now).1 = ParseWithClaims lib tok j.keyFunc now) ∧
    (∀ tok now hdr, headerOf lib tok = some hdr →
      hdr.alg ≠ some "HS256" → hdr.alg ≠ some "HS384" → hdr.alg ≠ some "HS512" →
      j.ValidateToken lib tok now = .error .ErrInvalidToken ∧
        (ParseWithClaimsTraced lib tok j.keyFunc now).2 = []) ∧
    (∀ tok now call, call ∈ (ParseWithClaimsTraced lib tok j.keyFunc now).2 →
      ∃ h, call.method = .HMAC h) := by
  refine ⟨fun tok now => ParseWithClaimsTraced_fst lib tok j.keyFunc now, ?_, ?_⟩
  · intro tok now hdr hh h1 h2 h3
    have hno : ∀ token p0 p1 p2 h, ParseUnverified lib tok = .ok (token, p0, p1, p2) →
        token.Method ≠ .HMAC h := by
      intro token p0 p1 p2 h hp hm
      have := method_of_header hp hh hm
      cases h
      · exact h1 this
      · exact h2 this
      · exact h3 this
    constructor
    · apply ValidateToken_of_not_CorrectlySigned
      rintro ⟨token, p0, p1, p2, h, hp, hm, -⟩
      exact hno token p0 p1 p2 h hp hm
    · apply List.eq_nil_iff_forall_not_mem.mpr
      intro call hc
      obtain ⟨token, p0, p1, p2, h, hp, hm, -, -⟩ := ParseWithClaimsTraced_calls hc
      exact hno token p0 p1 p2 h hp hm
  · intro tok now call hc
    obtain ⟨-, -, -, -, h, -, -, hm, -⟩ := ParseWithClaimsTraced_calls hc
    exact ⟨h, hm⟩

/-- On the reference instance, a token declaring `none` and a token declaring
`RS256` (signed with the keyed hash of the secret) are refused without any
verification call. -/
theorem C11_hmac_family_pinned_witness :
    headerOf Ref.lib Ref.noneToken = some { alg := some "none", typ := some "JWT" } ∧
      headerOf Ref.lib Ref.rs256Token = some { alg := some "RS256", typ := some "JWT" } ∧
      (Ref.manager.ValidateToken Ref.lib Ref.noneToken Ref.later = .error .ErrInvalidToken ∧
        (ParseWithClaimsTraced Ref.lib Ref.noneToken Ref.manager.keyFunc Ref.later).2 = []) ∧
      (Ref.manager.ValidateToken Ref.lib Ref.rs256Token Ref.later = .error .ErrInvalidToken ∧
        (ParseWithClaimsTraced Ref.lib Ref.rs256Token Ref.manager.keyFunc Ref.later).2 = []) :=
  ⟨by decide, by decide,
    (C11_hmac_family_pinned Ref.lib Ref.manager).2.1 Ref.noneToken Ref.later
      { alg := some "none", typ := some "JWT" } (by decide) (by decide) (by decide) (by decide),
    (C11_hmac_family_pinned Ref.lib Ref.manager).2.1 Ref.rs256Token Ref.later
      { alg := some "RS256", typ := some "JWT" } (by decide) (by decide) (by decide)
      (by decide)⟩

/-- Claim C12 (no revocation). When `RefreshToken` has succeeded on a token at
the clock reading `t0`: it succeeds on the same token at every later reading
strictly before the token's `expires_at`, whatever the other clock readings;
in every run of calls on the manager, at whatever position and after whatever
other calls, such a call succeeds; and whether a token is accepted is the same
for every manager with the same secret, whatever its lifetimes and the clock
readings of the issuance: it depends on the token, the secret and the current
time only. -/
theorem C12_no_revocation (lib : Lib) (j : JWTManager) (tok : Bytes) (t0 t1 t2 t3 : Int)
    (pair : LoginResponse) (h : j.RefreshToken lib tok t0 t1 t2 t3 = .ok pair) :
    (∀ t0' s1 s2 s3, t0 ≤ t0' →
      (∀ c e, claimsOf lib tok = some c → c.Registered.ExpiresAt = some e → t0' < e.Time) →
      ∃ pair', j.RefreshToken lib tok t0' s1 s2 s3 = .ok pair') ∧
    (∀ earlier later : List RefreshCall, ∀ call : RefreshCall, call.token = tok →
      t0 ≤ call.t0 →
      (∀ c e, claimsOf lib tok = some c → c.Registered.ExpiresAt = some e → call.t0 < e.Time) →
      ∃ pair', (j.serve lib (earlier ++ call :: later))[earlier.length]? = some (.ok pair')) ∧
    (∀ (j' : JWTManager) (t s1 s2 s3 r1 r2 r3 : Int), j'.secretKey = j.secretKey →
      ((∃ p, j'.RefreshToken lib tok t s1 s2 s3 = .ok p) ↔
        (∃ p, j.RefreshToken lib tok t r1 r2 r3 = .ok p))) := by
  obtain ⟨c, hc, ht, -⟩ := RefreshToken_ok h
  have hclaims := (ValidateToken_ok hc).2.1
  have hpoint : ∀ t0' s1 s2 s3, t0 ≤ t0' →
      (∀ c e, claimsOf lib tok = some c → c.Registered.ExpiresAt = some e → t0' < e.Time) →
      ∃ pair', j.RefreshToken lib tok t0' s1 s2 s3 = .ok pair' := by
    intro t0' s1 s2 s3 hle hexp
    rw [RefreshToken_isOk_iff]
    exact ⟨c, ValidateToken_later hc hle (fun e he => hexp c e hclaims he), ht⟩
  refine ⟨hpoint, ?_, ?_⟩
  · intro earlier later call htok hle hexp
    obtain ⟨pair', hp⟩ := hpoint call.t0 call.t1 call.t2 call.t3 hle hexp
    refine ⟨pair', ?_⟩
    rw [serve_eq_map, List.getElem?_map, List.getElem?_append_right (le_refl _)]
    simp [htok, hp]
  · intro j' t s1 s2 s3 r1 r2 r3 hk
    rw [RefreshToken_isOk_iff, RefreshToken_isOk_iff, ValidateToken_congr lib hk]

/-- The reference refresh token, refreshed five seconds after issuance, is
refreshed again in the last nanosecond before its expiry. -/
theorem C12_no_revocation_witness :
    Ref.manager.RefreshToken Ref.lib Ref.refreshToken Ref.later Ref.later Ref.later Ref.later =
        .ok Ref.rotated ∧
      Ref.later ≤ Ref.lastValid ∧
      ∃ pair', Ref.manager.RefreshToken Ref.lib Ref.refreshToken Ref.lastValid Ref.lastValid
        Ref.lastValid Ref.lastValid = .ok pair' :=
  ⟨by decide, by decide,
    (C12_no_revocation Ref.lib Ref.manager Ref.refreshToken Ref.later Ref.later Ref.later
      Ref.later Ref.rotated (by decide)).1 Ref.lastValid Ref.lastValid Ref.lastValid
      Ref.lastValid (by decide) (by
        intro c e hc he
        have h1 : claimsOf Ref.lib Ref.refreshToken = some Ref.refreshClaims := by decide
        rw [h1] at hc
        cases hc
        have h2 : Ref.refreshClaims.Registered.ExpiresAt = some 1700604800 := by decide
        rw [h2] at he
        cases he
        decide)⟩

/-- Claim C13 (the `ExpiresAt` field), as the code behaves. `GenerateTokens`
writes into the access token the expiry `NewNumericDate (t1 + tokenExpiry)`,
`t1` being the clock reading of `generateToken`, and returns the field
`ExpiresAt = Unix (t3 + tokenExpiry)`, `t3` being a clock reading taken after
both tokens are signed. On the reference instance, with `t1` one nanosecond
before a full second and `t3` two nanoseconds later, the token expires at
1700086400 and `ExpiresAt` is 1700086401. -/
theorem C13_expires_at_second_reading :
    (∀ (lib : Lib) (j : JWTManager) (user : User) (t1 t2 t3 : Int),
      lib.Serialises .SHA256 (newClaims user "access" j.tokenExpiry t1) j.secretKey →
      ∃ pair c, j.GenerateTokens lib user t1 t2 t3 = .ok pair ∧
        claimsOf lib pair.AccessToken = some c ∧
        c.Registered.ExpiresAt = some (NewNumericDate (t1 + j.tokenExpiry)) ∧
        pair.ExpiresAt = Unix (t3 + j.tokenExpiry)) ∧
    (∃ pair c, Ref.manager.GenerateTokens Ref.lib Ref.user Ref.beforeTick Ref.beforeTick
        Ref.afterTick = .ok pair ∧
      claimsOf Ref.lib pair.AccessToken = some c ∧
      c.Registered.ExpiresAt = some 1700086400 ∧
      pair.ExpiresAt = 1700086401) := by
  constructor
  · intro lib j user t1 t2 t3 hs
    exact ⟨_, _, GenerateTokens_eq lib j user t1 t2 t3, claimsOf_signedToken lib .SHA256 _ _ hs,
      rfl, rfl⟩
  · exact ⟨_, newClaims Ref.user "access" Ref.manager.tokenExpiry Ref.beforeTick,
      GenerateTokens_eq _ _ _ _ _ _, by decide, by decide, by decide⟩

/-- Claim C14 fails as stated. With `JWT_EXPIRY_HOURS=0` the configuration
loads zero hours without complaint, and the access token of `GenerateTokens`
has `issued_at = expires_at = 1700000000`: `issued_at < expires_at` does not
hold. With `JWT_EXPIRY_HOURS=2562048` the 64-bit product with `time.Hour`
wraps around and the lifetime is negative. -/
theorem C14_zero_hours_counterexample :
    (Load Ref.zeroHoursEnv).JWT.ExpiryHours = 0 ∧
      (∃ pair c, Ref.zeroHoursManager.GenerateTokens Ref.lib Ref.user Ref.t1 Ref.t2 Ref.t3 =
          .ok pair ∧
        claimsOf Ref.lib pair.AccessToken = some c ∧
        c.Registered.IssuedAt = some 1700000000 ∧
        c.Registered.ExpiresAt = some 1700000000 ∧
        ¬ c.Ordered) ∧
      (Load Ref.hugeHoursEnv).JWT.ExpiryHours = 2562048 ∧
      (NewJWTManager (Load Ref.hugeHoursEnv)).tokenExpiry = -9223371273709551616 :=
  ⟨by decide, ⟨_, newClaims Ref.user "access" Ref.zeroHoursManager.tokenExpiry Ref.t1,
    GenerateTokens_eq _ _ _ _ _ _, by decide, by decide, by decide, by decide⟩,
    by decide, by decide⟩

/-- Claim C14, amended. For a configuration whose two hour counts are between
1 and 2562047 (the counts whose product with `time.Hour` is a positive 64-bit
duration), both tokens of `GenerateTokens` carry `not_before = issued_at <
expires_at` at second precision. -/
theorem C14_claims_ordered (lib : Lib) (cfg : Config) (user : User) (t1 t2 t3 : Int)
    (ha : lib.Serialises .SHA256 (newClaims user "access" (NewJWTManager cfg).tokenExpiry t1)
      (NewJWTManager cfg).secretKey)
    (hr : lib.Serialises .SHA256 (newClaims user "refresh" (NewJWTManager cfg).refreshExpiry t2)
      (NewJWTManager cfg).secretKey)
    (h1 : 1 ≤ cfg.JWT.ExpiryHours) (h2 : cfg.JWT.ExpiryHours ≤ 2562047)
    (h3 : 1 ≤ cfg.JWT.RefreshExpiryHours) (h4 : cfg.JWT.RefreshExpiryHours ≤ 2562047) :
    ∃ pair ca cr, (NewJWTManager cfg).GenerateTokens lib user t1 t2 t3 = .ok pair ∧
      claimsOf lib pair.AccessToken = some ca ∧ claimsOf lib pair.RefreshToken = some cr ∧
      ca.Ordered ∧ cr.Ordered ∧
      ca.Registered.NotBefore = ca.Registered.IssuedAt ∧
      cr.Registered.NotBefore = cr.Registered.IssuedAt := by
  refine ⟨_, _, _, GenerateTokens_eq lib _ user t1 t2 t3,
    claimsOf_signedToken lib .SHA256 _ _ ha, claimsOf_signedToken lib .SHA256 _ _ hr,
    ?_, ?_, rfl, rfl⟩
  · apply newClaims_Ordered
    have := (GetJWTExpiry_of_range h1 h2).2
    show 1000000000 ≤ cfg.GetJWTExpiry
    omega
  · apply newClaims_Ordered
    have := (GetJWTRefreshExpiry_of_range h3 h4).2
    show 1000000000 ≤ cfg.GetJWTRefreshExpiry
    omega

/-- With the default configuration (24 and 168 hours) both tokens of the
reference user are ordered. -/
theorem C14_claims_ordered_witness :
    (Load (fun _ => "")).JWT.ExpiryHours = 24 ∧
      (Load (fun _ => "")).JWT.RefreshExpiryHours = 168 ∧
      ∃ pair ca cr, (NewJWTManager (Load (fun _ => ""))).GenerateTokens Ref.lib Ref.user
          Ref.t1 Ref.t2 Ref.t3 = .ok pair ∧
        claimsOf Ref.lib pair.AccessToken = some ca ∧
        claimsOf Ref.lib pair.RefreshToken = some cr ∧
        ca.Ordered ∧ cr.Ordered ∧
        ca.Registered.NotBefore = ca.Registered.IssuedAt ∧
        cr.Registered.NotBefore = cr.Registered.IssuedAt :=
  ⟨by decide, by decide,
    C14_claims_ordered Ref.lib (Load (fun _ => "")) Ref.user Ref.t1 Ref.t2 Ref.t3 (by decide)
      (by decide) (by decide) (by decide) (by decide) (by decide)⟩

/-- Claim C15 (extraction of the bearer token). The gate, run with its two
slice expressions checked, never panics and returns what `authMiddleware`
returns. When the header is the seven bytes `Bearer ` followed by at least one
byte, `ValidateToken` is called once, on the header without these seven bytes.
For every other header (absent or empty, another scheme, another letter case,
`Bearer ` alone) `ValidateToken` is not called and the request is rejected:
status 401, the message for a missing header or for a wrong format, aborted,
`c.Next()` not called, no key set. -/
theorem C15_bearer_extraction (lib : Lib) (j : JWTManager) (now : Int) (c : Context) :
    (∃ calls, authMiddlewareRun lib j now c = some (authMiddleware lib j now c, calls)) ∧
    (∀ t, t ≠ [] → c.GetHeader "Authorization" = ascii "Bearer " ++ t →
      (authMiddlewareRun lib j now c).map Prod.snd = some [t]) ∧
    ((¬ ∃ t, t ≠ [] ∧ c.GetHeader "Authorization" = ascii "Bearer " ++ t) →
      (authMiddlewareRun lib j now c).map Prod.snd = some [] ∧
      (authMiddleware lib j now c).status = some StatusUnauthorized ∧
      (authMiddleware lib j now c).body =
        some (if c.GetHeader "Authorization" = [] then "Authorization header required"
          else "Invalid authorization header format") ∧
      (authMiddleware lib j now c).aborted = true ∧
      (authMiddleware lib j now c).next = c.next ∧
      (authMiddleware lib j now c).keys = c.keys) := by
  refine ⟨⟨_, authMiddlewareRun_eq lib j now c⟩, ?_, ?_⟩
  · intro t ht hh
    have hb := (bearer_iff (c.GetHeader "Authorization")).mpr ⟨t, ht, hh⟩
    have h0 : c.GetHeader "Authorization" ≠ [] := by
      intro h
      rw [h] at hb
      simp at hb
    rw [authMiddlewareRun_eq]
    simp only [Option.map_some', h0, if_false, hb, and_self, if_true]
    rw [hh, ascii_bearer]
    rfl
  · intro hno
    have hb : ¬ ((c.GetHeader "Authorization").length > 7 ∧
        (c.GetHeader "Authorization").take 7 = ascii "Bearer ") :=
      fun h => hno ((bearer_iff _).mp h)
    rw [authMiddlewareRun_eq]
    unfold authMiddleware
    by_cases h0 : c.GetHeader "Authorization" = []
    · simp [h0, Context.JSON, Context.Abort]
    · simp [h0, hb, Context.JSON, Context.Abort]

/-- On the reference instance: the token of a bearer header is handed to the
validation; a header in lower case, the scheme alone and no header are
rejected with 401. -/
theorem C15_bearer_extraction_witness :
    (authMiddlewareRun Ref.lib Ref.manager Ref.later
        (Ref.request (ascii "Bearer " ++ Ref.accessToken))).map Prod.snd =
        some [Ref.accessToken] ∧
      (authMiddlewareRun Ref.lib Ref.manager Ref.later
        (Ref.request (ascii "bearer " ++ Ref.accessToken))).map Prod.snd = some [] ∧
      (authMiddleware Ref.lib Ref.manager Ref.later
        (Ref.request (ascii "bearer " ++ Ref.accessToken))).status = some 401 ∧
      (authMiddleware Ref.lib Ref.manager Ref.later (Ref.request (ascii "Bearer "))).status =
        some 401 ∧
      (authMiddleware Ref.lib Ref.manager Ref.later (Ref.request [])).body =
        some "Authorization header required" :=
  ⟨(C15_bearer_extraction Ref.lib Ref.manager Ref.later
      (Ref.request (ascii "Bearer " ++ Ref.accessToken))).2.1 Ref.accessToken (by decide) rfl,
   ((C15_bearer_extraction Ref.lib Ref.manager Ref.later
      (Ref.request (ascii "bearer " ++ Ref.accessToken))).2.2 (by
        rintro ⟨t, -, h⟩
        have h1 : ((Ref.request (ascii "bearer " ++ Ref.accessToken)).GetHeader
            "Authorization").head? = some 98 := by decide
        rw [h, ascii_bearer] at h1
        simp at h1)).1,
   by decide, by decide, by decide⟩

/-- Claim C16 (the gate on success). For a request whose header is `Bearer `
followed by a token on which `ValidateToken` returns claims, the gate stores
exactly `claims.UserID` under `user_id`, calls `c.Next()`, does not abort and
leaves status and body unwritten. -/
theorem C16_gate_attaches_user_id (lib : Lib) (j : JWTManager) (now : Int) (c : Context)
    (t : Bytes) (claims : Claims)
    (hh : c.GetHeader "Authorization" = ascii "Bearer " ++ t)
    (hv : j.ValidateToken lib t now = .ok claims) :
    authMiddleware lib j now c = (c.Set "user_id" claims.UserID).Next ∧
      (authMiddleware lib j now c).Get "user_id" = some claims.UserID ∧
      (authMiddleware lib j now c).next = true ∧
      (authMiddleware lib j now c).aborted = c.aborted ∧
      (authMiddleware lib j now c).status = c.status ∧
      (authMiddleware lib j now c).body = c.body := by
  have ht : t ≠ [] := by
    rintro rfl
    rw [ValidateToken_nil] at hv
    cases hv
  have hm := authMiddleware_of_bearer lib j now c t ht hh
  rw [hv] at hm
  simp only at hm
  rw [hm]
  exact ⟨rfl, Context.Get_Set_Next _ _ _, rfl, rfl, rfl, rfl⟩

/-- The reference access token passes the gate with `user_id` 7 and no
response written. -/
theorem C16_gate_attaches_user_id_witness :
    Ref.manager.ValidateToken Ref.lib Ref.accessToken Ref.later = .ok Ref.accessClaims ∧
      (authMiddleware Ref.lib Ref.manager Ref.later
        (Ref.request (ascii "Bearer " ++ Ref.accessToken))).Get "user_id" = some 7 ∧
      (authMiddleware Ref.lib Ref.manager Ref.later
        (Ref.request (ascii "Bearer " ++ Ref.accessToken))).status = none :=
  ⟨by decide,
    (C16_gate_attaches_user_id Ref.lib Ref.manager Ref.later
      (Ref.request (ascii "Bearer " ++ Ref.accessToken)) Ref.accessToken Ref.accessClaims rfl
      (by decide)).2.1,
    (C16_gate_attaches_user_id Ref.lib Ref.manager Ref.later
      (Ref.request (ascii "Bearer " ++ Ref.accessToken)) Ref.accessToken Ref.accessClaims rfl
      (by decide)).2.2.2.2.1⟩

/-- Claim C17 (one response for every failure). For two requests with bearer
tokens on which `ValidateToken` fails, with whatever errors: each is answered
with status 401 and the message `Invalid token`, aborted, without `c.Next()`
and without any key set; status and body of the two responses are equal. -/
theorem C17_gate_uniform_rejection (lib : Lib) (j : JWTManager) (now now' : Int)
    (c c' : Context) (t t' : Bytes) (err err' : AuthError)
    (ht : t ≠ []) (ht' : t' ≠ [])
    (hh : c.GetHeader "Authorization" = ascii "Bearer " ++ t)
    (hh' : c'.GetHeader "Authorization" = ascii "Bearer " ++ t')
    (hv : j.ValidateToken lib t now = .error err)
    (hv' : j.ValidateToken lib t' now' = .error err') :
    authMiddleware lib j now c = (c.JSON StatusUnauthorized "Invalid token").Abort ∧
      (authMiddleware lib j now c).status = some 401 ∧
      (authMiddleware lib j now c).body = some "Invalid token" ∧
      (authMiddleware lib j now c).aborted = true ∧
      (authMiddleware lib j now c).next = c.next ∧
      (authMiddleware lib j now c).keys = c.keys ∧
      (authMiddleware lib j now' c').status = (authMiddleware lib j now c).status ∧
      (authMiddleware lib j now' c').body = (authMiddleware lib j now c).body := by
  have hm := authMiddleware_of_bearer lib j now c t ht hh
  have hm' := authMiddleware_of_bearer lib j now' c' t' ht' hh'
  rw [hv] at hm
  rw [hv'] at hm'
  simp only at hm hm'
  rw [hm, hm']
  exact ⟨rfl, rfl, rfl, rfl, rfl, rfl, rfl, rfl⟩

/-- An expired token and a string that does not parse get the same response
from the gate. -/
theorem C17_gate_uniform_rejection_witness :
    Ref.manager.ValidateToken Ref.lib Ref.accessToken 1700086400000000001 =
        .error .ErrExpiredToken ∧
      Ref.manager.ValidateToken Ref.lib Ref.garbageToken Ref.later = .error .ErrInvalidToken ∧
      (authMiddleware Ref.lib Ref.manager 1700086400000000001
        (Ref.request (ascii "Bearer " ++ Ref.accessToken))).body = some "Invalid token" ∧
      (authMiddleware Ref.lib Ref.manager Ref.later
        (Ref.request (ascii "Bearer " ++ Ref.garbageToken))).body =
        (authMiddleware Ref.lib Ref.manager 1700086400000000001
          (Ref.request (ascii "Bearer " ++ Ref.accessToken))).body :=
  ⟨by decide, by decide,
    (C17_gate_uniform_rejection Ref.lib Ref.manager 1700086400000000001 Ref.later
      (Ref.request (ascii "Bearer " ++ Ref.accessToken))
      (Ref.request (ascii "Bearer " ++ Ref.garbageToken)) Ref.accessToken Ref.garbageToken
      .ErrExpiredToken .ErrInvalidToken (by decide) (by decide) rfl rfl (by decide)
      (by decide)).2.2.1,
    (C17_gate_uniform_rejection Ref.lib Ref.manager 1700086400000000001 Ref.later
      (Ref.request (ascii "Bearer " ++ Ref.accessToken))
      (Ref.request (ascii "Bearer " ++ Ref.garbageToken)) Ref.accessToken Ref.garbageToken
      .ErrExpiredToken .ErrInvalidToken (by decide) (by decide) rfl rfl (by decide)
      (by decide)).2.2.2.2.2.2.2⟩

/-- Claim C18 (the refresh boundary), as the code behaves. `handleRefreshToken`
answers a validation failure with status 401 and the message of the error
itself: `token has expired` for `ErrExpiredToken`, `invalid token` for
`ErrInvalidToken`. On the reference instance the response for the expired
refresh token and the response for a string that does not parse are
different. -/
theorem C18_refresh_boundary_leaks_error_kind :
    (∀ (lib : Lib) (s : UserService) (req : RefreshTokenRequest) (t0 t1 t2 t3 : Int)
      (err : AuthError), s.jwtManager.ValidateToken lib req.RefreshToken t0 = .error err →
      handleRefreshToken lib s (.ok req) t0 t1 t2 t3 =
        { status := 401, body := .error err.Error }) ∧
    AuthError.ErrExpiredToken.Error = "token has expired" ∧
    AuthError.ErrInvalidToken.Error = "invalid token" ∧
    Ref.service.jwtManager.ValidateToken Ref.lib Ref.refreshToken Ref.afterRefreshExpiry =
      .error .ErrExpiredToken ∧
    Ref.service.jwtManager.ValidateToken Ref.lib Ref.garbageToken Ref.afterRefreshExpiry =
      .error .ErrInvalidToken ∧
    handleRefreshToken Ref.lib Ref.service (.ok { RefreshToken := Ref.refreshToken })
      Ref.afterRefreshExpiry Ref.afterRefreshExpiry Ref.afterRefreshExpiry
      Ref.afterRefreshExpiry = { status := 401, body := .error "token has expired" } ∧
    handleRefreshToken Ref.lib Ref.service (.ok { RefreshToken := Ref.garbageToken })
      Ref.afterRefreshExpiry Ref.afterRefreshExpiry Ref.afterRefreshExpiry
      Ref.afterRefreshExpiry = { status := 401, body := .error "invalid token" } ∧
    handleRefreshToken Ref.lib Ref.service (.ok { RefreshToken := Ref.refreshToken })
      Ref.afterRefreshExpiry Ref.afterRefreshExpiry Ref.afterRefreshExpiry
      Ref.afterRefreshExpiry ≠
    handleRefreshToken Ref.lib Ref.service (.ok { RefreshToken := Ref.garbageToken })
      Ref.afterRefreshExpiry Ref.afterRefreshExpiry Ref.afterRefreshExpiry
      Ref.afterRefreshExpiry := by
  refine ⟨?_, rfl, rfl, by decide, by decide, by decide, by decide, by decide⟩
  intro lib s req t0 t1 t2 t3 err h
  exact handleRefreshToken_of_error lib s req t0 t1 t2 t3 err h

/-- Claim C19 (login failures). A login for which the lookup by email fails
and a login for which the user is found but the password does not verify
return the same error, with the message `invalid email or password`, and
neither returns a token pair. -/
theorem C19_login_uniform_failure (lib : Lib) (bc : Bcrypt) (s s' : UserService)
    (req req' : LoginRequest) (t1 t2 t3 r1 r2 r3 : Int) (e : String) (user : UserRow)
    (err : BcryptError)
    (hnot : s.userRepo.GetByEmail req.Email = .error e)
    (hfound : s'.userRepo.GetByEmail req'.Email = .ok user)
    (hbad : VerifyPassword bc user.PasswordHash req'.Password = some err) :
    s.Login lib bc req t1 t2 t3 = .error (.errorf "invalid email or password") ∧
      s'.Login lib bc req' r1 r2 r3 = .error (.errorf "invalid email or password") ∧
      s.Login lib bc req t1 t2 t3 = s'.Login lib bc req' r1 r2 r3 ∧
      (∀ pair, s.Login lib bc req t1 t2 t3 ≠ .ok pair) ∧
      (∀ pair, s'.Login lib bc req' r1 r2 r3 ≠ .ok pair) ∧
      ServiceError.Error (.errorf "invalid email or password") = "invalid email or password" := by
  have h1 : s.Login lib bc req t1 t2 t3 = .error (.errorf "invalid email or password") := by
    simp only [UserService.Login, hnot]
  have h2 : s'.Login lib bc req' r1 r2 r3 = .error (.errorf "invalid email or password") := by
    simp only [UserService.Login, hfound, hbad]
  refine ⟨h1, h2, h1.trans h2.symm, ?_, ?_, rfl⟩
  · intro pair hp
    rw [h1] at hp
    cases hp
  · intro pair hp
    rw [h2] at hp
    cases hp

/-- On the reference store, an unknown email and a wrong password give equal
results. -/
theorem C19_login_uniform_failure_witness :
    Ref.service.userRepo.GetByEmail Ref.unknownEmailLogin.Email = .error "user not found" ∧
      Ref.service.userRepo.GetByEmail Ref.wrongPasswordLogin.Email = .ok Ref.row ∧
      VerifyPassword Ref.bcrypt Ref.row.PasswordHash Ref.wrongPasswordLogin.Password =
        some .ErrMismatchedHashAndPassword ∧
      Ref.service.Login Ref.lib Ref.bcrypt Ref.unknownEmailLogin Ref.t1 Ref.t2 Ref.t3 =
        Ref.service.Login Ref.lib Ref.bcrypt Ref.wrongPasswordLogin Ref.t1 Ref.t2 Ref.t3 :=
  ⟨by decide, by decide, by decide,
    (C19_login_uniform_failure Ref.lib Ref.bcrypt Ref.service Ref.service Ref.unknownEmailLogin
      Ref.wrongPasswordLogin Ref.t1 Ref.t2 Ref.t3 Ref.t1 Ref.t2 Ref.t3 "user not found" Ref.row
      .ErrMismatchedHashAndPassword (by decide) (by decide) (by decide)).2.2.1⟩

/-- Claim C20 (password policy), as the code behaves. `IsValidPassword` holds
exactly when the password has at least 8 bytes (`len` of a Go string is the
length of its UTF-8 encoding). A password of at least 8 characters is valid,
and for an ASCII password validity is having at least 8 characters; but the
password `passwör` has 7 characters, 8 bytes, and is valid. -/
theorem C20_password_length_in_bytes :
    (∀ p, IsValidPassword p = true ↔ 8 ≤ len p) ∧
    (∀ p, len p = (stringBytes p).length) ∧
    (∀ p, 8 ≤ p.length → IsValidPassword p = true) ∧
    (∀ p, (∀ c ∈ p.toList, c.toNat < 128) → (IsValidPassword p = true ↔ 8 ≤ p.length)) ∧
    Ref.shortPassword.length = 7 ∧
    len Ref.shortPassword = 8 ∧
    IsValidPassword Ref.shortPassword = true := by
  refine ⟨?_, len_eq_stringBytes, ?_, ?_, by decide, by decide, by decide⟩
  · intro p
    simp [IsValidPassword, MinPasswordLength]
  · intro p hp
    have := length_le_len p
    simp only [IsValidPassword, MinPasswordLength, decide_eq_true_eq]
    omega
  · intro p hp
    simp only [IsValidPassword, MinPasswordLength, decide_eq_true_eq, len_ascii p hp]

/-- Claim C21, refuted as stated. A password of 73 bytes is not hashed, although
the random source delivers: `HashPassword` returns the library's
`ErrPasswordTooLong`. So it is for every password of more than 72 bytes, with
every cipher and whatever the random source delivers. -/
theorem C21_long_password_counterexample :
    len Ref.longPassword = 73 ∧ 16 ≤ Ref.entropy.length ∧
      HashPassword (xcrypto Ref.blowfish) Ref.longPassword Ref.entropy =
        .error .ErrPasswordTooLong ∧
      ∀ (bf : Blowfish) (p : String) (entropy : Bytes), 72 < len p →
        HashPassword (xcrypto bf) p entropy = .error .ErrPasswordTooLong := by
  refine ⟨by decide, by decide, by decide, ?_⟩
  intro bf p entropy hp
  rw [HashPassword_xcrypto, if_pos hp]

/-- Claim C21, amended (hash, then verify). For a password of at most 72 bytes,
`HashPassword` fails only when the random source delivers fewer than the 16
bytes of the salt; otherwise it returns a digest, and `VerifyPassword` of that
digest and the same password reports a match. Nothing is assumed of the
cipher. -/
theorem C21_hash_then_verify (bf : Blowfish) (p : String) (entropy : Bytes)
    (hp : len p ≤ 72) :
    (entropy.length < 16 → HashPassword (xcrypto bf) p entropy = .error .RandError) ∧
    (16 ≤ entropy.length →
      ∃ digest, HashPassword (xcrypto bf) p entropy = .ok digest ∧
        VerifyPassword (xcrypto bf) digest p = none) := by
  have hp' : ¬ len p > 72 := by omega
  constructor
  · intro he
    rw [HashPassword_xcrypto, if_neg hp', if_pos he]
  · intro he
    have he' : ¬ entropy.length < 16 := by omega
    have hs := salt_facts entropy he
    obtain ⟨hash, hb, hl, ha⟩ :=
      bcrypt_of_decodes bf (stringBytes p) 12 (base64Encode (entropy.take maxSaltSize)) hs.2
    refine ⟨asciiString (ascii "$2a$12$" ++ base64Encode (entropy.take maxSaltSize) ++ hash),
      ?_, ?_⟩
    · rw [HashPassword_xcrypto, if_neg hp', if_neg he']
      simp only [hb]
    · rw [VerifyPassword_xcrypto bf _ _ p hs.1 hl hs.2 (base64Encode_lt _) ha, if_pos hb]

/-- The reference password is hashed and verifies against its digest. -/
theorem C21_hash_then_verify_witness :
    len Ref.password ≤ 72 ∧
      ∃ digest, HashPassword (xcrypto Ref.blowfish) Ref.password Ref.entropy = .ok digest ∧
        VerifyPassword (xcrypto Ref.blowfish) digest Ref.password = none :=
  ⟨by decide,
    (C21_hash_then_verify Ref.blowfish Ref.password Ref.entropy (by decide)).2 (by decide)⟩

/-- Claim C22, refuted as stated. A password of 72 bytes and the same password
with one more character are different, and yet, with every cipher and every
salt, the longer one verifies against the digest of the shorter one: the
cipher reads the first 72 bytes of the key only. -/
theorem C22_truncation_counterexample :
    Ref.password73 ≠ Ref.password72 ∧ len Ref.password72 = 72 ∧
      ∀ (bf : Blowfish) (entropy : Bytes), 16 ≤ entropy.length →
        ∃ digest, HashPassword (xcrypto bf) Ref.password72 entropy = .ok digest ∧
          VerifyPassword (xcrypto bf) digest Ref.password73 = none := by
  refine ⟨by decide, by decide, ?_⟩
  intro bf entropy he
  have hp' : ¬ len Ref.password72 > 72 := by decide
  have he' : ¬ entropy.length < 16 := by omega
  have hs := salt_facts entropy he
  obtain ⟨hash, hb, hl, ha⟩ :=
    bcrypt_of_decodes bf (stringBytes Ref.password72) 12
      (base64Encode (entropy.take maxSaltSize)) hs.2
  have hk : keyWords (stringBytes Ref.password73 ++ [0]) =
      keyWords (stringBytes Ref.password72 ++ [0]) := by decide
  refine ⟨asciiString (ascii "$2a$12$" ++ base64Encode (entropy.take maxSaltSize) ++ hash),
    ?_, ?_⟩
  · rw [HashPassword_xcrypto, if_neg hp', if_neg he']
    simp only [hb]
  · rw [VerifyPassword_xcrypto bf _ _ _ hs.1 hl hs.2 (base64Encode_lt _) ha,
      bcrypt_congr bf _ _ 12 _ hk, if_pos hb]

/-- Claim C22, amended. For a digest that `HashPassword` has returned for `p`,
`VerifyPassword` reports a mismatch for `q` exactly when `q`, hashed again
under the salt and the cost of the digest, gives another hash than `p`; the
mismatch is then `ErrMismatchedHashAndPassword`. Two passwords that give the
same key words (the password followed by a zero byte, repeated up to 72
bytes) verify against each other's digests. -/
theorem C22_mismatch_iff_rehash_differs (bf : Blowfish) (p q : String) (entropy : Bytes)
    (digest : String) (h : HashPassword (xcrypto bf) p entropy = .ok digest) :
    (VerifyPassword (xcrypto bf) digest q ≠ none ↔
      bcrypt bf (stringBytes q) 12 (saltOf entropy) ≠
        bcrypt bf (stringBytes p) 12 (saltOf entropy)) ∧
    (VerifyPassword (xcrypto bf) digest q ≠ none →
      VerifyPassword (xcrypto bf) digest q = some .ErrMismatchedHashAndPassword) ∧
    (keyWords (stringBytes q ++ [0]) = keyWords (stringBytes p ++ [0]) →
      VerifyPassword (xcrypto bf) digest q = none) := by
  rw [HashPassword_xcrypto] at h
  by_cases hp : len p > 72
  · rw [if_pos hp] at h
    cases h
  rw [if_neg hp] at h
  by_cases he : entropy.length < 16
  · rw [if_pos he] at h
    cases h
  rw [if_neg he] at h
  have hs := salt_facts entropy (by omega)
  obtain ⟨hash, hb, hl, ha⟩ :=
    bcrypt_of_decodes bf (stringBytes p) 12 (base64Encode (entropy.take maxSaltSize)) hs.2
  simp only [hb, Except.ok.injEq] at h
  subst h
  have hv := VerifyPassword_xcrypto bf _ _ q hs.1 hl hs.2 (base64Encode_lt _) ha
  simp only [saltOf, hb]
  by_cases hq : bcrypt bf (stringBytes q) 12 (base64Encode (entropy.take maxSaltSize)) = .ok hash
  · rw [if_pos hq] at hv
    exact ⟨⟨fun hne => absurd hv hne, fun hne => absurd hq hne⟩, fun hne => absurd hv hne,
      fun _ => hv⟩
  · rw [if_neg hq] at hv
    refine ⟨⟨fun _ => hq, fun _ => ?_⟩, fun _ => hv, ?_⟩
    · rw [hv]
      exact Option.some_ne_none _
    · intro hk
      exact absurd ((bcrypt_congr bf _ _ 12 _ hk).trans hb) hq

/-- Against the digest of the reference password, the password `wrong horse`
is reported as a mismatch. -/
theorem C22_mismatch_iff_rehash_differs_witness :
    HashPassword (xcrypto Ref.blowfish) Ref.password Ref.entropy = .ok Ref.digest ∧
      VerifyPassword (xcrypto Ref.blowfish) Ref.digest "wrong horse" =
        some .ErrMismatchedHashAndPassword :=
  ⟨Ref_HashPassword,
    (C22_mismatch_iff_rehash_differs Ref.blowfish Ref.password "wrong horse" Ref.entropy
      Ref.digest Ref_HashPassword).2.1
      ((C22_mismatch_iff_rehash_differs Ref.blowfish Ref.password "wrong horse" Ref.entropy
        Ref.digest Ref_HashPassword).1.mpr
        (by rw [saltOf, Ref_bcrypt_wrong, Ref_bcrypt_password]; decide))⟩

/-- Claim C23, refuted as stated. The digest of the reference password embeds
cost 12, and no environment variable carries the cost: whichever variable is
named, in an environment that sets it to 14 the digest still embeds 12. -/
theorem C23_configured_cost_counterexample :
    HashPassword (xcrypto Ref.blowfish) Ref.password Ref.entropy = .ok Ref.digest ∧
      hashCost Ref.digest = some 12 ∧
      ¬ ∃ key : String, ∀ (env : String → String) (cost : Int),
          Atoi (env key) = some cost →
            ∀ digest, HashPassword (xcrypto Ref.blowfish) Ref.password Ref.entropy = .ok digest →
              hashCost digest = some cost := by
  have hc : hashCost Ref.digest = some 12 := by decide
  refine ⟨Ref_HashPassword, hc, ?_⟩
  rintro ⟨key, h⟩
  have h14 := h Ref.fourteenEnv 14 (show Atoi "14" = some 14 from by decide) Ref.digest Ref_HashPassword
  rw [hc] at h14
  exact absurd h14 (by decide)

/-- Claim C23, amended (the cost is the constant). Every digest that
`HashPassword` returns begins with `$2a$12$` and embeds cost 12, the constant
`DefaultCost` of `password.go`, which `HashPassword` passes to
`GenerateFromPassword` whatever the library and the process configuration
are. -/
theorem C23_cost_is_the_constant (bf : Blowfish) (p : String) (entropy : Bytes)
    (digest : String) (h : HashPassword (xcrypto bf) p entropy = .ok digest) :
    hashCost digest = some 12 ∧
      (stringBytes digest).take 7 = ascii "$2a$12$" ∧
      DefaultCost = 12 ∧
      ∀ bc : Bcrypt, HashPassword bc p entropy = bc.GenerateFromPassword p DefaultCost entropy := by
  obtain ⟨_, he, hash, hl, ha, _, hd⟩ := HashPassword_xcrypto_ok bf p entropy digest h
  have hs := salt_facts entropy he
  have hg := hashCost_generated (saltOf entropy) hash hs.1 hl (base64Encode_lt _) ha
  rw [← hd] at hg
  refine ⟨hg.1, hg.2, rfl, ?_⟩
  intro bc
  unfold HashPassword
  cases bc.GenerateFromPassword p DefaultCost entropy <;> rfl

/-- The digest of the reference password embeds cost 12. -/
theorem C23_cost_is_the_constant_witness :
    HashPassword (xcrypto Ref.blowfish) Ref.password Ref.entropy = .ok Ref.digest ∧
      hashCost Ref.digest = some 12 :=
  ⟨Ref_HashPassword,
    (C23_cost_is_the_constant Ref.blowfish Ref.password Ref.entropy Ref.digest
      Ref_HashPassword).1⟩

/-- Claim C24, refuted as stated. With `JWT_EXPIRY_HOURS=2562048` the lifetime is
resolved to 2562048 hours, but `GetJWTExpiry` is the negative duration
`-9223371273709551616`, not 2562048 times one hour: the 64-bit product wraps
around. With `JWT_EXPIRY_HOURS=99999999999999999999`, an integer that
`strconv.Atoi` rejects as out of range, the lifetime is the default 24. -/
theorem C24_overflow_counterexample :
    Atoi (Ref.hugeHoursEnv "JWT_EXPIRY_HOURS") = some 2562048 ∧
      (Load Ref.hugeHoursEnv).JWT.ExpiryHours = 2562048 ∧
      (Load Ref.hugeHoursEnv).GetJWTExpiry = -9223371273709551616 ∧
      (Load Ref.hugeHoursEnv).GetJWTExpiry ≠ (Load Ref.hugeHoursEnv).JWT.ExpiryHours * Hour ∧
      Ref.outOfRangeEnv "JWT_EXPIRY_HOURS" = "99999999999999999999" ∧
      (Load Ref.outOfRangeEnv).JWT.ExpiryHours = 24 := by
  decide

/-- Claim C24, amended (resolution of the JWT inputs). The secret is the value
of `JWT_SECRET` when that is not empty and the default otherwise, and is never
empty. Each lifetime is the number that `strconv.Atoi` reads from its variable
and, when it reads none (the variable unset or empty included), the default:
24 hours and 168 hours. `GetJWTExpiry` and `GetJWTRefreshExpiry` are the
resolved number of hours times one hour whenever that number is between
-2562047 and 2562047. -/
theorem C24_jwt_configuration (env : String → String) :
    (env "JWT_SECRET" ≠ "" → (Load env).JWT.Secret = env "JWT_SECRET") ∧
    (env "JWT_SECRET" = "" →
      (Load env).JWT.Secret = "your-super-secret-jwt-key-change-in-production") ∧
    (Load env).JWT.Secret ≠ "" ∧
    Atoi "" = none ∧
    (∀ n, Atoi (env "JWT_EXPIRY_HOURS") = some n → (Load env).JWT.ExpiryHours = n) ∧
    (Atoi (env "JWT_EXPIRY_HOURS") = none → (Load env).JWT.ExpiryHours = 24) ∧
    (∀ n, Atoi (env "JWT_REFRESH_EXPIRY_HOURS") = some n →
      (Load env).JWT.RefreshExpiryHours = n) ∧
    (Atoi (env "JWT_REFRESH_EXPIRY_HOURS") = none → (Load env).JWT.RefreshExpiryHours = 168) ∧
    (-2562047 ≤ (Load env).JWT.ExpiryHours → (Load env).JWT.ExpiryHours ≤ 2562047 →
      (Load env).GetJWTExpiry = (Load env).JWT.ExpiryHours * Hour) ∧
    (-2562047 ≤ (Load env).JWT.RefreshExpiryHours →
      (Load env).JWT.RefreshExpiryHours ≤ 2562047 →
      (Load env).GetJWTRefreshExpiry = (Load env).JWT.RefreshExpiryHours * Hour) := by
  have hd : ("your-super-secret-jwt-key-change-in-production" : String) ≠ "" := by decide
  refine ⟨?_, ?_, ?_, by decide, ?_, ?_, ?_, ?_, ?_, ?_⟩
  · intro h
    simp [Load, getEnv, h]
  · intro h
    simp [Load, getEnv, h]
  · by_cases h : env "JWT_SECRET" = ""
    · simp only [Load, getEnv, h, ne_eq, not_true_eq_false, if_false]
      exact hd
    · simp only [Load, getEnv, ne_eq, h, not_false_eq_true, if_true]
  · intro n h
    simp only [Load, getEnvAsInt_eq, h, Option.getD_some]
  · intro h
    simp only [Load, getEnvAsInt_eq, h, Option.getD_none]
  · intro n h
    simp only [Load, getEnvAsInt_eq, h, Option.getD_some]
  · intro h
    simp only [Load, getEnvAsInt_eq, h, Option.getD_none]
  · intro h1 h2
    unfold Config.GetJWTExpiry
    apply wrap64_of_range <;> simp only [Hour] <;> omega
  · intro h1 h2
    unfold Config.GetJWTRefreshExpiry
    apply wrap64_of_range <;> simp only [Hour] <;> omega

/-- With `JWT_SECRET=s3cret`, `JWT_EXPIRY_HOURS=1` and
`JWT_REFRESH_EXPIRY_HOURS=a week`: the secret and the access lifetime are those
of the environment, the refresh lifetime is the default, and `GetJWTExpiry` is
one hour. -/
theorem C24_jwt_configuration_witness :
    (Load Ref.customEnv).JWT.Secret = "s3cret" ∧
      (Load Ref.customEnv).JWT.ExpiryHours = 1 ∧
      (Load Ref.customEnv).JWT.RefreshExpiryHours = 168 ∧
      (Load Ref.customEnv).GetJWTExpiry = (Load Ref.customEnv).JWT.ExpiryHours * Hour :=
  ⟨(C24_jwt_configuration Ref.customEnv).1 (by decide),
    (C24_jwt_configuration Ref.customEnv).2.2.2.2.1 1 (by decide),
    (C24_jwt_configuration Ref.customEnv).2.2.2.2.2.2.2.1 (by decide),
    (C24_jwt_configuration Ref.customEnv).2.2.2.2.2.2.2.2.1 (by decide) (by decide)⟩

/-- Claim C25 (registration with a password below the policy), as the code
behaves. `Register` returns the error `password must be at least 8 characters
long`, with the store as it was and no call but `IsValidPassword`, for every
password of fewer than 8 bytes. The password `passwör` has 7 characters and 8
bytes: with every hasher and every store `Register` goes on to hash it and
does not return the policy error, and on the reference service it returns a
token pair and leaves a new row in the store. -/
theorem C25_register_policy_in_bytes :
    (∀ (lib : Lib) (bc : Bcrypt) (s : UserService) (req : CreateUserRequest) (entropy : Bytes)
        (id : UUID) (dbNow t1 t2 t3 : Int), len req.Password < 8 →
      (s.Register lib bc req entropy id dbNow t1 t2 t3).result =
          .error (.errorf "password must be at least 8 characters long") ∧
        (s.Register lib bc req entropy id dbNow t1 t2 t3).userRepo = s.userRepo ∧
        (s.Register lib bc req entropy id dbNow t1 t2 t3).calls =
          [.IsValidPassword req.Password]) ∧
    Ref.sevenCharacterRegistration.Password.length = 7 ∧
    len Ref.sevenCharacterRegistration.Password = 8 ∧
    (∀ (lib : Lib) (bc : Bcrypt) (s : UserService) (entropy : Bytes) (id : UUID)
        (dbNow t1 t2 t3 : Int),
      Call.HashPassword Ref.sevenCharacterRegistration.Password ∈
          (s.Register lib bc Ref.sevenCharacterRegistration entropy id dbNow t1 t2 t3).calls ∧
        (s.Register lib bc Ref.sevenCharacterRegistration entropy id dbNow t1 t2 t3).result ≠
          .error (.errorf "password must be at least 8 characters long")) ∧
    (∃ digest,
      HashPassword (xcrypto Ref.blowfish) Ref.sevenCharacterRegistration.Password Ref.entropy =
          .ok digest ∧
        (∃ response,
          (Ref.service.Register Ref.lib (xcrypto Ref.blowfish) Ref.sevenCharacterRegistration
              Ref.entropy 8 Ref.later Ref.t1 Ref.t2 Ref.t3).result = .ok response ∧
            response.User = { ID := 8, Email := "new@b.c" } ∧
            response.AccessToken ≠ [] ∧ response.RefreshToken ≠ []) ∧
        (Ref.service.Register Ref.lib (xcrypto Ref.blowfish) Ref.sevenCharacterRegistration
            Ref.entropy 8 Ref.later Ref.t1 Ref.t2 Ref.t3).userRepo.users =
          [Ref.row,
            { ID := 8, Email := "new@b.c", PasswordHash := digest, FirstName := "Cy",
              LastName := "Dee", Phone := none, DateOfBirth := none, Address := none,
              IsActive := true, IsVerified := false, CreatedAt := Ref.later,
              UpdatedAt := Ref.later }]) := by
  refine ⟨?_, by decide, by decide, ?_, ?_⟩
  · intro lib bc s req entropy id dbNow t1 t2 t3 h
    have hv : IsValidPassword req.Password = false := by
      simp only [IsValidPassword, MinPasswordLength, decide_eq_false_iff_not]
      omega
    have := Register_of_invalid lib bc s req entropy id dbNow t1 t2 t3 hv
    exact ⟨this.1, this.2.1, this.2.2.1⟩
  · intro lib bc s entropy id dbNow t1 t2 t3
    exact Register_hashes_of_valid lib bc s Ref.sevenCharacterRegistration entropy id dbNow
      t1 t2 t3 (by decide)
  · obtain ⟨digest, hd⟩ := HashPassword_xcrypto_exists Ref.blowfish
      Ref.sevenCharacterRegistration.Password Ref.entropy (by decide) (by decide)
    have := Register_of_valid Ref.lib (xcrypto Ref.blowfish) Ref.service
      Ref.sevenCharacterRegistration Ref.entropy 8 Ref.later Ref.t1 Ref.t2 Ref.t3 digest
      (by decide) hd (by decide) (by decide)
    exact ⟨digest, hd, ⟨_, this.1, rfl, signedToken_ne_nil _ _ _ _, signedToken_ne_nil _ _ _ _⟩,
      this.2.1⟩

/-- Claim C26 (change of password). If the lookup fails, the current password
does not verify, the new password fails the policy or hashing fails,
`ChangePassword` returns an error, leaves the user store as it was and does
not call `UpdatePassword`. A call of `UpdatePassword` is for the user at hand
with the digest that `HashPassword` returned for the new password, after the
lookup, the verification and the policy have passed. When the policy is
checked, the lookup and the successful verification of the current password
come before it. When all pass, the calls are the five in the order of the
source and the store is what `UpdatePassword` leaves. -/
theorem C26_change_password_atomic (bc : Bcrypt) (s : UserService) (userID : UUID)
    (currentPassword newPassword : String) (entropy : Bytes) (now : Int)
    (rowsErr : Option String) :
    (((∀ user, s.userRepo.GetByID userID ≠ .ok user) ∨
        (∃ user, s.userRepo.GetByID userID = .ok user ∧
          VerifyPassword bc user.PasswordHash currentPassword ≠ none) ∨
        IsValidPassword newPassword = false ∨
        (∃ err, HashPassword bc newPassword entropy = .error err)) →
      (∃ err, (s.ChangePassword bc userID currentPassword newPassword entropy now
          rowsErr).result = .error err) ∧
        (s.ChangePassword bc userID currentPassword newPassword entropy now
          rowsErr).userRepo = s.userRepo ∧
        ∀ id digest, Call.UpdatePassword id digest ∉
          (s.ChangePassword bc userID currentPassword newPassword entropy now rowsErr).calls) ∧
    (∀ id digest, Call.UpdatePassword id digest ∈
        (s.ChangePassword bc userID currentPassword newPassword entropy now rowsErr).calls →
      id = userID ∧ HashPassword bc newPassword entropy = .ok digest ∧
        IsValidPassword newPassword = true ∧
        ∃ user, s.userRepo.GetByID userID = .ok user ∧
          VerifyPassword bc user.PasswordHash currentPassword = none) ∧
    (∀ password, Call.IsValidPassword password ∈
        (s.ChangePassword bc userID currentPassword newPassword entropy now rowsErr).calls →
      ∃ user, s.userRepo.GetByID userID = .ok user ∧
        VerifyPassword bc user.PasswordHash currentPassword = none ∧
        (s.ChangePassword bc userID currentPassword newPassword entropy now
          rowsErr).calls.take 3 =
          [.GetByID userID, .VerifyPassword user.PasswordHash currentPassword,
            .IsValidPassword newPassword]) ∧
    (∀ user digest, s.userRepo.GetByID userID = .ok user →
      VerifyPassword bc user.PasswordHash currentPassword = none →
      IsValidPassword newPassword = true →
      HashPassword bc newPassword entropy = .ok digest →
      (s.ChangePassword bc userID currentPassword newPassword entropy now rowsErr).calls =
          [.GetByID userID, .VerifyPassword user.PasswordHash currentPassword,
            .IsValidPassword newPassword, .HashPassword newPassword,
            .UpdatePassword userID digest] ∧
        (s.ChangePassword bc userID currentPassword newPassword entropy now
          rowsErr).userRepo = (s.userRepo.UpdatePassword userID digest now rowsErr).2) := by
  unfold UserService.ChangePassword
  cases hg : s.userRepo.GetByID userID with
  | error err => simp
  | ok user =>
    cases hv : VerifyPassword bc user.PasswordHash currentPassword with
    | some err =>
      simp only [hv]
      refine ⟨by simp, by simp, by simp, ?_⟩
      intro user2 digest h2 hv2
      cases h2
      rw [hv] at hv2
      cases hv2
    | none =>
      cases hi : IsValidPassword newPassword with
      | false => simp [hv]
      | true =>
        cases hh : HashPassword bc newPassword entropy with
        | error err => simp [hv]
        | ok digest => simp [hv]

/-- On the reference service: with the right current password the five calls
are made, the last with the digest of the new password; with a wrong current
password the store is left as it was. -/
theorem C26_change_password_atomic_witness :
    (Ref.service.ChangePassword Ref.bcrypt 7 "correct horse" "new password" Ref.entropy
        Ref.later none).calls =
      [.GetByID 7, .VerifyPassword Ref.row.PasswordHash "correct horse",
        .IsValidPassword "new password", .HashPassword "new password",
        .UpdatePassword 7 Ref.newDigest] ∧
    (Ref.service.ChangePassword Ref.bcrypt 7 "wrong horse" "new password" Ref.entropy
        Ref.later none).userRepo = Ref.service.userRepo :=
  ⟨((C26_change_password_atomic Ref.bcrypt Ref.service 7 "correct horse" "new password"
      Ref.entropy Ref.later none).2.2.2 Ref.row Ref.newDigest (by decide) (by decide)
      (by decide) (by decide)).1,
    ((C26_change_password_atomic Ref.bcrypt Ref.service 7 "wrong horse" "new password"
      Ref.entropy Ref.later none).1
      (Or.inr (Or.inl ⟨Ref.row, by decide, by decide⟩))).2.1⟩

end FinTx
